import Mathlib

/-!
# Cute Framework transport internals: sequence buffer, ack system and reliable transport

A shallow embedding of `src/internal/cute_transport_internal.cpp`, together with the packet size
limits of `cute_protocol.h`.

* `uint16_t` values are natural numbers reduced modulo 65536 at every place where the C code
  converts to `uint16_t` (function parameters, assignments to `uint16_t` variables and fields).
* A sequence buffer keeps its tag array `entry_sequence` and its slot array `entry_data` as lists
  of length `capacity`; the pointer `entry_data + index * stride` is modelled by `index`.
* A cleanup callback is a function on the slot contents; `NULL` is `none`.
* `float` and `double` quantities (time stamps, round trip time, packet loss, bandwidth) are
  carried as exact rationals.
* A function whose C code can write through a `NULL` pointer, access an array outside its bounds,
  copy a negative number of bytes, free memory twice or divide an `int` by zero returns an
  `Option`; `none` stands for that undefined behaviour.
* `CUTE_ASSERT`s are not part of the model, and every allocation succeeds.
-/

namespace cute

/-! ## Definitions -/

/-- The tag `0xFFFFFFFF` stored in `entry_sequence` for a slot that holds nothing. -/
def ENTRY_EMPTY : Nat := 0xFFFFFFFF

/-- The struct `sequence_buffer_t`: current sequence (`uint16_t`), capacity, the tags and the slots.
The byte stride and the allocator context play no part in the model. -/
structure sequence_buffer_t (α : Type) where
  sequence : Nat
  capacity : Nat
  entry_sequence : List Nat
  entry_data : List α
deriving DecidableEq, Repr

/-- The state of a buffer whose arrays were allocated with `capacity` elements. -/
def sequence_buffer_t.wf {α : Type} (buffer : sequence_buffer_t α) : Prop :=
  1 ≤ buffer.capacity ∧ buffer.entry_sequence.length = buffer.capacity ∧
    buffer.entry_data.length = buffer.capacity ∧ buffer.sequence < 65536

instance {α : Type} (buffer : sequence_buffer_t α) : Decidable buffer.wf := by
  unfold sequence_buffer_t.wf
  infer_instance

/-- Read of `buffer->entry_sequence[index]`. -/
def sequence_buffer_t.tag {α : Type} (buffer : sequence_buffer_t α) (index : Nat) : Nat :=
  buffer.entry_sequence.getD index ENTRY_EMPTY

/-- The call `cleanup_fn(buffer->entry_data + buffer->stride * index, buffer->mem_ctx)`, guarded by
`if (cleanup_fn)`. -/
def run_cleanup {α : Type} (cleanup_fn : Option (α → α)) (entry_data : List α) (index : Nat) :
    List α :=
  match cleanup_fn, entry_data[index]? with
  | some f, some x => entry_data.set index (f x)
  | _, _ => entry_data

/-- Body of both loops of `s_sequence_buffer_remove_entries`: clean up the slot and mark it empty. -/
def remove_entry {α : Type} (buffer : sequence_buffer_t α) (index : Nat)
    (cleanup_fn : Option (α → α)) : sequence_buffer_t α :=
  { buffer with
    entry_data := run_cleanup cleanup_fn buffer.entry_data index
    entry_sequence := buffer.entry_sequence.set index ENTRY_EMPTY }

/-- The function `s_sequence_buffer_remove_entries` (lines 82-99). The arguments are `int`s; the
loop variable runs from `sequence_a` to `sequence_b` inclusive and is not reduced modulo 65536. -/
def s_sequence_buffer_remove_entries {α : Type} (buffer : sequence_buffer_t α)
    (sequence_a sequence_b : Nat) (cleanup_fn : Option (α → α)) : sequence_buffer_t α :=
  let sequence_b := if sequence_b < sequence_a then sequence_b + 65536 else sequence_b
  if (sequence_b : Int) - sequence_a < buffer.capacity then
    (List.range (sequence_b + 1 - sequence_a)).foldl
      (fun buf k => remove_entry buf ((sequence_a + k) % buffer.capacity) cleanup_fn) buffer
  else
    (List.range buffer.capacity).foldl (fun buf i => remove_entry buf i cleanup_fn) buffer

/-- The function `s_sequence_greater_than` (lines 101-105); both parameters are `uint16_t`, the
subtractions are done on `int`. -/
def s_sequence_greater_than (a b : Nat) : Bool :=
  let a := a % 65536
  let b := b % 65536
  (decide (a > b) && decide ((a : Int) - b ≤ 32768)) ||
    (decide (a < b) && decide ((b : Int) - a > 32768))

/-- The function `s_sequence_less_than` (lines 107-110). -/
def s_sequence_less_than (a b : Nat) : Bool :=
  s_sequence_greater_than b a

/-- The function `sequence_buffer_advance` (lines 112-118). -/
def sequence_buffer_advance {α : Type} (buffer : sequence_buffer_t α) (sequence : Nat) :
    sequence_buffer_t α :=
  let sequence := sequence % 65536
  if s_sequence_greater_than (sequence + 1) buffer.sequence then
    let buffer := s_sequence_buffer_remove_entries buffer buffer.sequence sequence none
    { buffer with sequence := (sequence + 1) % 65536 }
  else buffer

/-- The function `s_sequence_is_stale` (lines 120-123): the second argument
`buffer->sequence - ((uint16_t)buffer->capacity)` is an `int` converted to `uint16_t`. -/
def s_sequence_is_stale {α : Type} (buffer : sequence_buffer_t α) (sequence : Nat) : Bool :=
  s_sequence_less_than sequence (buffer.sequence + 65536 - buffer.capacity % 65536)

/-- Lines 133-138 of `sequence_buffer_insert`: clean up an occupied slot, write the tag, return
the slot. -/
def sequence_buffer_store {α : Type} (buffer : sequence_buffer_t α) (sequence : Nat)
    (cleanup_fn : Option (α → α)) : Option Nat × sequence_buffer_t α :=
  let index := sequence % buffer.capacity
  let entry_data :=
    if buffer.tag index ≠ ENTRY_EMPTY then run_cleanup cleanup_fn buffer.entry_data index
    else buffer.entry_data
  (some index,
    { buffer with entry_data := entry_data
                  entry_sequence := buffer.entry_sequence.set index sequence })

/-- The function `sequence_buffer_insert` (lines 125-139). The result is the returned slot
(`none` for `NULL`) and the buffer afterwards. -/
def sequence_buffer_insert {α : Type} (buffer : sequence_buffer_t α) (sequence : Nat)
    (cleanup_fn : Option (α → α)) : Option Nat × sequence_buffer_t α :=
  let sequence := sequence % 65536
  if s_sequence_greater_than (sequence + 1) buffer.sequence then
    let buffer := s_sequence_buffer_remove_entries buffer buffer.sequence sequence cleanup_fn
    sequence_buffer_store { buffer with sequence := (sequence + 1) % 65536 } sequence cleanup_fn
  else if s_sequence_is_stale buffer sequence then
    (none, buffer)
  else
    sequence_buffer_store buffer sequence cleanup_fn

/-- The function `sequence_buffer_remove` (lines 141-149). -/
def sequence_buffer_remove {α : Type} (buffer : sequence_buffer_t α) (sequence : Nat)
    (cleanup_fn : Option (α → α)) : sequence_buffer_t α :=
  let index := (sequence % 65536) % buffer.capacity
  if buffer.tag index ≠ ENTRY_EMPTY then
    { buffer with
      entry_sequence := buffer.entry_sequence.set index ENTRY_EMPTY
      entry_data := run_cleanup cleanup_fn buffer.entry_data index }
  else buffer

/-- The function `sequence_buffer_reset` (lines 71-80). -/
def sequence_buffer_reset {α : Type} (buffer : sequence_buffer_t α)
    (cleanup_fn : Option (α → α)) : sequence_buffer_t α :=
  let buffer :=
    (List.range buffer.capacity).foldl (fun buf i => sequence_buffer_remove buf i cleanup_fn) buffer
  { buffer with sequence := 0
                entry_sequence := List.replicate buffer.capacity ENTRY_EMPTY }

/-- The function `sequence_buffer_init` (lines 40-57) when both allocations succeed; `fill` is
the content of the freshly allocated slots. -/
def sequence_buffer_init {α : Type} (capacity : Nat) (fill : α) : sequence_buffer_t α :=
  sequence_buffer_reset
    { sequence := 0, capacity := capacity,
      entry_sequence := List.replicate capacity ENTRY_EMPTY,
      entry_data := List.replicate capacity fill } none

/-- The function `sequence_buffer_is_empty` (lines 151-154). -/
def sequence_buffer_is_empty {α : Type} (buffer : sequence_buffer_t α) (sequence : Nat) : Bool :=
  decide (buffer.tag ((sequence % 65536) % buffer.capacity) = ENTRY_EMPTY)

/-- The function `sequence_buffer_find` (lines 156-160): the slot index, or `none` for `NULL`. -/
def sequence_buffer_find {α : Type} (buffer : sequence_buffer_t α) (sequence : Nat) : Option Nat :=
  let sequence := sequence % 65536
  let index := sequence % buffer.capacity
  if buffer.tag index = sequence then some index else none

/-- The function `sequence_buffer_at_index` (lines 162-167). -/
def sequence_buffer_at_index {α : Type} (buffer : sequence_buffer_t α) (index : Nat) : Option Nat :=
  if buffer.tag index ≠ ENTRY_EMPTY then some index else none

/-- One pass of the loop of `sequence_buffer_generate_ack_bits` (lines 176-180) on the pair
`(*ack_bits, mask)`. -/
def ack_bits_step {α : Type} (buffer : sequence_buffer_t α) (ack : Nat) (acc : Nat × Nat)
    (i : Nat) : Nat × Nat :=
  let sequence := (ack + 65536 - i % 65536) % 65536
  let ack_bits := if (sequence_buffer_find buffer sequence).isSome then acc.1 ||| acc.2 else acc.1
  (ack_bits, (acc.2 <<< 1) % 4294967296)

/-- The function `sequence_buffer_generate_ack_bits` (lines 169-182): the pair
`(*ack, *ack_bits)`. -/
def sequence_buffer_generate_ack_bits {α : Type} (buffer : sequence_buffer_t α) : Nat × Nat :=
  let ack := (buffer.sequence + 65536 - 1) % 65536
  let acc := (List.range 32).foldl (ack_bits_step buffer ack) (0, 1)
  (ack, acc.1)

/-! ### Ack system -/

/-- Modelled from the spec: the constant `CUTE_ACK_SYSTEM_HEADER_SIZE` of
`internal/cute_transport_internal.h`, which is not among the sources. The spec gives the ack
header as a 2-byte sequence, a 2-byte ack and a 4-byte ack bitmap, 8 bytes in total, and the
source asserts that the written header has this size. -/
def CUTE_ACK_SYSTEM_HEADER_SIZE : Int := 8

/-- The two size limits of `internal/cute_transport_internal.h` whose values neither the sources
nor the spec give; every definition below takes them as a parameter. -/
structure transport_limits_t where
  CUTE_TRANSPORT_PACKET_PAYLOAD_MAX : Int
  CUTE_ACK_SYSTEM_MAX_PACKET_SIZE : Int
deriving DecidableEq, Repr

/-- Modelled from the spec: `write_uint16` of `internal/cute_serialize_internal.h`, which is not
among the sources. The spec fixes the width (2 bytes); the low byte is written first. -/
def write_uint16 (value : Nat) : List Nat :=
  [value % 256, value / 256 % 256]

/-- Modelled from the spec: `write_uint32` of `internal/cute_serialize_internal.h`, which is not
among the sources. The spec fixes the width (4 bytes); the low byte is written first. -/
def write_uint32 (value : Nat) : List Nat :=
  [value % 256, value / 256 % 256, value / 65536 % 256, value / 16777216 % 256]

/-- Modelled from the spec: `read_uint16` of `internal/cute_serialize_internal.h`, which is not
among the sources; the inverse of `write_uint16`. -/
def read_uint16 (buffer : List Nat) : Nat :=
  buffer.getD 0 0 % 256 + 256 * (buffer.getD 1 0 % 256)

/-- Modelled from the spec: `read_uint32` of `internal/cute_serialize_internal.h`, which is not
among the sources; the inverse of `write_uint32`. -/
def read_uint32 (buffer : List Nat) : Nat :=
  buffer.getD 0 0 % 256 + 256 * (buffer.getD 1 0 % 256) + 65536 * (buffer.getD 2 0 % 256) +
    16777216 * (buffer.getD 3 0 % 256)

/-- The struct `sent_packet_t` (lines 211-216). -/
structure sent_packet_t where
  timestamp : ℚ
  acked : Int
  size : Int
deriving DecidableEq, Repr

/-- The struct `received_packet_t` (lines 218-222). -/
structure received_packet_t where
  timestamp : ℚ
  size : Int
deriving DecidableEq, Repr

/-- The members of the enum `ack_system_counter_t` that the source uses as indices of
`ack_system->counters`. -/
inductive ack_system_counter_t where
  | ACK_SYSTEM_COUNTERS_PACKETS_SENT
  | ACK_SYSTEM_COUNTERS_PACKETS_RECEIVED
  | ACK_SYSTEM_COUNTERS_PACKETS_ACKED
  | ACK_SYSTEM_COUNTERS_PACKETS_STALE
  | ACK_SYSTEM_COUNTERS_PACKETS_INVALID
  | ACK_SYSTEM_COUNTERS_PACKETS_TOO_LARGE_TO_SEND
  | ACK_SYSTEM_COUNTERS_PACKETS_TOO_LARGE_TO_RECEIVE
deriving DecidableEq, Repr

open ack_system_counter_t

/-- A call of `send_packet_fn` or `open_packet_fn`: the sequence, the bytes and the size handed
to the callback. -/
structure callback_call_t where
  sequence : Nat
  packet : List Nat
  size : Int
deriving DecidableEq, Repr

/-- The struct `ack_system_t` (lines 186-209). The callbacks are functions of their arguments
(the user data pointer is part of the function); `initial_ack_capacity` only sizes the growth of
the `acks` array and is left out together with the allocator context. -/
structure ack_system_t where
  time : ℚ
  max_packet_size : Int
  send_packet_fn : callback_call_t → Int
  open_packet_fn : callback_call_t → Int
  sequence : Nat
  acks : List Nat
  sent_packets : sequence_buffer_t sent_packet_t
  received_packets : sequence_buffer_t received_packet_t
  rtt : ℚ
  packet_loss : ℚ
  outgoing_bandwidth_kbps : ℚ
  incoming_bandwidth_kbps : ℚ
  counters : ack_system_counter_t → Nat

/-- The fields of `ack_system_config_t` that `ack_system_make` reads; a `NULL` callback is
`none`. -/
structure ack_system_config_t where
  max_packet_size : Int
  sent_packets_sequence_buffer_size : Nat
  received_packets_sequence_buffer_size : Nat
  send_packet_fn : Option (callback_call_t → Int)
  open_packet_fn : Option (callback_call_t → Int)

/-- The statement `ack_system->counters[counter]++` on a `uint64_t` counter. -/
def counter_increment (counters : ack_system_counter_t → Nat) (counter : ack_system_counter_t) :
    ack_system_counter_t → Nat :=
  Function.update counters counter ((counters counter + 1) % 18446744073709551616)

/-- The function `ack_system_make` (lines 224-270) when every allocation succeeds: `none` is the
`NULL` returned for a missing callback or a too large `max_packet_size`. -/
def ack_system_make (limits : transport_limits_t) (config : ack_system_config_t) :
    Option ack_system_t :=
  match config.send_packet_fn, config.open_packet_fn with
  | some send_packet_fn, some open_packet_fn =>
    if config.max_packet_size > limits.CUTE_TRANSPORT_PACKET_PAYLOAD_MAX then none
    else
      some
        { time := 0
          max_packet_size := config.max_packet_size
          send_packet_fn := send_packet_fn
          open_packet_fn := open_packet_fn
          sequence := 0
          acks := []
          sent_packets :=
            sequence_buffer_init config.sent_packets_sequence_buffer_size ⟨0, 0, 0⟩
          received_packets :=
            sequence_buffer_init config.received_packets_sequence_buffer_size ⟨0, 0⟩
          rtt := 0
          packet_loss := 0
          outgoing_bandwidth_kbps := 0
          incoming_bandwidth_kbps := 0
          counters := fun _ => 0 }
  | _, _ => none

/-- The function `ack_system_reset` (lines 280-296). -/
def ack_system_reset (ack_system : ack_system_t) : ack_system_t :=
  { ack_system with
    sequence := 0
    acks := []
    sent_packets := sequence_buffer_reset ack_system.sent_packets none
    received_packets := sequence_buffer_reset ack_system.received_packets none
    rtt := 0
    packet_loss := 0
    outgoing_bandwidth_kbps := 0
    incoming_bandwidth_kbps := 0
    counters := fun _ => 0 }

/-- The function `s_write_ack_system_header` (lines 298-305): the bytes written. The returned
header size is the length of this list. -/
def s_write_ack_system_header (sequence ack ack_bits : Nat) : List Nat :=
  write_uint16 sequence ++ write_uint16 ack ++ write_uint32 ack_bits

/-- What a call of `ack_system_send_packet` leaves behind: the returned status, the value written
to `*sequence_out` (if any), the calls of `send_packet_fn` it made, and the ack system. -/
structure send_packet_result_t where
  ret : Int
  sequence_out : Option Nat
  calls : List callback_call_t
  ack_system : ack_system_t

/-- The function `ack_system_send_packet` (lines 307-339); `data` holds the bytes behind the
pointer and `size` is the `int` argument. The result is `none` when the slot returned by
`sequence_buffer_insert` is `NULL` and is written through all the same, and when `size` is
negative: nothing tests it from below and `CUTE_MEMCPY` takes it as its length (line 329). The
`CUTE_ASSERT`s are not part of the model. -/
def ack_system_send_packet (limits : transport_limits_t) (ack_system : ack_system_t)
    (data : List Nat) (size : Int) : Option send_packet_result_t :=
  if size > ack_system.max_packet_size ∨ size > limits.CUTE_ACK_SYSTEM_MAX_PACKET_SIZE then
    some
      { ret := -1
        sequence_out := none
        calls := []
        ack_system :=
          { ack_system with
            counters :=
              counter_increment ack_system.counters ACK_SYSTEM_COUNTERS_PACKETS_TOO_LARGE_TO_SEND } }
  else
    let sequence := ack_system.sequence
    let ack_system := { ack_system with sequence := (ack_system.sequence + 1) % 65536 }
    let ack_and_bits := sequence_buffer_generate_ack_bits ack_system.received_packets
    let inserted := sequence_buffer_insert ack_system.sent_packets sequence none
    match inserted.1 with
    | none => none
    | some packet =>
      let sent_packets :=
        { inserted.2 with
          entry_data :=
            inserted.2.entry_data.set packet
              { timestamp := ack_system.time, acked := 0,
                size := size + CUTE_ACK_SYSTEM_HEADER_SIZE } }
      let ack_system := { ack_system with sent_packets := sent_packets }
      let header := s_write_ack_system_header sequence ack_and_bits.1 ack_and_bits.2
      let header_size : Int := header.length
      if size < 0 then none
      else
        let buffer := header ++ data.take size.toNat
        let call : callback_call_t :=
          { sequence := sequence, packet := buffer, size := size + header_size }
        if ack_system.send_packet_fn call < (0 : Int) then
          some
            { ret := -1
              sequence_out := none
              calls := [call]
              ack_system :=
                { ack_system with
                  counters :=
                    counter_increment ack_system.counters ACK_SYSTEM_COUNTERS_PACKETS_INVALID } }
        else
          some
            { ret := 0
              sequence_out := some sequence
              calls := [call]
              ack_system :=
                { ack_system with
                  counters :=
                    counter_increment ack_system.counters ACK_SYSTEM_COUNTERS_PACKETS_SENT } }

/-- A series of `ack_system_send_packet` calls, one for each `(data, size)` of the list, each on
the ack system the previous one left. -/
def ack_system_send_packets (limits : transport_limits_t) :
    ack_system_t → List (List Nat × Int) → Option ack_system_t
  | ack_system, [] => some ack_system
  | ack_system, (data, size) :: rest =>
    match ack_system_send_packet limits ack_system data size with
    | none => none
    | some result => ack_system_send_packets limits result.ack_system rest

/-- The function `ack_system_get_sequence` (lines 341-344). -/
def ack_system_get_sequence (ack_system : ack_system_t) : Nat :=
  ack_system.sequence

/-- The function `s_read_ack_system_header` (lines 346-354): `none` for the status -1, else the
triple `(sequence, ack, ack_bits)` read from the first 8 bytes. -/
def s_read_ack_system_header (buffer : List Nat) (size : Int) : Option (Nat × Nat × Nat) :=
  if size < CUTE_ACK_SYSTEM_HEADER_SIZE then none
  else some (read_uint16 buffer, read_uint16 (buffer.drop 2), read_uint32 (buffer.drop 4))

/-- One pass of the loop over the ack bits in `ack_system_receive_packet` (lines 390-411); the
state is the ack system and the shifted `ack_bits`. -/
def receive_ack_step (ack : Nat) (acc : ack_system_t × Nat) (i : Nat) : ack_system_t × Nat :=
  let ack_system := acc.1
  let bit_was_set := acc.2 &&& 1
  let ack_bits := acc.2 >>> 1
  if bit_was_set ≠ 0 then
    let ack_sequence := (ack + 65536 - i % 65536) % 65536
    match sequence_buffer_find ack_system.sent_packets ack_sequence with
    | none => (ack_system, ack_bits)
    | some index =>
      match ack_system.sent_packets.entry_data[index]? with
      | none => (ack_system, ack_bits)
      | some sent_packet =>
        if sent_packet.acked = 0 then
          let rtt_sample : ℚ := ack_system.time - sent_packet.timestamp
          let rtt := ack_system.rtt + (rtt_sample - ack_system.rtt) * (1 / 1000)
          ({ ack_system with
             acks := ack_system.acks ++ [ack_sequence]
             counters :=
               counter_increment ack_system.counters ACK_SYSTEM_COUNTERS_PACKETS_ACKED
             sent_packets :=
               { ack_system.sent_packets with
                 entry_data :=
                   ack_system.sent_packets.entry_data.set index { sent_packet with acked := 1 } }
             rtt := if rtt < 0 then 0 else rtt }, ack_bits)
        else (ack_system, ack_bits)
  else (ack_system, ack_bits)

/-- What a call of `ack_system_receive_packet` leaves behind: the returned status, the calls of
`open_packet_fn` it made, and the ack system. -/
structure receive_packet_result_t where
  ret : Int
  calls : List callback_call_t
  ack_system : ack_system_t

/-- The function `ack_system_receive_packet` (lines 356-414). The result is `none` when the slot
returned by `sequence_buffer_insert` is `NULL` and is written through all the same. -/
def ack_system_receive_packet (limits : transport_limits_t) (ack_system : ack_system_t)
    (data : List Nat) (size : Int) : Option receive_packet_result_t :=
  if size > ack_system.max_packet_size ∨ size > limits.CUTE_ACK_SYSTEM_MAX_PACKET_SIZE then
    some
      { ret := -1
        calls := []
        ack_system :=
          { ack_system with
            counters :=
              counter_increment ack_system.counters
                ACK_SYSTEM_COUNTERS_PACKETS_TOO_LARGE_TO_RECEIVE } }
  else
    let ack_system :=
      { ack_system with
        counters := counter_increment ack_system.counters ACK_SYSTEM_COUNTERS_PACKETS_RECEIVED }
    match s_read_ack_system_header data size with
    | none =>
      some
        { ret := -1
          calls := []
          ack_system :=
            { ack_system with
              counters :=
                counter_increment ack_system.counters ACK_SYSTEM_COUNTERS_PACKETS_INVALID } }
    | some (sequence, ack, ack_bits) =>
      if s_sequence_is_stale ack_system.received_packets sequence then
        some
          { ret := -1
            calls := []
            ack_system :=
              { ack_system with
                counters :=
                  counter_increment ack_system.counters ACK_SYSTEM_COUNTERS_PACKETS_STALE } }
      else
        let call : callback_call_t :=
          { sequence := sequence
            packet := data.drop CUTE_ACK_SYSTEM_HEADER_SIZE.toNat
            size := size - CUTE_ACK_SYSTEM_HEADER_SIZE }
        if ack_system.open_packet_fn call < (0 : Int) then
          some { ret := -1, calls := [call], ack_system := ack_system }
        else
          let inserted := sequence_buffer_insert ack_system.received_packets sequence none
          match inserted.1 with
          | none => none
          | some packet =>
            let received_packets :=
              { inserted.2 with
                entry_data :=
                  inserted.2.entry_data.set packet
                    { timestamp := ack_system.time, size := size } }
            let ack_system := { ack_system with received_packets := received_packets }
            let acc := (List.range 32).foldl (receive_ack_step ack) (ack_system, ack_bits)
            some { ret := 0, calls := [call], ack_system := acc.1 }

/-! ### Auxiliary definitions used in the statements and proofs -/

/-- The slots that `s_sequence_buffer_remove_entries buffer a e` marks empty. -/
def cleared_by_remove_entries (capacity a e j : Nat) : Prop :=
  if ((if e < a then e + 65536 else e : Nat) : Int) - a < capacity then
    ∃ k ∈ List.range ((if e < a then e + 65536 else e) + 1 - a), (a + k) % capacity = j
  else ∃ k ∈ List.range capacity, k = j

instance (capacity a e j : Nat) : Decidable (cleared_by_remove_entries capacity a e j) := by
  unfold cleared_by_remove_entries
  infer_instance

/-- The buffer of `sequence_buffer_insert` after its first branch (lines 128-129). -/
def advanced_buffer {α : Type} (b : sequence_buffer_t α) (s : Nat) (c : Option (α → α)) :
    sequence_buffer_t α :=
  { s_sequence_buffer_remove_entries b b.sequence s c with sequence := (s + 1) % 65536 }

/-- The buffer states reached from a reset buffer by calls of `sequence_buffer_insert`. -/
inductive inserts_from_reset {α : Type} : sequence_buffer_t α → Prop where
  | reset (b : sequence_buffer_t α) (c : Option (α → α)) (h : b.wf) :
      inserts_from_reset (sequence_buffer_reset b c)
  | insert (b : sequence_buffer_t α) (s : Nat) (c : Option (α → α))
      (h : inserts_from_reset b) : inserts_from_reset (sequence_buffer_insert b s c).2

/-- Limits used in the worked examples. -/
def sample_limits : transport_limits_t :=
  { CUTE_TRANSPORT_PACKET_PAYLOAD_MAX := 1200, CUTE_ACK_SYSTEM_MAX_PACKET_SIZE := 1180 }

/-- A configuration used in the worked examples: packets of at most 100 bytes, both sequence
buffers of capacity 4, callbacks that always succeed. -/
def sample_config : ack_system_config_t :=
  { max_packet_size := 100
    sent_packets_sequence_buffer_size := 4
    received_packets_sequence_buffer_size := 4
    send_packet_fn := some (fun _ => 0)
    open_packet_fn := some (fun _ => 0) }

/-- The ack system that `ack_system_make` returns for `sample_config`. -/
def sample_ack_system : ack_system_t :=
  { time := 0
    max_packet_size := 100
    send_packet_fn := fun _ => 0
    open_packet_fn := fun _ => 0
    sequence := 0
    acks := []
    sent_packets := sequence_buffer_init 4 ⟨0, 0, 0⟩
    received_packets := sequence_buffer_init 4 ⟨0, 0⟩
    rtt := 0
    packet_loss := 0
    outgoing_bandwidth_kbps := 0
    incoming_bandwidth_kbps := 0
    counters := fun _ => 0 }

/-- Whether the sent-packets buffer holds an entry for `sequence` that is not yet acked: the test
`sent_packet && !sent_packet->acked` of `ack_system_receive_packet` (line 399). -/
def sent_packet_unacked (sent_packets : sequence_buffer_t sent_packet_t) (sequence : Nat) : Bool :=
  match sequence_buffer_find sent_packets sequence with
  | none => false
  | some index =>
    match sent_packets.entry_data[index]? with
    | none => false
    | some sent_packet => decide (sent_packet.acked = 0)

/-- The statement `sent_packet->acked = 1`. -/
def mark_acked (sent_packet : sent_packet_t) : sent_packet_t :=
  { sent_packet with acked := 1 }

/-- Bit `i` of `ack_bits` is set and the sent-packets buffer holds a not yet acked entry for
`(ack - i) mod 65536`. -/
def ack_hit (sent_packets : sequence_buffer_t sent_packet_t) (ack ack_bits i : Nat) : Bool :=
  ack_bits.testBit i && sent_packet_unacked sent_packets ((ack + 65536 - i) % 65536)

/-- The bit positions `i` in 0..31, in increasing order, for which bit `i` of `ack_bits` is set and
the sent-packets buffer holds a not yet acked entry for `(ack - i) mod 65536`. -/
def newly_acked (sent_packets : sequence_buffer_t sent_packet_t) (ack ack_bits : Nat) : List Nat :=
  (List.range 32).filter (ack_hit sent_packets ack ack_bits)

/-- The state of the loop over the ack bits of `ack_system_receive_packet` after `n` passes,
started on the ack system `sys1` with the header fields `ack` and `bits`. -/
def ack_loop_inv (sys1 : ack_system_t) (ack bits n : Nat) (st : ack_system_t × Nat) : Prop :=
  st.2 = bits >>> n ∧
  st.1.acks = sys1.acks ++
    ((List.range n).filter (ack_hit sys1.sent_packets ack bits)).map
      (fun i => (ack + 65536 - i) % 65536) ∧
  st.1.counters ACK_SYSTEM_COUNTERS_PACKETS_ACKED =
    (sys1.counters ACK_SYSTEM_COUNTERS_PACKETS_ACKED +
      ((List.range n).filter (ack_hit sys1.sent_packets ack bits)).length) %
        18446744073709551616 ∧
  st.1.sent_packets.capacity = sys1.sent_packets.capacity ∧
  st.1.sent_packets.entry_sequence = sys1.sent_packets.entry_sequence ∧
  st.1.sent_packets.sequence = sys1.sent_packets.sequence ∧
  st.1.sent_packets.entry_data.length = sys1.sent_packets.entry_data.length ∧
  (∀ j, (∃ i, i < n ∧ ack_hit sys1.sent_packets ack bits i = true ∧
      sequence_buffer_find sys1.sent_packets ((ack + 65536 - i) % 65536) = some j) →
    st.1.sent_packets.entry_data[j]? = (sys1.sent_packets.entry_data[j]?).map mark_acked) ∧
  (∀ j, ¬ (∃ i, i < n ∧ ack_hit sys1.sent_packets ack bits i = true ∧
      sequence_buffer_find sys1.sent_packets ((ack + 65536 - i) % 65536) = some j) →
    st.1.sent_packets.entry_data[j]? = sys1.sent_packets.entry_data[j]?)

/-- A 200-byte packet whose ack header carries the sequence 40000. -/
def sample_oversized_stale_packet : List Nat :=
  write_uint16 40000 ++ write_uint16 0 ++ write_uint32 0 ++ List.replicate 192 0

/-- The sample ack system after three accepted sends (sequences 0, 1 and 2). -/
def sample_sent_system : ack_system_t :=
  (ack_system_send_packets sample_limits sample_ack_system
    [([1], 1), ([2], 1), ([3], 1)]).getD sample_ack_system

/-- An 8-byte packet: sequence 0, ack 2, ack bits `0b101`. -/
def sample_ack_packet : List Nat :=
  s_write_ack_system_header 0 2 5

/-- What `ack_system_receive_packet` returns for `sample_ack_packet` on `sample_sent_system`. -/
def sample_receive_result : receive_packet_result_t :=
  (ack_system_receive_packet sample_limits sample_sent_system sample_ack_packet 8).getD
    ⟨-1, [], sample_sent_system⟩

/-! ### Ack system: estimators -/

/-- The constant `DBL_MAX` of `float.h`, the largest finite `double`. -/
def DBL_MAX : ℚ := (2 ^ 53 - 1) * 2 ^ 971

/-- One pass of the loop of `s_calc_packet_loss` (lines 436-443) on the pair
`(packet_count, packet_drop_count)`. -/
def packet_loss_step (sent_packets : sequence_buffer_t sent_packet_t) (acc : Nat × Nat)
    (i : Nat) : Nat × Nat :=
  match sequence_buffer_at_index sent_packets i with
  | none => acc
  | some index =>
    match sent_packets.entry_data[index]? with
    | none => acc
    | some packet => (acc.1 + 1, if packet.acked = 0 then acc.2 + 1 else acc.2)

/-- The loop of `s_calc_packet_loss` (lines 433-443): the pair
`(packet_count, packet_drop_count)`. -/
def packet_loss_counts (sent_packets : sequence_buffer_t sent_packet_t) : Nat × Nat :=
  (List.range sent_packets.capacity).foldl (packet_loss_step sent_packets) (0, 0)

/-- The function `s_calc_packet_loss` (lines 431-449) in exact arithmetic; `0.1f` is `1/10`. The
quotient of a division by zero (a NaN in C) is 0 here. -/
def s_calc_packet_loss (packet_loss : ℚ) (sent_packets : sequence_buffer_t sent_packet_t) : ℚ :=
  let counts := packet_loss_counts sent_packets
  let loss : ℚ := (counts.2 : ℚ) / (counts.1 : ℚ)
  let packet_loss := packet_loss + (loss - packet_loss) * (1 / 10)
  if packet_loss < 0 then 0 else packet_loss

/-- One pass of the loop of `s_calc_bandwidth` (lines 457-465) on the triple
`(bytes_sent, start_timestamp, end_timestamp)`. -/
def bandwidth_step (sent_packets : sequence_buffer_t sent_packet_t) (acc : Int × ℚ × ℚ)
    (i : Nat) : Int × ℚ × ℚ :=
  match sequence_buffer_at_index sent_packets i with
  | none => acc
  | some index =>
    match sent_packets.entry_data[index]? with
    | none => acc
    | some packet =>
      (acc.1 + packet.size,
        if packet.timestamp < acc.2.1 then packet.timestamp else acc.2.1,
        if packet.timestamp > acc.2.2 then packet.timestamp else acc.2.2)

/-- The function `s_calc_bandwidth` (lines 451-474) in exact arithmetic. The quotient of a
division by zero (an infinity or a NaN in C) is 0 here. -/
def s_calc_bandwidth (bandwidth : ℚ) (sent_packets : sequence_buffer_t sent_packet_t) : ℚ :=
  let acc := (List.range sent_packets.capacity).foldl (bandwidth_step sent_packets)
    ((0 : Int), DBL_MAX, (0 : ℚ))
  if acc.2.1 ≠ DBL_MAX then
    let sent_bandwidth : ℚ := ((acc.1 : ℚ) / 1024) / (acc.2.2 - acc.2.1)
    let bandwidth := bandwidth + (sent_bandwidth - bandwidth) * (1 / 10)
    if bandwidth < 0 then 0 else bandwidth
  else bandwidth

/-- A slot of the received-packets buffer read through a `sent_packet_t*`, as `s_calc_bandwidth`
does when it is handed `&ack_system->received_packets`: `timestamp` is at the same offset,
`acked` reads the `int size` of `received_packet_t`, and `size` reads the 4 bytes that follow it
(`padding`), which no code writes. -/
def received_as_sent (padding : Int) (packet : received_packet_t) : sent_packet_t :=
  { timestamp := packet.timestamp, acked := packet.size, size := padding }

/-- The received-packets buffer behind the cast to a buffer of `sent_packet_t`; `padding i` is
what the 4 bytes after slot `i`'s `size` hold. -/
def received_packets_as_sent (padding : Nat → Int)
    (received_packets : sequence_buffer_t received_packet_t) : sequence_buffer_t sent_packet_t :=
  { sequence := received_packets.sequence
    capacity := received_packets.capacity
    entry_sequence := received_packets.entry_sequence
    entry_data :=
      List.zipWith (fun i packet => received_as_sent (padding i) packet)
        (List.range received_packets.entry_data.length) received_packets.entry_data }

/-- The function `ack_system_update` (lines 476-482). -/
def ack_system_update (ack_system : ack_system_t) (dt : ℚ) (padding : Nat → Int) :
    ack_system_t :=
  let ack_system := { ack_system with time := ack_system.time + dt }
  let ack_system :=
    { ack_system with
      packet_loss := s_calc_packet_loss ack_system.packet_loss ack_system.sent_packets }
  let ack_system :=
    { ack_system with
      incoming_bandwidth_kbps :=
        s_calc_bandwidth ack_system.incoming_bandwidth_kbps ack_system.sent_packets }
  { ack_system with
    outgoing_bandwidth_kbps :=
      s_calc_bandwidth ack_system.outgoing_bandwidth_kbps
        (received_packets_as_sent padding ack_system.received_packets) }

/-- The function `ack_system_packet_loss` (lines 489-492). -/
def ack_system_packet_loss (ack_system : ack_system_t) : ℚ :=
  ack_system.packet_loss

/-- The function `ack_system_bandwidth_outgoing_kbps` (lines 494-497). -/
def ack_system_bandwidth_outgoing_kbps (ack_system : ack_system_t) : ℚ :=
  ack_system.outgoing_bandwidth_kbps

/-- The function `ack_system_bandwidth_incoming_kbps` (lines 499-502). -/
def ack_system_bandwidth_incoming_kbps (ack_system : ack_system_t) : ℚ :=
  ack_system.incoming_bandwidth_kbps

/-- The fraction of the occupied entries of the sent-packets buffer that are not acked:
`packet_drop_count / packet_count`. -/
def unacked_fraction (sent_packets : sequence_buffer_t sent_packet_t) : ℚ :=
  ((packet_loss_counts sent_packets).2 : ℚ) / ((packet_loss_counts sent_packets).1 : ℚ)

/-- A series of `ack_system_update` calls. Between two updates the ack system sends and receives;
of that the series records the sent-packets buffer each update finds (with the time step and
the padding bytes of that update). -/
def ack_system_updates :
    ack_system_t → List (ℚ × (Nat → Int) × sequence_buffer_t sent_packet_t) → ack_system_t
  | ack_system, [] => ack_system
  | ack_system, (dt, padding, sent_packets) :: rest =>
    ack_system_updates
      (ack_system_update { ack_system with sent_packets := sent_packets } dt padding) rest

/-- A sent-packets buffer with two occupied entries, one of them acked. -/
def sample_half_acked : sequence_buffer_t sent_packet_t :=
  { sequence := 2, capacity := 4,
    entry_sequence := [0, 1, ENTRY_EMPTY, ENTRY_EMPTY],
    entry_data := [⟨0, 0, 9⟩, ⟨0, 1, 9⟩, ⟨0, 0, 0⟩, ⟨0, 0, 0⟩] }

/-! ### Reliable transport -/

/-- Modelled from the spec: the constant `CUTE_TRANSPORT_HEADER_SIZE` of
`internal/cute_transport_internal.h`, which is not among the sources. The spec gives the
transport fragment header as a 1-byte prefix and four 2-byte fields, 9 bytes in total. -/
def CUTE_TRANSPORT_HEADER_SIZE : Int := 9

/-- Modelled from the spec: `write_uint8` of `internal/cute_serialize_internal.h`, which is not
among the sources. -/
def write_uint8 (value : Nat) : List Nat :=
  [value % 256]

/-- Modelled from the spec: `write_uint64` of `internal/cute_serialize_internal.h`, which is not
among the sources; 8 bytes, the low byte first. -/
def write_uint64 (value : Nat) : List Nat :=
  (List.range 8).map fun k => value / 256 ^ k % 256

/-- Modelled from the spec: `read_uint8` of `internal/cute_serialize_internal.h`, which is not
among the sources. -/
def read_uint8 (buffer : List Nat) : Nat :=
  buffer.getD 0 0 % 256

/-- The conversion of an `int` to `uint16_t`. -/
def to_uint16 (value : Int) : Nat :=
  (value % 65536).toNat

/-- The call `CUTE_MEMCPY(buffer + offset, source, source.length)`: the bytes of `buffer` from
`offset` on are replaced by `source`. -/
def memcpy_at (buffer : List Nat) (offset : Nat) (source : List Nat) : List Nat :=
  buffer.take offset ++ source ++ buffer.drop (offset + source.length)

/-- The struct `fragment_t` (lines 511-515); `timestamp` is `none` while nothing has been
written to it. -/
structure fragment_t where
  timestamp : Option ℚ
  data : List Nat
deriving DecidableEq, Repr

/-- The struct `fragment_entry_t` as `transport_send_reliably_and_in_order` uses it
(`fragment_entry->fragment = fragment`); `none` while nothing has been written to it. -/
structure fragment_entry_t where
  fragment : Option fragment_t
deriving DecidableEq, Repr

/-- The struct `fragment_reassembly_entry_t` (lines 545-553). A pointer member is `some` of the
bytes it points to while that memory is live, and `none` when it is `NULL` or when its memory has
been freed. `CUTE_FREE` leaves the pointer value in the slot, so the model keeps with each
pointer the number of `CUTE_FREE` calls made on the value it holds: 0 for `NULL` and for live
memory, 1 for a dangling pointer, 2 or more once freed memory has been freed again. -/
structure fragment_reassembly_entry_t where
  packet_size : Int
  packet : Option (List Nat)
  fragment_count_so_far : Int
  fragments_total : Int
  fragment_received : Option (List Nat)
  packet_frees : Nat
  fragment_received_frees : Nat
deriving DecidableEq, Repr

/-- The struct `reliable_packet_entry_t` (lines 555-559). -/
structure reliable_packet_entry_t where
  size : Int
  packet : Option (List Nat)
deriving DecidableEq, Repr

/-- The struct `transport_t` (lines 517-538) with the members the functions below use.
`fragment_pool` and `unacked_fragment_list` are used by `transport_send_reliably_and_in_order`
without being declared in the struct. Modelled from the spec: the memory pool, whose code is not
among the sources, is a fixed-size pool; the model keeps its number of free elements, and
`memory_pool_alloc` fails when there is none. `uninitialized` is the value of the bytes of
freshly allocated memory. -/
structure transport_t where
  fragment_size : Int
  max_size_single_send : Int
  fragment_pool : Nat
  unacked_fragment_list : List fragment_t
  ack_system : ack_system_t
  last_acked_reassembly_sequence : Nat
  reassembly_sequence : Nat
  reliable_sent_fragments : sequence_buffer_t fragment_entry_t
  fragment_reassembly : sequence_buffer_t fragment_reassembly_entry_t
  reliable_received_packets : sequence_buffer_t reliable_packet_entry_t
  uninitialized : Nat

/-- Modelled from the spec: the macro `CUTE_FREE` of `cute_alloc.h`, which is not among the
sources, applied to a pointer member and its count of frees. It frees as `free` does: `NULL` is
left alone, live memory is freed once, and a pointer that dangles is freed again. The pointer
value stays in the member. -/
def CUTE_FREE (pointer : Option (List Nat)) (frees : Nat) : Option (List Nat) × Nat :=
  match pointer with
  | some _ => (none, 1)
  | none => (none, if frees = 0 then 0 else frees + 1)

/-- The function `s_fragment_reassembly_entry_cleanup` (lines 561-566): `CUTE_FREE` is called
on both pointers, and neither is reset. -/
def s_fragment_reassembly_entry_cleanup (reassembly : fragment_reassembly_entry_t) :
    fragment_reassembly_entry_t :=
  { reassembly with
    packet := (CUTE_FREE reassembly.packet reassembly.packet_frees).1
    packet_frees := (CUTE_FREE reassembly.packet reassembly.packet_frees).2
    fragment_received :=
      (CUTE_FREE reassembly.fragment_received reassembly.fragment_received_frees).1
    fragment_received_frees :=
      (CUTE_FREE reassembly.fragment_received reassembly.fragment_received_frees).2 }

/-- Memory that a pointer of the slot points to has been freed twice. -/
def freed_twice (reassembly : fragment_reassembly_entry_t) : Bool :=
  decide (2 ≤ reassembly.packet_frees) || decide (2 ≤ reassembly.fragment_received_frees)

/-- The function `s_transport_write_header` (lines 580-590): the 9 bytes written, or `none` for
the status -1. The last four parameters are `uint16_t`. -/
def s_transport_write_header (size : Int) (pfx : Nat) (sequence fragment_count fragment_index
    fragment_size : Int) : Option (List Nat) :=
  if size < CUTE_TRANSPORT_HEADER_SIZE then none
  else
    some (write_uint8 pfx ++ write_uint16 (to_uint16 sequence) ++
      write_uint16 (to_uint16 fragment_count) ++ write_uint16 (to_uint16 fragment_index) ++
      write_uint16 (to_uint16 fragment_size))

/-- Lines 597-600 of `transport_send_reliably_and_in_order`: the pair
`(fragment_count, final_fragment_size)`. -/
def transport_fragment_count (fragment_size size : Int) : Int × Int :=
  let fragment_count := size.tdiv fragment_size
  let final_fragment_size := size - fragment_count * fragment_size
  (if final_fragment_size > 0 then fragment_count + 1 else fragment_count, final_fragment_size)

/-- What a call of `transport_send_reliably_and_in_order` leaves behind: the returned status
(`none` when the function ends without a `return` statement), the local `reassembly_sequence`
once it is assigned, the `(data, size)` pairs handed to `ack_system_send_packet`, the calls of the
send callback, and the transport. -/
structure transport_send_result_t where
  ret : Option Int
  reassembly_sequence : Option Nat
  handed : List (List Nat × Int)
  calls : List callback_call_t
  transport : transport_t

/-- The loop of `transport_send_reliably_and_in_order` (lines 607-641) over the fragment indices
still to do. The result is `none` when the slot returned by `sequence_buffer_insert` is `NULL`
and is written through all the same (or `ack_system_send_packet` does so). `ack_system_send_packet`
writes `sequence` whenever its status is not negative. -/
def transport_send_fragments (limits : transport_limits_t) (data : List Nat)
    (fragment_size final_fragment_size fragment_count : Int) (reassembly_sequence : Nat)
    (timestamp : ℚ) : List Nat → transport_send_result_t → Option transport_send_result_t
  | [], acc => some acc
  | i :: rest, acc =>
    let transport := acc.transport
    let this_fragment_size :=
      if (i : Int) ≠ fragment_count - 1 then fragment_size else final_fragment_size
    if transport.fragment_pool = 0 then some { acc with ret := some (-1) }
    else
      let transport := { transport with fragment_pool := transport.fragment_pool - 1 }
      match s_transport_write_header (this_fragment_size + CUTE_TRANSPORT_HEADER_SIZE) 1
          reassembly_sequence fragment_count i this_fragment_size with
      | none =>
        some
          { acc with
            ret := some (-1)
            transport :=
              { transport with
                fragment_pool := transport.fragment_pool + 1
                unacked_fragment_list :=
                  { timestamp := some timestamp, data := [] } ::
                    transport.unacked_fragment_list } }
      | some header =>
        let fragment : fragment_t :=
          { timestamp := some timestamp
            data := header ++ data.take this_fragment_size.toNat }
        let transport :=
          { transport with unacked_fragment_list := fragment :: transport.unacked_fragment_list }
        match ack_system_send_packet limits transport.ack_system fragment.data
            this_fragment_size with
        | none => none
        | some sent =>
          let transport := { transport with ack_system := sent.ack_system }
          let handed := acc.handed ++ [(fragment.data, this_fragment_size)]
          let calls := acc.calls ++ sent.calls
          if sent.ret < (0 : Int) then
            some
              { acc with
                ret := some (-1)
                handed := handed
                calls := calls
                transport := { transport with fragment_pool := transport.fragment_pool + 1 } }
          else
            let sequence := sent.sequence_out.getD 0
            let inserted := sequence_buffer_insert transport.reliable_sent_fragments sequence none
            match inserted.1 with
            | none => none
            | some slot =>
              let reliable_sent_fragments :=
                { inserted.2 with
                  entry_data := inserted.2.entry_data.set slot { fragment := some fragment } }
              transport_send_fragments limits data fragment_size final_fragment_size
                fragment_count reassembly_sequence timestamp rest
                { acc with
                  handed := handed
                  calls := calls
                  transport :=
                    { transport with reliable_sent_fragments := reliable_sent_fragments } }

/-- The single-fragment branch of `transport_send_reliably_and_in_order` (lines 643-665). -/
def transport_send_single (limits : transport_limits_t) (data : List Nat) (size : Int)
    (reassembly_sequence : Nat) (acc : transport_send_result_t) :
    Option transport_send_result_t :=
  let transport := acc.transport
  if transport.fragment_pool = 0 then some { acc with ret := some (-1) }
  else
    let transport := { transport with fragment_pool := transport.fragment_pool - 1 }
    let fragment : fragment_t :=
      { timestamp := none
        data := memcpy_at (write_uint8 0 ++ write_uint64 reassembly_sequence) 1
          (data.take size.toNat) }
    match ack_system_send_packet limits transport.ack_system fragment.data size with
    | none => none
    | some sent =>
      let transport := { transport with ack_system := sent.ack_system }
      let handed := acc.handed ++ [(fragment.data, size)]
      let calls := acc.calls ++ sent.calls
      if sent.ret < (0 : Int) then
        some
          { acc with
            ret := some (-1)
            handed := handed
            calls := calls
            transport := { transport with fragment_pool := transport.fragment_pool + 1 } }
      else
        let sequence := sent.sequence_out.getD 0
        let inserted := sequence_buffer_insert transport.reliable_sent_fragments sequence none
        match inserted.1 with
        | none => none
        | some slot =>
          let reliable_sent_fragments :=
            { inserted.2 with
              entry_data := inserted.2.entry_data.set slot { fragment := some fragment } }
          some
            { acc with
              handed := handed
              calls := calls
              transport := { transport with reliable_sent_fragments := reliable_sent_fragments } }

/-- Line 603 of `transport_send_reliably_and_in_order`,
`reassembly_sequence = transport->reassembly_sequence++`: the local variable is assigned and the
`uint16_t` counter of the transport is incremented; nothing has been handed on yet. -/
def transport_send_start (transport : transport_t) : transport_send_result_t :=
  { ret := none, reassembly_sequence := some transport.reassembly_sequence, handed := [],
    calls := []
    transport :=
      { transport with reassembly_sequence := (transport.reassembly_sequence + 1) % 65536 } }

/-- The function `transport_send_reliably_and_in_order` (lines 592-666). The result is `none`
for a division by a `fragment_size` of zero and for a write through a `NULL` slot. -/
def transport_send_reliably_and_in_order (limits : transport_limits_t) (transport : transport_t)
    (data : List Nat) (size : Int) : Option transport_send_result_t :=
  if size < 1 then
    some { ret := some (-1), reassembly_sequence := none, handed := [], calls := [],
           transport := transport }
  else if size > transport.max_size_single_send then
    some { ret := some (-1), reassembly_sequence := none, handed := [], calls := [],
           transport := transport }
  else if transport.fragment_size = 0 then none
  else
    let fragment_size := transport.fragment_size
    let counts := transport_fragment_count fragment_size size
    let timestamp := transport.ack_system.time
    let reassembly_sequence := transport.reassembly_sequence
    let acc := transport_send_start transport
    if counts.1 > 1 then
      transport_send_fragments limits data fragment_size counts.2 counts.1 reassembly_sequence
        timestamp (List.range counts.1.toNat) acc
    else
      transport_send_single limits data size reassembly_sequence acc

/-- A series of `transport_send_reliably_and_in_order` calls, one for each `(data, size)` of the
list, each on the transport the previous one left. -/
def transport_sends (limits : transport_limits_t) :
    transport_t → List (List Nat × Int) → Option transport_t
  | transport, [] => some transport
  | transport, (data, size) :: rest =>
    match transport_send_reliably_and_in_order limits transport data size with
    | none => none
    | some result => transport_sends limits result.transport rest

/-- What a call of `transport_recieve` leaves behind: the returned status, the entry whose
`packet` and `size` were written to `*data` and `*size` (if any), and the transport. -/
structure transport_recieve_result_t where
  ret : Int
  entry : Option reliable_packet_entry_t
  transport : transport_t

/-- The function `transport_recieve` (lines 672-692). -/
def transport_recieve (transport : transport_t) : transport_recieve_result_t :=
  let sequence := transport.last_acked_reassembly_sequence
  let end_sequence := transport.reassembly_sequence
  if s_sequence_less_than sequence end_sequence then
    let inserted := sequence_buffer_insert transport.reliable_received_packets sequence none
    let transport := { transport with reliable_received_packets := inserted.2 }
    match inserted.1 with
    | none => { ret := -1, entry := none, transport := transport }
    | some slot =>
      { ret := 0
        entry := transport.reliable_received_packets.entry_data[slot]?
        transport :=
          { transport with
            last_acked_reassembly_sequence :=
              (transport.last_acked_reassembly_sequence + 1) % 65536 } }
  else { ret := -1, entry := none, transport := transport }

/-- What a call of `transport_process_packet` leaves behind: the returned status (`none` when
the function ends without a `return` statement) and the transport. -/
structure process_packet_result_t where
  ret : Option Int
  transport : transport_t

/-- Lines 747-759 of `transport_process_packet`: the fragment is new for the reassembly entry
`reassembly` in slot `slot`, whose two arrays are live. The cleanup that line 758 runs on the
slot finds `packet` at `NULL` and `fragment_received` live, so it frees nothing twice. -/
def transport_store_fragment (transport : transport_t) (slot : Nat)
    (reassembly : fragment_reassembly_entry_t) (flags packet buffer : List Nat)
    (reassembly_sequence fragment_count fragment_index fragment_size : Nat)
    (total_packet_size : Int) : Option process_packet_result_t :=
  let count : Int := (fragment_size : Int) - CUTE_TRANSPORT_HEADER_SIZE
  let offset : Int := (fragment_index : Int) * transport.fragment_size
  if count < 0 ∨ count > buffer.length ∨ offset < 0 ∨ offset + count > packet.length then none
  else
    let packet := memcpy_at packet offset.toNat (buffer.take count.toNat)
    let reassembly :=
      { reassembly with
        fragment_count_so_far := reassembly.fragment_count_so_far + 1
        fragment_received := some (flags.set fragment_index 1)
        packet := some packet }
    if reassembly.fragment_count_so_far = (fragment_count : Int) then
      let inserted :=
        sequence_buffer_insert transport.reliable_received_packets reassembly_sequence none
      match inserted.1 with
      | none => none
      | some entry =>
        let reliable_received_packets :=
          { inserted.2 with
            entry_data :=
              inserted.2.entry_data.set entry { size := total_packet_size, packet := some packet } }
        let fragment_reassembly :=
          { transport.fragment_reassembly with
            entry_data :=
              transport.fragment_reassembly.entry_data.set slot
                { reassembly with packet := none, packet_frees := 0 } }
        some
          { ret := none
            transport :=
              { transport with
                reliable_received_packets := reliable_received_packets
                fragment_reassembly :=
                  sequence_buffer_remove fragment_reassembly reassembly_sequence
                    (some s_fragment_reassembly_entry_cleanup) } }
    else
      some
        { ret := none
          transport :=
            { transport with
              fragment_reassembly :=
                { transport.fragment_reassembly with
                  entry_data := transport.fragment_reassembly.entry_data.set slot reassembly } } }

/-- Lines 739-759 of `transport_process_packet`, with the reassembly entry in slot `slot`. The
result is `none` for a read through a `NULL` or freed pointer and for an access outside an
array. -/
def transport_process_fragment (transport : transport_t) (slot : Nat) (buffer : List Nat)
    (reassembly_sequence fragment_count fragment_index fragment_size : Nat)
    (total_packet_size : Int) : Option process_packet_result_t :=
  match transport.fragment_reassembly.entry_data[slot]? with
  | none => none
  | some reassembly =>
    if (fragment_count : Int) ≠ reassembly.fragments_total then
      some { ret := some (-1), transport := transport }
    else
      match reassembly.fragment_received with
      | none => none
      | some flags =>
        match flags[fragment_index]? with
        | none => none
        | some flag =>
          if flag ≠ 0 then some { ret := some (-1), transport := transport }
          else
            match reassembly.packet with
            | none => none
            | some packet =>
              transport_store_fragment transport slot reassembly flags packet buffer
                reassembly_sequence fragment_count fragment_index fragment_size total_packet_size

/-- The function `transport_process_packet` (lines 699-760); `data` holds the bytes behind the
pointer and `size` is the `int` argument. Every allocation succeeds. The result is `none` when
the cleanup calls of `sequence_buffer_insert` free memory that has been freed before, when the
slot returned by `sequence_buffer_insert` is `NULL` and is written through all the same, and for
the accesses named at `transport_process_fragment`. -/
def transport_process_packet (transport : transport_t) (data : List Nat) (size : Int) :
    Option process_packet_result_t :=
  if size < CUTE_TRANSPORT_HEADER_SIZE then some { ret := some (-1), transport := transport }
  else
    let reassembly_sequence := read_uint16 (data.drop 1)
    let fragment_count := read_uint16 (data.drop 3)
    let fragment_index := read_uint16 (data.drop 5)
    let fragment_size := read_uint16 (data.drop 7)
    let buffer := data.drop 9
    let total_packet_size : Int := (fragment_count : Int) * transport.fragment_size
    if total_packet_size > transport.max_size_single_send then
      some { ret := some (-1), transport := transport }
    else if fragment_index > fragment_count then
      some { ret := some (-1), transport := transport }
    else if (fragment_size : Int) > transport.fragment_size then
      some { ret := some (-1), transport := transport }
    else
      match sequence_buffer_find transport.fragment_reassembly reassembly_sequence with
      | some slot =>
        transport_process_fragment transport slot buffer reassembly_sequence fragment_count
          fragment_index fragment_size total_packet_size
      | none =>
        let inserted :=
          sequence_buffer_insert transport.fragment_reassembly reassembly_sequence
            (some s_fragment_reassembly_entry_cleanup)
        if inserted.2.entry_data.any freed_twice then none
        else
          match inserted.1 with
          | none => none
          | some slot =>
            let reassembly : fragment_reassembly_entry_t :=
              { packet_size := total_packet_size
                packet := some (List.replicate total_packet_size.toNat transport.uninitialized)
                fragment_count_so_far := 0
                fragments_total := fragment_count
                fragment_received := some (List.replicate fragment_count 0)
                packet_frees := 0
                fragment_received_frees := 0 }
            let fragment_reassembly :=
              { inserted.2 with entry_data := inserted.2.entry_data.set slot reassembly }
            transport_process_fragment
              { transport with fragment_reassembly := fragment_reassembly }
              slot buffer reassembly_sequence fragment_count fragment_index fragment_size
              total_packet_size

/-- A series of `transport_process_packet` calls, one for each `(data, size)` of the list, each
on the transport the previous one left. -/
def transport_process_packets :
    transport_t → List (List Nat × Int) → Option transport_t
  | transport, [] => some transport
  | transport, (data, size) :: rest =>
    match transport_process_packet transport data size with
    | none => none
    | some result => transport_process_packets result.transport rest

/-- A transport used in the worked examples: fragments of 16 bytes, sends of at most 64 bytes,
a pool of 8 fragments, the sample ack system, all three sequence buffers of capacity 4 and
reset with zero-filled slots (`NULL` pointers), both reassembly sequence counters at 0. -/
def sample_transport : transport_t :=
  { fragment_size := 16
    max_size_single_send := 64
    fragment_pool := 8
    unacked_fragment_list := []
    ack_system := sample_ack_system
    last_acked_reassembly_sequence := 0
    reassembly_sequence := 0
    reliable_sent_fragments := sequence_buffer_init 4 ⟨none⟩
    fragment_reassembly := sequence_buffer_init 4 ⟨0, none, 0, 0, none, 0, 0⟩
    reliable_received_packets := sequence_buffer_init 4 ⟨0, none⟩
    uninitialized := 170 }

/-- The payload `1, 2, ..., n`. -/
def sample_payload (n : Nat) : List Nat :=
  (List.range n).map (· + 1)

/-- The packets that a call of `transport_send_reliably_and_in_order` handed to the ack system:
the first `size` bytes of each `(data, size)`. -/
def handed_packets (result : Option transport_send_result_t) : List (List Nat × Int) :=
  match result with
  | none => []
  | some r => r.handed.map fun h => (h.1.take h.2.toNat, h.2)

/-- The number of sends of a series that pass the size check of
`transport_send_reliably_and_in_order` (lines 594-595). -/
def accepted_sends (max_size_single_send : Int) (sends : List (List Nat × Int)) : Nat :=
  (sends.filter fun send => decide (1 ≤ send.2 ∧ send.2 ≤ max_size_single_send)).length

/-- The state of a transport between calls when only `transport_send_reliably_and_in_order`
sends through its ack system and the send callback succeeds: the arrays of the sent-packets
buffer and of `reliable_sent_fragments` are allocated, and the current sequence of both buffers
is the local sequence of the ack system. -/
def transport_t.in_sync (transport : transport_t) : Prop :=
  transport.ack_system.sent_packets.wf ∧
    transport.ack_system.sent_packets.sequence = transport.ack_system.sequence ∧
    transport.reliable_sent_fragments.wf ∧
    transport.reliable_sent_fragments.sequence = transport.ack_system.sequence ∧
    ∀ call, 0 ≤ transport.ack_system.send_packet_fn call

/-- The two fragment packets that `transport_send_reliably_and_in_order` hands to the ack system
for the 26-byte payload `1, ..., 26` on `sample_transport`. -/
def sample_fragment_packets : List (List Nat × Int) :=
  handed_packets
    (transport_send_reliably_and_in_order sample_limits sample_transport (sample_payload 26) 26)

/-- The first of `sample_fragment_packets`: fragment 0 of 2 of reassembly sequence 0. -/
def sample_fragment_0 : List Nat × Int :=
  ([1, 0, 0, 2, 0, 0, 0, 16, 0, 1, 2, 3, 4, 5, 6, 7], 16)

/-- The second of `sample_fragment_packets`: fragment 1 of 2 of reassembly sequence 0. -/
def sample_fragment_1 : List Nat × Int :=
  ([1, 0, 0, 2, 0, 1, 0, 10, 0, 1], 10)

/-- The sample transport after it has processed `sample_fragment_0`. -/
def sample_in_progress : transport_t :=
  (transport_process_packets sample_transport [sample_fragment_0]).getD sample_transport

/-- The sample transport after it has processed both fragments of reassembly sequence 0. -/
def sample_completed : transport_t :=
  (transport_process_packets sample_transport [sample_fragment_0, sample_fragment_1]).getD
    sample_transport

/-- The sample transport after it has sent one 5-byte payload. -/
def sample_after_send : transport_t :=
  (transport_sends sample_limits sample_transport [(sample_payload 5, 5)]).getD sample_transport

/-- The sample transport after it has processed fragment 0 of 2 of reassembly sequence 100. -/
def sample_advanced : transport_t :=
  (transport_process_packets sample_transport
    [([1, 100, 0, 2, 0, 0, 0, 16, 0, 1, 2, 3, 4, 5, 6, 7], 16)]).getD sample_transport

/-- Fragment 0 of 2 of reassembly sequence 50. -/
def sample_stale_fragment : List Nat × Int :=
  ([1, 50, 0, 2, 0, 0, 0, 16, 0, 1, 2, 3, 4, 5, 6, 7], 16)

/-! ### Protocol size limits -/

/-- The constant `CUTE_KB` of `cute_defines.h` (line 59). -/
def CUTE_KB : Int := 1024

/-- The constant `CUTE_PROTOCOL_PACKET_SIZE_MAX` of `cute_protocol.h` (line 32). -/
def CUTE_PROTOCOL_PACKET_SIZE_MAX : Int := CUTE_KB + 256

/-- The constant `CUTE_PROTOCOL_PACKET_PAYLOAD_MAX` of `cute_protocol.h` (line 33). -/
def CUTE_PROTOCOL_PACKET_PAYLOAD_MAX : Int := 1207 - 2

/-! ### Auxiliary definitions for the frame, window and cleanup statements -/

/-- A cleanup callback that counts its calls in the slot it is called on. -/
def counting_cleanup : Option (Nat → Nat) :=
  some (fun calls => calls + 1)

/-- A reset buffer of capacity 4 whose slots count the cleanup calls made on them. -/
def sample_counting_buffer : sequence_buffer_t Nat :=
  sequence_buffer_reset
    { sequence := 0, capacity := 4, entry_sequence := List.replicate 4 ENTRY_EMPTY,
      entry_data := List.replicate 4 0 } counting_cleanup

/-- The buffer `sample_counting_buffer` after the insert of sequence 5 without a cleanup
callback: slot 1 holds sequence 5, the other slots are empty. -/
def sample_buffer_5 : sequence_buffer_t Nat :=
  (sequence_buffer_insert sample_counting_buffer 5 none).2

/-- A fragment packet whose header says fragment 2 of 2 (reassembly sequence 0, fragment size
16), followed by 7 bytes. -/
def sample_fragment_index_2 : List Nat × Int :=
  ([1, 0, 0, 2, 0, 2, 0, 16, 0, 1, 2, 3, 4, 5, 6, 7], 16)

/-- A fragment packet whose header says fragment 3 of 2. -/
def sample_fragment_index_3 : List Nat × Int :=
  ([1, 0, 0, 2, 0, 3, 0, 16, 0, 1, 2, 3, 4, 5, 6, 7], 16)

/-- A fragment packet whose header says fragment 0 of 0. -/
def sample_fragment_count_0 : List Nat × Int :=
  ([1, 0, 0, 0, 0, 0, 0, 16, 0, 1, 2, 3, 4, 5, 6, 7], 16)

/-- A packet of 9 bytes, the header alone, whose header says fragment 0 of 2 with fragment
size 16. -/
def sample_header_only_16 : List Nat × Int :=
  ([1, 0, 0, 2, 0, 0, 0, 16, 0], 9)

/-- A packet of 9 bytes, the header alone, whose header says fragment 0 of 2 with fragment
size 9. -/
def sample_header_only_9 : List Nat × Int :=
  ([1, 0, 0, 2, 0, 0, 0, 9, 0], 9)

/-- A fragment packet whose header says fragment 0 of 2 with fragment size 0, followed by 7
bytes. -/
def sample_fragment_size_0 : List Nat × Int :=
  ([1, 0, 0, 2, 0, 0, 0, 0, 0, 1, 2, 3, 4, 5, 6, 7], 16)

/-- The two fragment packets of the 26-byte payload `1, ..., 26` for fragments of 16 bytes, each
the 9-byte header followed by its part of the payload (16 and 10 bytes), with their full
lengths 25 and 19. -/
def sample_full_fragments : List (List Nat × Int) :=
  [([1, 0, 0, 2, 0, 0, 0, 16, 0] ++ sample_payload 16, 25),
    ([1, 0, 0, 2, 0, 1, 0, 10, 0] ++ (sample_payload 26).drop 16, 19)]

/-- A sent-packets buffer with two entries of 64 bytes, sent at the times 0 and 1. -/
def sample_two_sent : sequence_buffer_t sent_packet_t :=
  { sequence := 2, capacity := 4,
    entry_sequence := [0, 1, ENTRY_EMPTY, ENTRY_EMPTY],
    entry_data := [⟨0, 0, 64⟩, ⟨1, 0, 64⟩, ⟨0, 0, 0⟩, ⟨0, 0, 0⟩] }

/-- The sequence `seq` lies in the window `[current - capacity, current)` modulo 65536: the
current sequence is between 1 and `capacity` ahead of it. -/
def in_window (current capacity seq : Nat) : Prop :=
  1 ≤ (current + 65536 - seq % 65536) % 65536 ∧
    (current + 65536 - seq % 65536) % 65536 ≤ capacity

instance (current capacity seq : Nat) : Decidable (in_window current capacity seq) := by
  unfold in_window
  infer_instance

/-- The buffer states reached from a reset buffer by calls of `sequence_buffer_insert`,
`sequence_buffer_remove` and `sequence_buffer_advance`. -/
inductive reachable_from_reset {α : Type} : sequence_buffer_t α → Prop where
  | reset (b : sequence_buffer_t α) (c : Option (α → α)) (h : b.wf) :
      reachable_from_reset (sequence_buffer_reset b c)
  | insert (b : sequence_buffer_t α) (s : Nat) (c : Option (α → α))
      (h : reachable_from_reset b) : reachable_from_reset (sequence_buffer_insert b s c).2
  | remove (b : sequence_buffer_t α) (s : Nat) (c : Option (α → α))
      (h : reachable_from_reset b) : reachable_from_reset (sequence_buffer_remove b s c)
  | advance (b : sequence_buffer_t α) (s : Nat)
      (h : reachable_from_reset b) : reachable_from_reset (sequence_buffer_advance b s)

/-- Every non-empty slot `i` holds a 16-bit tag of residue `i` that lies in the window. -/
def window_invariant {α : Type} (b : sequence_buffer_t α) : Prop :=
  ∀ i, b.tag i ≠ ENTRY_EMPTY →
    b.tag i < 65536 ∧ b.tag i % b.capacity = i ∧ in_window b.sequence b.capacity (b.tag i)

/-- The buffer `sample_buffer_5` after the removal of sequence 2, the insert of sequence 7 and
the advance to sequence 8. -/
def sample_buffer_window : sequence_buffer_t Nat :=
  sequence_buffer_advance
    (sequence_buffer_insert (sequence_buffer_remove sample_buffer_5 2 counting_cleanup) 7
      counting_cleanup).2 8

/-- Slot `j` of the buffer `b2` is as in `b1`: the same tag and the same contents. -/
def slot_unchanged {α : Type} (b1 b2 : sequence_buffer_t α) (j : Nat) : Prop :=
  b2.tag j = b1.tag j ∧ b2.entry_data[j]? = b1.entry_data[j]?

/-- The slots that `sequence_buffer_insert` of the sequence `s` can touch: the slot of `s`, and,
when `s` moves the window forward, the slots that `s_sequence_buffer_remove_entries` clears. -/
def touched_by_insert {α : Type} (b : sequence_buffer_t α) (s j : Nat) : Prop :=
  j = s % b.capacity ∨
    (s_sequence_greater_than (s + 1) b.sequence = true ∧
      cleared_by_remove_entries b.capacity b.sequence s j)

instance {α : Type} (b : sequence_buffer_t α) (s j : Nat) : Decidable (touched_by_insert b s j) := by
  unfold touched_by_insert
  infer_instance

/-- Fragment 0 of 2 of reassembly sequence 5. -/
def sample_fragment_sequence_5 : List Nat × Int :=
  ([1, 5, 0, 2, 0, 0, 0, 16, 0, 1, 2, 3, 4, 5, 6, 7], 16)

/-- Fragment 0 of 1 of reassembly sequence 5. -/
def sample_single_sequence_5 : List Nat × Int :=
  ([1, 5, 0, 1, 0, 0, 0, 16, 0, 1, 2, 3, 4, 5, 6, 7], 16)

/-- Fragment 0 of 2 of reassembly sequence 1. -/
def sample_fragment_sequence_1 : List Nat × Int :=
  ([1, 1, 0, 2, 0, 0, 0, 16, 0, 1, 2, 3, 4, 5, 6, 7], 16)

/-- The insert of the sequence `s` returns a slot: `s` moves the window forward, or it is not
stale (lines 127-132 of `sequence_buffer_insert`). -/
def insertable {α : Type} (b : sequence_buffer_t α) (s : Nat) : Prop :=
  s_sequence_greater_than (s + 1) b.sequence = true ∨ s_sequence_is_stale b s = false

instance {α : Type} (b : sequence_buffer_t α) (s : Nat) : Decidable (insertable b s) := by
  unfold insertable
  infer_instance

/-- No pointer of slot `j` dangles: `CUTE_FREE` has not been called on the values they hold. -/
def no_dangling_at (b : sequence_buffer_t fragment_reassembly_entry_t) (j : Nat) : Prop :=
  match b.entry_data[j]? with
  | none => True
  | some e => e.packet_frees = 0 ∧ e.fragment_received_frees = 0

instance (b : sequence_buffer_t fragment_reassembly_entry_t) (j : Nat) :
    Decidable (no_dangling_at b j) := by
  unfold no_dangling_at
  split <;> infer_instance

/-- The reassembly entry that `sequence_buffer_find` returns for the sequence `r`, if there is
one, is as lines 726-736 and 747-751 of `transport_process_packet` leave an entry in progress:
both arrays are live, `fragment_received` has `fragments_total` entries and `packet` has
`fragments_total * fragment_size` bytes. -/
def entry_in_progress (transport : transport_t) (r : Nat) : Prop :=
  match sequence_buffer_find transport.fragment_reassembly r with
  | none => True
  | some slot =>
    match transport.fragment_reassembly.entry_data[slot]? with
    | none => False
    | some e =>
      match e.fragment_received, e.packet with
      | some flags, some packet =>
        (flags.length : Int) = e.fragments_total ∧
          (packet.length : Int) = e.fragments_total * transport.fragment_size
      | _, _ => False

instance (transport : transport_t) (r : Nat) : Decidable (entry_in_progress transport r) := by
  unfold entry_in_progress
  split
  · infer_instance
  · split
    · infer_instance
    · split <;> infer_instance

/-- The tests of lines 701-721 of `transport_process_packet`: one of them returns -1 before
anything is looked up. -/
def rejected_by_header (transport : transport_t) (data : List Nat) (size : Int) : Prop :=
  size < CUTE_TRANSPORT_HEADER_SIZE ∨
    (read_uint16 (data.drop 3) : Int) * transport.fragment_size >
      transport.max_size_single_send ∨
    read_uint16 (data.drop 5) > read_uint16 (data.drop 3) ∨
    (read_uint16 (data.drop 7) : Int) > transport.fragment_size

instance (transport : transport_t) (data : List Nat) (size : Int) :
    Decidable (rejected_by_header transport data size) := by
  unfold rejected_by_header
  infer_instance

/-- The conditions under which every step of `transport_process_packet` after the header tests
is defined, for a packet of `size` bytes with reassembly sequence `r`:
the fragment index is below the fragment count (line 743 stays inside `fragment_received`);
the fragment size of the header is at least 9 and at most `size`, and the packet has `size`
bytes (line 751 copies bytes of the packet, and not a negative number of them);
`sequence_buffer_insert` returns a slot for `r` in both buffers (lines 726 and 755 do not write
through `NULL`);
the entry found for `r`, if any, is in progress;
and no slot of `fragment_reassembly` that the insert of `r` touches holds a pointer that has
been freed (the cleanup calls of the insert free nothing twice). -/
def process_packet_defined (transport : transport_t) (data : List Nat) (size : Int) : Prop :=
  read_uint16 (data.drop 5) < read_uint16 (data.drop 3) ∧
    9 ≤ read_uint16 (data.drop 7) ∧ (read_uint16 (data.drop 7) : Int) ≤ size ∧
    size ≤ data.length ∧
    insertable transport.fragment_reassembly (read_uint16 (data.drop 1)) ∧
    insertable transport.reliable_received_packets (read_uint16 (data.drop 1)) ∧
    entry_in_progress transport (read_uint16 (data.drop 1)) ∧
    ∀ j, j < transport.fragment_reassembly.capacity →
      touched_by_insert transport.fragment_reassembly (read_uint16 (data.drop 1)) j →
        no_dangling_at transport.fragment_reassembly j

instance (transport : transport_t) (data : List Nat) (size : Int) :
    Decidable (process_packet_defined transport data size) := by
  unfold process_packet_defined
  infer_instance

/-- The sample transport with a `fragment_reassembly` buffer of capacity 8. -/
def sample_transport_wide : transport_t :=
  { sample_transport with
    fragment_reassembly := sequence_buffer_init 8 ⟨0, none, 0, 0, none, 0, 0⟩ }

/-- The transport `sample_transport_wide` after it has processed both fragments of reassembly
sequence 0. -/
def sample_completed_wide : transport_t :=
  (transport_process_packets sample_transport_wide [sample_fragment_0, sample_fragment_1]).getD
    sample_transport_wide

/-! ## Sequence comparison -/

theorem gt_iff (a b : Nat) :
    s_sequence_greater_than a b = true ↔
      (a % 65536 > b % 65536 ∧ a % 65536 - b % 65536 ≤ 32768) ∨
        (a % 65536 < b % 65536 ∧ b % 65536 - a % 65536 > 32768) := by
  simp only [s_sequence_greater_than, Bool.or_eq_true, Bool.and_eq_true, decide_eq_true_eq]
  omega

theorem gt_eq_false_iff (a b : Nat) :
    s_sequence_greater_than a b = false ↔
      ¬ ((a % 65536 > b % 65536 ∧ a % 65536 - b % 65536 ≤ 32768) ∨
        (a % 65536 < b % 65536 ∧ b % 65536 - a % 65536 > 32768)) := by
  rw [← gt_iff]; simp

/-- C1: for 16-bit sequence numbers `a ≠ b` exactly one of `s_sequence_greater_than a b` and
`s_sequence_greater_than b a` is true, `s_sequence_greater_than a a` is false, and
`s_sequence_less_than a b` is `s_sequence_greater_than b a`. -/
theorem s_sequence_greater_than_total (a b : Nat) (ha : a < 65536) (hb : b < 65536) :
    (a ≠ b → (s_sequence_greater_than a b = !s_sequence_greater_than b a)) ∧
      s_sequence_greater_than a a = false ∧
      s_sequence_less_than a b = s_sequence_greater_than b a := by
  refine ⟨fun hab => ?_, ?_, rfl⟩
  · cases h : s_sequence_greater_than b a
    · rw [gt_eq_false_iff] at h
      simp only [Bool.not_false, gt_iff]
      omega
    · rw [gt_iff] at h
      simp only [Bool.not_true, gt_eq_false_iff]
      omega
  · rw [gt_eq_false_iff]; omega

theorem s_sequence_greater_than_total_witness :
    (32768 ≠ 0 → (s_sequence_greater_than 32768 0 = !s_sequence_greater_than 0 32768)) ∧
      s_sequence_greater_than 32768 32768 = false ∧
      s_sequence_less_than 32768 0 = s_sequence_greater_than 0 32768 :=
  s_sequence_greater_than_total 32768 0 (by decide) (by decide)

/-- C2: wraparound is handled. For a 16-bit `a` and `1 ≤ k ≤ 32767` the sequence
`(a + k) mod 65536` is greater than `a` and `a` is not greater than it; in particular
1 and 0 are greater than 65535. -/
theorem s_sequence_greater_than_wraparound :
    (∀ a k : Nat, a < 65536 → 1 ≤ k → k ≤ 32767 →
      s_sequence_greater_than ((a + k) % 65536) a = true ∧
        s_sequence_greater_than a ((a + k) % 65536) = false) ∧
      s_sequence_greater_than 1 65535 = true ∧ s_sequence_greater_than 0 65535 = true := by
  refine ⟨fun a k ha hk1 hk2 => ⟨?_, ?_⟩, by decide, by decide⟩
  · rw [gt_iff]; omega
  · rw [gt_eq_false_iff]; omega

theorem s_sequence_greater_than_wraparound_witness :
    s_sequence_greater_than ((65000 + 32767) % 65536) 65000 = true ∧
      s_sequence_greater_than 65000 ((65000 + 32767) % 65536) = false :=
  s_sequence_greater_than_wraparound.1 65000 32767 (by decide) (by decide) (by decide)

/-! ## Sequence buffer: how the tags change -/

theorem getD_set_tag (l : List Nat) (i j v d : Nat) :
    (l.set i v).getD j d = if i = j ∧ i < l.length then v else l.getD j d := by
  simp only [List.getD_eq_getElem?_getD, List.getElem?_set]
  by_cases hij : i = j
  · subst hij
    by_cases hi : i < l.length
    · simp [hi]
    · simp [hi, List.getElem?_eq_none (Nat.le_of_not_lt hi)]
  · simp [hij]

theorem run_cleanup_length {α : Type} (c : Option (α → α)) (d : List α) (i : Nat) :
    (run_cleanup c d i).length = d.length := by
  unfold run_cleanup
  split <;> simp

theorem fold_remove_entry_props {α : Type} (c : Option (α → α)) (f : Nat → Nat) (ks : List Nat)
    (b : sequence_buffer_t α) :
    (ks.foldl (fun buf k => remove_entry buf (f k) c) b).capacity = b.capacity ∧
      (ks.foldl (fun buf k => remove_entry buf (f k) c) b).sequence = b.sequence ∧
      (ks.foldl (fun buf k => remove_entry buf (f k) c) b).entry_sequence.length =
        b.entry_sequence.length ∧
      (ks.foldl (fun buf k => remove_entry buf (f k) c) b).entry_data.length =
        b.entry_data.length ∧
      ∀ j, (ks.foldl (fun buf k => remove_entry buf (f k) c) b).tag j =
        if ∃ k ∈ ks, f k = j then ENTRY_EMPTY else b.tag j := by
  induction ks generalizing b with
  | nil => simp
  | cons k ks ih =>
    have h := ih (remove_entry b (f k) c)
    simp only [List.foldl_cons]
    refine ⟨h.1, h.2.1, ?_, ?_, fun j => ?_⟩
    · rw [h.2.2.1]; simp [remove_entry]
    · rw [h.2.2.2.1]; simp [remove_entry, run_cleanup_length]
    · rw [h.2.2.2.2 j]
      by_cases hks : ∃ k1 ∈ ks, f k1 = j
      · have : ∃ k1 ∈ k :: ks, f k1 = j := by
          obtain ⟨k1, hk1, hk2⟩ := hks
          exact ⟨k1, List.mem_cons_of_mem _ hk1, hk2⟩
        rw [if_pos hks, if_pos this]
      · rw [if_neg hks]
        simp only [sequence_buffer_t.tag, remove_entry, getD_set_tag]
        by_cases hkj : f k = j
        · have : ∃ k1 ∈ k :: ks, f k1 = j := ⟨k, List.mem_cons_self _ _, hkj⟩
          rw [if_pos this]
          split
          · rfl
          · rename_i hlen
            simp only [hkj, true_and, not_lt] at hlen
            simp [List.getD_eq_getElem?_getD, List.getElem?_eq_none hlen]
        · have : ¬ ∃ k1 ∈ k :: ks, f k1 = j := by
            rintro ⟨k1, hk1, hk2⟩
            rcases List.mem_cons.1 hk1 with rfl | hk1
            · exact hkj hk2
            · exact hks ⟨k1, hk1, hk2⟩
          rw [if_neg this, if_neg (fun h => hkj h.1)]

theorem remove_entries_props {α : Type} (b : sequence_buffer_t α) (a e : Nat)
    (c : Option (α → α)) :
    (s_sequence_buffer_remove_entries b a e c).capacity = b.capacity ∧
      (s_sequence_buffer_remove_entries b a e c).sequence = b.sequence ∧
      (s_sequence_buffer_remove_entries b a e c).entry_sequence.length =
        b.entry_sequence.length ∧
      (s_sequence_buffer_remove_entries b a e c).entry_data.length = b.entry_data.length ∧
      ∀ j, (s_sequence_buffer_remove_entries b a e c).tag j =
        if cleared_by_remove_entries b.capacity a e j then ENTRY_EMPTY else b.tag j := by
  unfold s_sequence_buffer_remove_entries cleared_by_remove_entries
  by_cases h : ((if e < a then e + 65536 else e : Nat) : Int) - a < b.capacity
  · simp only [h, if_true]
    exact fold_remove_entry_props c (fun k => (a + k) % b.capacity) _ b
  · simp only [h, if_false]
    exact fold_remove_entry_props c (fun k => k) _ b

theorem store_props {α : Type} (b : sequence_buffer_t α) (s : Nat) (c : Option (α → α)) :
    (sequence_buffer_store b s c).1 = some (s % b.capacity) ∧
      (sequence_buffer_store b s c).2.capacity = b.capacity ∧
      (sequence_buffer_store b s c).2.sequence = b.sequence ∧
      (sequence_buffer_store b s c).2.entry_sequence.length = b.entry_sequence.length ∧
      (sequence_buffer_store b s c).2.entry_data.length = b.entry_data.length ∧
      ∀ j, (sequence_buffer_store b s c).2.tag j =
        if s % b.capacity = j ∧ s % b.capacity < b.entry_sequence.length then s else b.tag j := by
  refine ⟨rfl, rfl, rfl, by simp [sequence_buffer_store], ?_, fun j => ?_⟩
  · simp only [sequence_buffer_store]
    split
    · exact run_cleanup_length _ _ _
    · rfl
  · simp only [sequence_buffer_store, sequence_buffer_t.tag, getD_set_tag]

theorem find_eq_some_iff {α : Type} (b : sequence_buffer_t α) (s slot : Nat) :
    sequence_buffer_find b s = some slot ↔
      b.tag (s % 65536 % b.capacity) = s % 65536 ∧ slot = s % 65536 % b.capacity := by
  unfold sequence_buffer_find
  simp only []
  split
  · rename_i h
    simp only [Option.some.injEq, h, true_and]
    exact eq_comm
  · rename_i h
    simp [h]

theorem find_eq_none_iff {α : Type} (b : sequence_buffer_t α) (s : Nat) :
    sequence_buffer_find b s = none ↔ b.tag (s % 65536 % b.capacity) ≠ s % 65536 := by
  unfold sequence_buffer_find
  simp only []
  split
  · rename_i h
    simp [h]
  · rename_i h
    simp [h]

theorem store_find {α : Type} (b : sequence_buffer_t α) (s : Nat) (c : Option (α → α))
    (hs : s < 65536) (hcap : 1 ≤ b.capacity) (hlen : b.entry_sequence.length = b.capacity) :
    sequence_buffer_find (sequence_buffer_store b s c).2 s = some (s % b.capacity) := by
  have hp := store_props b s c
  rw [find_eq_some_iff, hp.2.1, Nat.mod_eq_of_lt hs, hp.2.2.2.2.2]
  have : s % b.capacity < b.capacity := Nat.mod_lt _ hcap
  simp [hlen, this]

theorem insert_of_gt {α : Type} (b : sequence_buffer_t α) (s : Nat) (c : Option (α → α))
    (hs : s < 65536) (h : s_sequence_greater_than (s + 1) b.sequence = true) :
    sequence_buffer_insert b s c = sequence_buffer_store (advanced_buffer b s c) s c := by
  unfold sequence_buffer_insert advanced_buffer
  simp only [Nat.mod_eq_of_lt hs, h, if_true]

theorem insert_of_stale {α : Type} (b : sequence_buffer_t α) (s : Nat) (c : Option (α → α))
    (hs : s < 65536) (h : s_sequence_greater_than (s + 1) b.sequence = false)
    (hst : s_sequence_is_stale b s = true) :
    sequence_buffer_insert b s c = (none, b) := by
  unfold sequence_buffer_insert
  simp [Nat.mod_eq_of_lt hs, h, hst]

theorem insert_of_not_stale {α : Type} (b : sequence_buffer_t α) (s : Nat) (c : Option (α → α))
    (hs : s < 65536) (h : s_sequence_greater_than (s + 1) b.sequence = false)
    (hst : s_sequence_is_stale b s = false) :
    sequence_buffer_insert b s c = sequence_buffer_store b s c := by
  unfold sequence_buffer_insert
  simp [Nat.mod_eq_of_lt hs, h, hst]

theorem insert_mod {α : Type} (b : sequence_buffer_t α) (s : Nat) (c : Option (α → α)) :
    sequence_buffer_insert b (s % 65536) c = sequence_buffer_insert b s c := by
  unfold sequence_buffer_insert
  simp only [Nat.mod_mod]

theorem advanced_buffer_props {α : Type} (b : sequence_buffer_t α) (s : Nat)
    (c : Option (α → α)) :
    (advanced_buffer b s c).capacity = b.capacity ∧
      (advanced_buffer b s c).sequence = (s + 1) % 65536 ∧
      (advanced_buffer b s c).entry_sequence.length = b.entry_sequence.length ∧
      (advanced_buffer b s c).entry_data.length = b.entry_data.length ∧
      ∀ j, (advanced_buffer b s c).tag j =
        if cleared_by_remove_entries b.capacity b.sequence s j then ENTRY_EMPTY else b.tag j := by
  have h := remove_entries_props b b.sequence s c
  exact ⟨h.1, rfl, h.2.2.1, h.2.2.2.1, h.2.2.2.2⟩

/-- The slot, the bookkeeping fields and the tags after a `sequence_buffer_insert` that returns a
slot. -/
theorem insert_some_props {α : Type} (b : sequence_buffer_t α) (s : Nat) (c : Option (α → α))
    (hs : s < 65536) (slot : Nat) (h : (sequence_buffer_insert b s c).1 = some slot) :
    slot = s % b.capacity ∧
      (sequence_buffer_insert b s c).2.capacity = b.capacity ∧
      (sequence_buffer_insert b s c).2.entry_sequence.length = b.entry_sequence.length ∧
      (sequence_buffer_insert b s c).2.entry_data.length = b.entry_data.length ∧
      (sequence_buffer_insert b s c).2.sequence =
        (if s_sequence_greater_than (s + 1) b.sequence then (s + 1) % 65536 else b.sequence) ∧
      (s_sequence_greater_than (s + 1) b.sequence = false → s_sequence_is_stale b s = false) ∧
      ∀ j, (sequence_buffer_insert b s c).2.tag j =
        if s % b.capacity = j ∧ s % b.capacity < b.entry_sequence.length then s
        else if s_sequence_greater_than (s + 1) b.sequence = true ∧
            cleared_by_remove_entries b.capacity b.sequence s j then ENTRY_EMPTY
        else b.tag j := by
  cases hgt : s_sequence_greater_than (s + 1) b.sequence
  · cases hst : s_sequence_is_stale b s
    · rw [insert_of_not_stale b s c hs hgt hst] at h ⊢
      have hp := store_props b s c
      rw [hp.1] at h
      refine ⟨(Option.some.inj h).symm, hp.2.1, hp.2.2.2.1, hp.2.2.2.2.1, ?_, fun _ => rfl,
        fun j => ?_⟩
      · simp [hp.2.2.1]
      · rw [hp.2.2.2.2.2 j]; simp
    · rw [insert_of_stale b s c hs hgt hst] at h
      simp at h
  · rw [insert_of_gt b s c hs hgt] at h ⊢
    have hp := store_props (advanced_buffer b s c) s c
    have ha := advanced_buffer_props b s c
    rw [hp.1, ha.1] at h
    refine ⟨(Option.some.inj h).symm, hp.2.1.trans ha.1, hp.2.2.2.1.trans ha.2.2.1,
      hp.2.2.2.2.1.trans ha.2.2.2.1, ?_, fun hf => by simp at hf, fun j => ?_⟩
    · simp [hp.2.2.1, ha.2.1]
    · rw [hp.2.2.2.2.2 j, ha.1, ha.2.2.1, ha.2.2.2.2 j]; simp

theorem insert_none_props {α : Type} (b : sequence_buffer_t α) (s : Nat) (c : Option (α → α))
    (hs : s < 65536) (h : (sequence_buffer_insert b s c).1 = none) :
    sequence_buffer_insert b s c = (none, b) ∧
      s_sequence_greater_than (s + 1) b.sequence = false ∧ s_sequence_is_stale b s = true := by
  cases hgt : s_sequence_greater_than (s + 1) b.sequence
  · cases hst : s_sequence_is_stale b s
    · rw [insert_of_not_stale b s c hs hgt hst, (store_props b s c).1] at h
      simp at h
    · exact ⟨insert_of_stale b s c hs hgt hst, rfl, rfl⟩
  · rw [insert_of_gt b s c hs hgt, (store_props _ s c).1] at h
    simp at h

theorem insert_wf {α : Type} (b : sequence_buffer_t α) (s : Nat) (c : Option (α → α))
    (hwf : b.wf) : (sequence_buffer_insert b s c).2.wf := by
  rw [← insert_mod]
  have hs : s % 65536 < 65536 := Nat.mod_lt _ (by decide)
  obtain ⟨hcap, hlen, hdat, hseq⟩ := hwf
  cases h : (sequence_buffer_insert b (s % 65536) c).1 with
  | none =>
    rw [(insert_none_props b _ c hs h).1]
    exact ⟨hcap, hlen, hdat, hseq⟩
  | some slot =>
    have hp := insert_some_props b _ c hs slot h
    refine ⟨by rw [hp.2.1]; exact hcap, by rw [hp.2.2.1, hp.2.1]; exact hlen,
      by rw [hp.2.2.2.1, hp.2.1]; exact hdat, ?_⟩
    rw [hp.2.2.2.2.1]
    split
    · exact Nat.mod_lt _ (by decide)
    · exact hseq

theorem find_insert_of_wf {α : Type} (buffer : sequence_buffer_t α)
    (hwf : buffer.wf) (s : Nat) (hs : s < 65536) (cleanup_fn : Option (α → α)) (slot : Nat)
    (hslot : (sequence_buffer_insert buffer s cleanup_fn).1 = some slot) :
    sequence_buffer_find (sequence_buffer_insert buffer s cleanup_fn).2 s = some slot ∧
      slot = s % buffer.capacity := by
  obtain ⟨hcap, hlen, -, -⟩ := hwf
  have hp := insert_some_props buffer s cleanup_fn hs slot hslot
  refine ⟨?_, hp.1⟩
  rw [find_eq_some_iff, hp.2.1, Nat.mod_eq_of_lt hs, hp.2.2.2.2.2.2]
  have : s % buffer.capacity < buffer.capacity := Nat.mod_lt _ hcap
  simp [hlen, this, hp.1]

/-- C3: if `sequence_buffer_insert` returns a slot for the 16-bit sequence `s`, then
`sequence_buffer_find` for `s` on the buffer it leaves returns that same slot, the one at index
`s mod capacity`. -/
theorem sequence_buffer_find_after_insert {α : Type} (buffer : sequence_buffer_t α)
    (hwf : buffer.wf) (s : Nat) (hs : s < 65536) (cleanup_fn : Option (α → α)) (slot : Nat)
    (hslot : (sequence_buffer_insert buffer s cleanup_fn).1 = some slot) :
    sequence_buffer_find (sequence_buffer_insert buffer s cleanup_fn).2 s = some slot ∧
      slot = s % buffer.capacity :=
  find_insert_of_wf buffer hwf s hs cleanup_fn slot hslot

theorem sequence_buffer_find_after_insert_witness :
    sequence_buffer_find
        (sequence_buffer_insert (sequence_buffer_init 4 (0 : Nat)) 9 none).2 9 = some 1 ∧
      1 = 9 % (sequence_buffer_init 4 (0 : Nat)).capacity :=
  sequence_buffer_find_after_insert (sequence_buffer_init 4 (0 : Nat))
    (by decide) 9 (by decide) none 1 (by decide)

/-! ## Sequence buffer: reset, reachable states, eviction -/

theorem remove_props {α : Type} (b : sequence_buffer_t α) (s : Nat) (c : Option (α → α)) :
    (sequence_buffer_remove b s c).capacity = b.capacity ∧
      (sequence_buffer_remove b s c).sequence = b.sequence ∧
      (sequence_buffer_remove b s c).entry_sequence.length = b.entry_sequence.length ∧
      (sequence_buffer_remove b s c).entry_data.length = b.entry_data.length := by
  unfold sequence_buffer_remove
  simp only []
  split
  · exact ⟨rfl, rfl, by simp, run_cleanup_length _ _ _⟩
  · exact ⟨rfl, rfl, rfl, rfl⟩

theorem fold_remove_props {α : Type} (c : Option (α → α)) (ks : List Nat)
    (b : sequence_buffer_t α) :
    (ks.foldl (fun buf i => sequence_buffer_remove buf i c) b).capacity = b.capacity ∧
      (ks.foldl (fun buf i => sequence_buffer_remove buf i c) b).entry_data.length =
        b.entry_data.length := by
  induction ks generalizing b with
  | nil => simp
  | cons k ks ih =>
    have h := ih (sequence_buffer_remove b k c)
    have hr := remove_props b k c
    simp only [List.foldl_cons]
    exact ⟨h.1.trans hr.1, h.2.trans hr.2.2.2⟩

theorem reset_props {α : Type} (b : sequence_buffer_t α) (c : Option (α → α)) :
    (sequence_buffer_reset b c).capacity = b.capacity ∧
      (sequence_buffer_reset b c).sequence = 0 ∧
      (sequence_buffer_reset b c).entry_sequence = List.replicate b.capacity ENTRY_EMPTY ∧
      (sequence_buffer_reset b c).entry_data.length = b.entry_data.length := by
  have h := fold_remove_props c (List.range b.capacity) b
  refine ⟨h.1, rfl, ?_, h.2⟩
  show List.replicate _ ENTRY_EMPTY = _
  rw [h.1]

theorem reset_wf {α : Type} (b : sequence_buffer_t α) (c : Option (α → α)) (hwf : b.wf) :
    (sequence_buffer_reset b c).wf := by
  have h := reset_props b c
  obtain ⟨hcap, -, hdat, -⟩ := hwf
  refine ⟨by rw [h.1]; exact hcap, by rw [h.2.2.1, h.1]; simp, by rw [h.2.2.2, h.1]; exact hdat,
    by rw [h.2.1]; decide⟩

theorem inserts_from_reset_wf {α : Type} (b : sequence_buffer_t α) (h : inserts_from_reset b) :
    b.wf := by
  induction h with
  | reset b c h => exact reset_wf b c h
  | insert b s c _ ih => exact insert_wf b s c ih

theorem mod_capacity_of_dvd (C m x y : Nat) (hm : 65536 = C * m)
    (h : x = y + C ∨ x + 65536 = y + C ∨ x = y + C + 65536) : x % C = y % C := by
  rcases h with h | h | h
  · rw [h, Nat.add_mod_right]
  · have : (x + 65536) % C = x % C := by rw [hm, Nat.add_mul_mod_self_left]
    rw [← this, h, Nat.add_mod_right]
  · rw [h, hm, Nat.add_mul_mod_self_left, Nat.add_mod_right]

/-- After an insert that returned a slot the current sequence is between 1 and `capacity` ahead
of the inserted one. -/
theorem insert_some_distance {α : Type} (b : sequence_buffer_t α) (hseq : b.sequence < 65536)
    (h2 : 2 ≤ b.capacity) (hC : b.capacity ≤ 32766)
    (s : Nat) (hs : s < 65536) (c : Option (α → α)) (slot : Nat)
    (hslot : (sequence_buffer_insert b s c).1 = some slot) :
    ∃ d, 1 ≤ d ∧ d ≤ b.capacity ∧
      ((sequence_buffer_insert b s c).2.sequence = s + d ∨
        (sequence_buffer_insert b s c).2.sequence + 65536 = s + d) := by
  have hp := insert_some_props b s c hs slot hslot
  obtain ⟨-, -, -, -, hseq1, hnst, -⟩ := hp
  have hCm : b.capacity % 65536 = b.capacity := Nat.mod_eq_of_lt (by omega)
  rw [hseq1]
  by_cases hgt : s_sequence_greater_than (s + 1) b.sequence = true
  · rw [if_pos hgt]
    refine ⟨1, le_refl _, by omega, ?_⟩
    omega
  · rw [if_neg hgt]
    rw [Bool.not_eq_true] at hgt
    have hst := hnst hgt
    rw [gt_eq_false_iff] at hgt
    simp only [s_sequence_is_stale, s_sequence_less_than, gt_eq_false_iff, hCm] at hst
    by_cases hw : s < b.sequence
    · exact ⟨b.sequence - s, by omega, by omega, by omega⟩
    · exact ⟨b.sequence + 65536 - s, by omega, by omega, by omega⟩

/-- Eviction on every buffer with allocated arrays: the core of C4. -/
theorem eviction_of_wf {α : Type} (b : sequence_buffer_t α) (hwf : b.wf)
    (hdvd : b.capacity ∣ 65536) (h2 : 2 ≤ b.capacity) (hC : b.capacity ≤ 32766)
    (s : Nat) (hs : s < 65536) (c c1 : Option (α → α)) (slot : Nat)
    (hslot : (sequence_buffer_insert b s c).1 = some slot) :
    sequence_buffer_find
      (sequence_buffer_insert (sequence_buffer_insert b s c).2
        ((s + b.capacity + 1) % 65536) c1).2 s = none := by
  obtain ⟨m, hm⟩ := hdvd
  obtain ⟨hcap, hlen, -, hseq⟩ := hwf
  obtain ⟨d, hd1, hd2, hd⟩ := insert_some_distance b hseq h2 hC s hs c slot hslot
  have hp := insert_some_props b s c hs slot hslot
  obtain ⟨-, hcap1, hlen1, -, -, -, -⟩ := hp
  have ht : (s + b.capacity + 1) % 65536 < 65536 := Nat.mod_lt _ (by decide)
  revert hd hcap1 hlen1
  generalize (sequence_buffer_insert b s c).2 = b1
  intro hd hcap1 hlen1
  -- the second insert takes the advancing branch
  have hgt2 : s_sequence_greater_than ((s + b.capacity + 1) % 65536 + 1) b1.sequence = true := by
    rw [gt_iff]
    omega
  have hsome : (sequence_buffer_insert b1 ((s + b.capacity + 1) % 65536) c1).1 =
      some ((s + b.capacity + 1) % 65536 % b.capacity) := by
    rw [insert_of_gt _ _ c1 ht hgt2, (store_props _ _ c1).1, (advanced_buffer_props _ _ c1).1,
      hcap1]
  have hp2 := insert_some_props _ _ c1 ht _ hsome
  rw [find_eq_none_iff, hp2.2.1, hcap1, Nat.mod_eq_of_lt hs, hp2.2.2.2.2.2.2]
  have hcl : cleared_by_remove_entries b.capacity b1.sequence
      ((s + b.capacity + 1) % 65536) (s % b.capacity) := by
    have hfull : ∃ k ∈ List.range b.capacity, k = s % b.capacity :=
      ⟨s % b.capacity, List.mem_range.2 (Nat.mod_lt _ hcap), rfl⟩
    unfold cleared_by_remove_entries
    by_cases hw : (s + b.capacity + 1) % 65536 < b1.sequence
    · simp only [if_pos hw]
      by_cases hlt : (((s + b.capacity + 1) % 65536 + 65536 : Nat) : Int) - b1.sequence <
          b.capacity
      · rw [if_pos hlt]
        refine ⟨(s + b.capacity + 1) % 65536 + 65536 - 1 - b1.sequence, ?_, ?_⟩
        · rw [List.mem_range]; omega
        · apply mod_capacity_of_dvd b.capacity m _ _ hm
          omega
      · rw [if_neg hlt]; exact hfull
    · simp only [if_neg hw]
      by_cases hlt : (((s + b.capacity + 1) % 65536 : Nat) : Int) - b1.sequence < b.capacity
      · rw [if_pos hlt]
        refine ⟨(s + b.capacity + 1) % 65536 - 1 - b1.sequence, ?_, ?_⟩
        · rw [List.mem_range]; omega
        · apply mod_capacity_of_dvd b.capacity m _ _ hm
          omega
      · rw [if_neg hlt]; exact hfull
  rw [hcap1]
  simp only [hgt2, hcl, and_self, if_true]
  split
  · omega
  · simp only [ENTRY_EMPTY]; omega

/-- C4 as stated fails: with capacity 7 (which does not divide 65536), after inserting 5 into a
reset buffer the insert of 65535 returns slot 1, and after the following insert of
`(65535 + 7 + 1) mod 65536 = 7` the sequence 65535 is still found; with capacity 1, after
inserting 32767 the insert of 65535 returns slot 0, the following insert of
`(65535 + 1 + 1) mod 65536 = 1` is refused as stale, and 65535 is still found. -/
theorem sequence_buffer_eviction_counterexample :
    (inserts_from_reset (sequence_buffer_insert (sequence_buffer_init 7 ()) 5 none).2 ∧
      (sequence_buffer_insert
        (sequence_buffer_insert (sequence_buffer_init 7 ()) 5 none).2 65535 none).1 = some 1 ∧
      sequence_buffer_find
        (sequence_buffer_insert
          (sequence_buffer_insert
            (sequence_buffer_insert (sequence_buffer_init 7 ()) 5 none).2 65535 none).2
          ((65535 + 7 + 1) % 65536) none).2 65535 = some 1) ∧
    (inserts_from_reset (sequence_buffer_insert (sequence_buffer_init 1 ()) 32767 none).2 ∧
      (sequence_buffer_insert
        (sequence_buffer_insert (sequence_buffer_init 1 ()) 32767 none).2 65535 none).1 = some 0 ∧
      sequence_buffer_find
        (sequence_buffer_insert
          (sequence_buffer_insert
            (sequence_buffer_insert (sequence_buffer_init 1 ()) 32767 none).2 65535 none).2
          ((65535 + 1 + 1) % 65536) none).2 65535 = some 0) := by
  refine ⟨⟨?_, by decide, by decide⟩, ⟨?_, by decide, by decide⟩⟩
  · exact inserts_from_reset.insert _ 5 none (inserts_from_reset.reset _ none (by decide))
  · exact inserts_from_reset.insert _ 32767 none (inserts_from_reset.reset _ none (by decide))

/-- C4, amended: eviction for every capacity `C` that divides 65536 with `2 ≤ C ≤ 32766`. In
every buffer state reached from a reset buffer by inserts, if `sequence_buffer_insert` returns a
slot for the 16-bit sequence `s`, then after a following insert of `(s + C + 1) mod 65536` the
sequence `s` is not found. -/
theorem sequence_buffer_eviction {α : Type} (buffer : sequence_buffer_t α)
    (hreach : inserts_from_reset buffer) (hdvd : buffer.capacity ∣ 65536)
    (h2 : 2 ≤ buffer.capacity) (hC : buffer.capacity ≤ 32766) (s : Nat) (hs : s < 65536)
    (cleanup_fn cleanup_fn1 : Option (α → α)) (slot : Nat)
    (hslot : (sequence_buffer_insert buffer s cleanup_fn).1 = some slot) :
    sequence_buffer_find
      (sequence_buffer_insert (sequence_buffer_insert buffer s cleanup_fn).2
        ((s + buffer.capacity + 1) % 65536) cleanup_fn1).2 s = none :=
  eviction_of_wf buffer (inserts_from_reset_wf buffer hreach) hdvd h2 hC s hs cleanup_fn
    cleanup_fn1 slot hslot

theorem sequence_buffer_eviction_witness :
    sequence_buffer_find
      (sequence_buffer_insert
        (sequence_buffer_insert
          (sequence_buffer_reset (sequence_buffer_init 4 (0 : Nat)) none) 65535 none).2
        ((65535 + (sequence_buffer_reset (sequence_buffer_init 4 (0 : Nat)) none).capacity + 1)
          % 65536) none).2 65535 = none :=
  sequence_buffer_eviction (sequence_buffer_reset (sequence_buffer_init 4 (0 : Nat)) none)
    (inserts_from_reset.reset _ none (by decide)) (by decide) (by decide) (by decide) 65535
    (by decide) none none 3 (by decide)

/-! ## Stale inserts -/

/-- C5 as stated fails: in the buffer of capacity 2 reached from a reset buffer by inserting
20000 and 32769 (current sequence 32770) the sequence 0 is stale by `s_sequence_is_stale`, yet
`sequence_buffer_insert` returns slot 0 for it and changes the current sequence and the tags. -/
theorem sequence_buffer_insert_stale_counterexample :
    s_sequence_is_stale
        (sequence_buffer_insert
          (sequence_buffer_insert (sequence_buffer_init 2 ()) 20000 none).2 32769 none).2 0 = true ∧
      sequence_buffer_insert
          (sequence_buffer_insert
            (sequence_buffer_insert (sequence_buffer_init 2 ()) 20000 none).2 32769 none).2 0 none =
        (some 0, ⟨1, 2, [0, ENTRY_EMPTY], [(), ()]⟩) ∧
      (sequence_buffer_insert
          (sequence_buffer_insert (sequence_buffer_init 2 ()) 20000 none).2 32769 none).2 =
        ⟨32770, 2, [ENTRY_EMPTY, 32769], [(), ()]⟩ := by
  decide

/-- C5, amended: for every buffer state and every 16-bit sequence `seq` that is stale
(`s_sequence_is_stale` holds) and for which `seq + 1` is not greater than the current sequence
(so that the advancing branch is not taken), `sequence_buffer_insert` returns `NULL` and leaves
the buffer unchanged. -/
theorem sequence_buffer_insert_stale {α : Type} (buffer : sequence_buffer_t α) (seq : Nat)
    (hseq : seq < 65536) (cleanup_fn : Option (α → α))
    (hgt : s_sequence_greater_than (seq + 1) buffer.sequence = false)
    (hstale : s_sequence_is_stale buffer seq = true) :
    (sequence_buffer_insert buffer seq cleanup_fn).1 = none ∧
      (sequence_buffer_insert buffer seq cleanup_fn).2 = buffer := by
  rw [insert_of_stale buffer seq cleanup_fn hseq hgt hstale]
  exact ⟨rfl, rfl⟩

theorem sequence_buffer_insert_stale_witness :
    (sequence_buffer_insert
        (sequence_buffer_insert (sequence_buffer_init 4 (0 : Nat)) 100 none).2 50 none).1 = none ∧
      (sequence_buffer_insert
        (sequence_buffer_insert (sequence_buffer_init 4 (0 : Nat)) 100 none).2 50 none).2 =
        (sequence_buffer_insert (sequence_buffer_init 4 (0 : Nat)) 100 none).2 :=
  sequence_buffer_insert_stale
    (sequence_buffer_insert (sequence_buffer_init 4 (0 : Nat)) 100 none).2 50 (by decide) none
    (by decide) (by decide)

/-! ## Ack bits -/

theorem ack_bits_fold_invariant {α : Type} (b : sequence_buffer_t α) (ack n : Nat)
    (hn : n ≤ 32) :
    ((List.range n).foldl (ack_bits_step b ack) (0, 1)).2 = 2 ^ n % 4294967296 ∧
      ∀ i, ((List.range n).foldl (ack_bits_step b ack) (0, 1)).1.testBit i =
        (decide (i < n) &&
          (sequence_buffer_find b ((ack + 65536 - i % 65536) % 65536)).isSome) := by
  induction n with
  | zero => simp
  | succ n ih =>
    obtain ⟨hmask, hbits⟩ := ih (by omega)
    have hpow : 2 ^ n < 4294967296 := by
      have : 2 ^ n < 2 ^ 32 := Nat.pow_lt_pow_right (by decide) (by omega)
      simpa using this
    rw [Nat.mod_eq_of_lt hpow] at hmask
    rw [List.range_succ, List.foldl_append, List.foldl_cons, List.foldl_nil]
    refine ⟨?_, fun i => ?_⟩
    · simp only [ack_bits_step, hmask, Nat.shiftLeft_eq, pow_succ, pow_zero, one_mul]
    · simp only [ack_bits_step]
      by_cases hf : (sequence_buffer_find b ((ack + 65536 - n % 65536) % 65536)).isSome = true
      · rw [if_pos hf, Nat.testBit_or, hbits i, hmask, Nat.testBit_two_pow]
        by_cases hin : n = i
        · subst hin; simp [hf]
        · have : (i < n + 1) = (i < n) := by
            apply propext; omega
          simp [hin, this]
      · rw [if_neg hf, hbits i]
        by_cases hin : n = i
        · subst hin
          simp only [Bool.not_eq_true] at hf
          simp [hf]
        · have : (i < n + 1) = (i < n) := by
            apply propext; omega
          simp [this]

theorem cleared_small (C a e j : Nat) (hae : a ≤ e) (heC : e < C) :
    cleared_by_remove_entries C a e j ↔ a ≤ j ∧ j ≤ e := by
  unfold cleared_by_remove_entries
  have h1 : ¬ e < a := by omega
  simp only [if_neg h1]
  have h2 : ((e : Nat) : Int) - a < C := by omega
  rw [if_pos h2]
  constructor
  · rintro ⟨k, hk, hkj⟩
    rw [List.mem_range] at hk
    rw [Nat.mod_eq_of_lt (by omega)] at hkj
    omega
  · rintro ⟨h3, h4⟩
    refine ⟨j - a, List.mem_range.2 (by omega), ?_⟩
    rw [Nat.mod_eq_of_lt (by omega)]
    omega

theorem insert_gt_tags {α : Type} (b : sequence_buffer_t α) (s : Nat) (c : Option (α → α))
    (hs : s < 65536) (hgt : s_sequence_greater_than (s + 1) b.sequence = true)
    (hlen : b.entry_sequence.length = b.capacity) (hsC : s < b.capacity)
    (hcur : b.sequence ≤ s) :
    (sequence_buffer_insert b s c).2.capacity = b.capacity ∧
      (sequence_buffer_insert b s c).2.entry_sequence.length = b.capacity ∧
      (sequence_buffer_insert b s c).2.sequence = (s + 1) % 65536 ∧
      ∀ j, (sequence_buffer_insert b s c).2.tag j =
        if j = s then s else if b.sequence ≤ j ∧ j ≤ s then ENTRY_EMPTY else b.tag j := by
  have hsome : (sequence_buffer_insert b s c).1 = some (s % b.capacity) := by
    rw [insert_of_gt b s c hs hgt, (store_props _ s c).1, (advanced_buffer_props b s c).1]
  have hp := insert_some_props b s c hs _ hsome
  refine ⟨hp.2.1, hp.2.2.1.trans hlen, ?_, fun j => ?_⟩
  · rw [hp.2.2.2.2.1, if_pos hgt]
  · rw [hp.2.2.2.2.2.2 j, Nat.mod_eq_of_lt hsC, hlen]
    simp only [hsC, and_true, hgt, true_and, cleared_small b.capacity b.sequence s j hcur hsC]
    by_cases hj : s = j
    · simp [hj]
    · simp [hj, Ne.symm hj]

/-- The tags after inserting 10, 11 and 13 into a reset buffer of capacity at least 32. -/
theorem tags_after_10_11_13 {α : Type} (b : sequence_buffer_t α) (c0 c1 c2 c3 : Option (α → α))
    (hcap : 32 ≤ b.capacity) :
    (sequence_buffer_insert (sequence_buffer_insert (sequence_buffer_insert
        (sequence_buffer_reset b c0) 10 c1).2 11 c2).2 13 c3).2.capacity = b.capacity ∧
      (sequence_buffer_insert (sequence_buffer_insert (sequence_buffer_insert
        (sequence_buffer_reset b c0) 10 c1).2 11 c2).2 13 c3).2.sequence = 14 ∧
      ∀ j, (sequence_buffer_insert (sequence_buffer_insert (sequence_buffer_insert
        (sequence_buffer_reset b c0) 10 c1).2 11 c2).2 13 c3).2.tag j =
        if j = 13 then 13 else if j = 11 then 11 else if j = 10 then 10 else ENTRY_EMPTY := by
  have h0 := reset_props b c0
  have h0tag : ∀ j, (sequence_buffer_reset b c0).tag j = ENTRY_EMPTY := by
    intro j
    simp only [sequence_buffer_t.tag, h0.2.2.1, List.getD_eq_getElem?_getD,
      List.getElem?_replicate]
    split <;> rfl
  have h0len : (sequence_buffer_reset b c0).entry_sequence.length =
      (sequence_buffer_reset b c0).capacity := by
    rw [h0.2.2.1, h0.1]; simp
  have h1 := insert_gt_tags (sequence_buffer_reset b c0) 10 c1 (by decide)
    (by rw [h0.2.1]; decide) h0len (by rw [h0.1]; omega) (by rw [h0.2.1]; omega)
  rw [h0.1] at h1
  have h2 := insert_gt_tags (sequence_buffer_insert (sequence_buffer_reset b c0) 10 c1).2 11 c2
    (by decide) (by rw [h1.2.2.1]; decide) (by rw [h1.2.1, h1.1]) (by rw [h1.1]; omega)
    (by rw [h1.2.2.1])
  rw [h1.1] at h2
  have h3 := insert_gt_tags (sequence_buffer_insert
    (sequence_buffer_insert (sequence_buffer_reset b c0) 10 c1).2 11 c2).2 13 c3
    (by decide) (by rw [h2.2.2.1]; decide) (by rw [h2.2.1, h2.1]) (by rw [h2.1]; omega)
    (by rw [h2.2.2.1]; decide)
  rw [h2.1] at h3
  refine ⟨h3.1, by rw [h3.2.2.1], fun j => ?_⟩
  rw [h3.2.2.2 j, h2.2.2.1, h2.2.2.2 j, h1.2.2.1, h1.2.2.2 j, h0tag j, h0.2.1]
  have e1 : (10 + 1) % 65536 = 11 := by decide
  have e2 : (11 + 1) % 65536 = 12 := by decide
  simp only [e1, e2]
  by_cases j13 : j = 13
  · simp [j13]
  · by_cases j12 : j = 12
    · simp [j12]
    · by_cases j11 : j = 11
      · simp [j11]
      · by_cases j10 : j = 10
        · simp [j10]
        · simp [j13, j11, j10]

theorem find_after_10_11_13 {α : Type} (b : sequence_buffer_t α) (c0 c1 c2 c3 : Option (α → α))
    (hcap : 32 ≤ b.capacity) (s : Nat) (hs : s < 65536) :
    (sequence_buffer_find (sequence_buffer_insert (sequence_buffer_insert (sequence_buffer_insert
        (sequence_buffer_reset b c0) 10 c1).2 11 c2).2 13 c3).2 s).isSome =
      decide (s = 10 ∨ s = 11 ∨ s = 13) := by
  have ht := tags_after_10_11_13 b c0 c1 c2 c3 hcap
  unfold sequence_buffer_find
  simp only [Nat.mod_eq_of_lt hs, ht.1, ht.2.2]
  by_cases h : s = 10 ∨ s = 11 ∨ s = 13
  · have hm : s % b.capacity = s := Nat.mod_eq_of_lt (by omega)
    rw [hm]
    rcases h with h | h | h <;> subst h <;> simp
  · have hne : ¬ ((if s % b.capacity = 13 then 13 else if s % b.capacity = 11 then 11
        else if s % b.capacity = 10 then 10 else ENTRY_EMPTY) = s) := by
      by_cases s32 : s < 32
      · rw [Nat.mod_eq_of_lt (by omega)]
        simp only [ENTRY_EMPTY]
        split_ifs <;> omega
      · simp only [ENTRY_EMPTY]
        split_ifs <;> omega
    simp [hne, h]

/-- C6: `sequence_buffer_generate_ack_bits` returns `ack = (current - 1) mod 65536` and a 32-bit
word whose bit `i` (for `i` in 0..31) is set if and only if `sequence_buffer_find` returns a slot
for `(ack - i) mod 65536`. Inserting 10, 11 and 13 into a reset buffer of capacity at least 32
gives `ack = 13` and `ack_bits = 0b1101`. -/
theorem sequence_buffer_generate_ack_bits_spec {α : Type} :
    (∀ buffer : sequence_buffer_t α,
      ((sequence_buffer_generate_ack_bits buffer).1 : Int) =
          ((buffer.sequence : Int) - 1) % 65536 ∧
        (sequence_buffer_generate_ack_bits buffer).2 < 2 ^ 32 ∧
        ∀ i, i < 32 →
          ((sequence_buffer_generate_ack_bits buffer).2.testBit i = true ↔
            ∃ slot, sequence_buffer_find buffer
              (((sequence_buffer_generate_ack_bits buffer).1 + 65536 - i) % 65536) =
                some slot)) ∧
      (∀ (buffer : sequence_buffer_t α) (c0 c1 c2 c3 : Option (α → α)), 32 ≤ buffer.capacity →
        sequence_buffer_generate_ack_bits
          (sequence_buffer_insert (sequence_buffer_insert (sequence_buffer_insert
            (sequence_buffer_reset buffer c0) 10 c1).2 11 c2).2 13 c3).2 = (13, 0b1101)) := by
  refine ⟨fun buffer => ⟨?_, ?_, fun i hi => ?_⟩, fun buffer c0 c1 c2 c3 hcap => ?_⟩
  · simp only [sequence_buffer_generate_ack_bits]
    omega
  · have h := (ack_bits_fold_invariant buffer ((buffer.sequence + 65536 - 1) % 65536) 32
      (le_refl _)).2
    apply Nat.lt_pow_two_of_testBit
    intro i hi
    simp only [sequence_buffer_generate_ack_bits]
    rw [h i]
    have : ¬ i < 32 := by omega
    simp [this]
  · have h := (ack_bits_fold_invariant buffer ((buffer.sequence + 65536 - 1) % 65536) 32
      (le_refl _)).2 i
    simp only [sequence_buffer_generate_ack_bits]
    rw [h, Nat.mod_eq_of_lt (by omega : i < 65536)]
    simp [hi, Option.isSome_iff_exists]
  · have ht := tags_after_10_11_13 buffer c0 c1 c2 c3 hcap
    have hstep : ∀ (acc : Nat × Nat) (i : Nat),
        ack_bits_step (sequence_buffer_insert (sequence_buffer_insert (sequence_buffer_insert
          (sequence_buffer_reset buffer c0) 10 c1).2 11 c2).2 13 c3).2 13 acc i =
        ((if ((13 + 65536 - i % 65536) % 65536 = 10 ∨ (13 + 65536 - i % 65536) % 65536 = 11 ∨
            (13 + 65536 - i % 65536) % 65536 = 13) then acc.1 ||| acc.2 else acc.1),
          (acc.2 <<< 1) % 4294967296) := by
      intro acc i
      simp only [ack_bits_step]
      rw [find_after_10_11_13 buffer c0 c1 c2 c3 hcap _ (Nat.mod_lt _ (by decide))]
      simp only [decide_eq_true_eq]
    have hfun : ack_bits_step (sequence_buffer_insert (sequence_buffer_insert
        (sequence_buffer_insert (sequence_buffer_reset buffer c0) 10 c1).2 11 c2).2 13 c3).2 13 =
        fun acc i =>
          ((if ((13 + 65536 - i % 65536) % 65536 = 10 ∨ (13 + 65536 - i % 65536) % 65536 = 11 ∨
            (13 + 65536 - i % 65536) % 65536 = 13) then acc.1 ||| acc.2 else acc.1),
          (acc.2 <<< 1) % 4294967296) := by
      funext acc i
      exact hstep acc i
    simp only [sequence_buffer_generate_ack_bits, ht.2.1]
    have e : (14 + 65536 - 1) % 65536 = 13 := by decide
    rw [e, hfun]
    decide

theorem sequence_buffer_generate_ack_bits_spec_witness :
    ((sequence_buffer_generate_ack_bits
        (sequence_buffer_insert (sequence_buffer_init 8 (0 : Nat)) 65535 none).2).2.testBit 0 = true ↔
      ∃ slot, sequence_buffer_find
        (sequence_buffer_insert (sequence_buffer_init 8 (0 : Nat)) 65535 none).2
        (((sequence_buffer_generate_ack_bits
          (sequence_buffer_insert (sequence_buffer_init 8 (0 : Nat)) 65535 none).2).1
            + 65536 - 0) % 65536) = some slot) ∧
      sequence_buffer_generate_ack_bits
        (sequence_buffer_insert (sequence_buffer_insert (sequence_buffer_insert
          (sequence_buffer_reset ⟨5, 32, List.replicate 32 7, List.replicate 32 (0 : Nat)⟩ none)
            10 none).2
            11 none).2 13 none).2 = (13, 0b1101) :=
  ⟨(sequence_buffer_generate_ack_bits_spec.1
      (sequence_buffer_insert (sequence_buffer_init 8 (0 : Nat)) 65535 none).2).2.2 0 (by decide),
    sequence_buffer_generate_ack_bits_spec.2 ⟨5, 32, List.replicate 32 7, List.replicate 32 0⟩
      none none none
      none (by decide)⟩

/-! ## Ack system: sending -/

theorem gt_succ_self (s : Nat) (hs : s < 65536) : s_sequence_greater_than (s + 1) s = true := by
  rw [gt_iff]; omega

theorem init_wf {α : Type} (capacity : Nat) (fill : α) (hcap : 1 ≤ capacity) :
    (sequence_buffer_init capacity fill).wf ∧ (sequence_buffer_init capacity fill).sequence = 0 ∧
      (sequence_buffer_init capacity fill).capacity = capacity := by
  unfold sequence_buffer_init
  refine ⟨reset_wf _ none ⟨hcap, by simp, by simp, by simp⟩, (reset_props _ none).2.1,
    (reset_props _ none).1⟩

/-- What one accepted `ack_system_send_packet` does, on an ack system whose sent-packets buffer
has its current sequence equal to the local sequence. -/
theorem send_packet_ok (limits : transport_limits_t) (sys : ack_system_t) (data : List Nat)
    (size : Int) (hwf : sys.sent_packets.wf) (hseq : sys.sent_packets.sequence = sys.sequence)
    (hsize : ¬ (size > sys.max_packet_size ∨ size > limits.CUTE_ACK_SYSTEM_MAX_PACKET_SIZE))
    (hnonneg : 0 ≤ size) (hfn : ∀ call, 0 ≤ sys.send_packet_fn call) :
    ∃ r, ack_system_send_packet limits sys data size = some r ∧ r.ret = 0 ∧
      r.sequence_out = some sys.sequence ∧
      r.calls = [{ sequence := sys.sequence
                   packet := s_write_ack_system_header sys.sequence
                      (sequence_buffer_generate_ack_bits sys.received_packets).1
                      (sequence_buffer_generate_ack_bits sys.received_packets).2 ++
                        data.take size.toNat
                   size := size + 8 }] ∧
      (sequence_buffer_insert sys.sent_packets sys.sequence none).1 =
        some (sys.sequence % sys.sent_packets.capacity) ∧
      sequence_buffer_find r.ack_system.sent_packets sys.sequence =
        some (sys.sequence % sys.sent_packets.capacity) ∧
      r.ack_system.sent_packets.entry_data[sys.sequence % sys.sent_packets.capacity]? =
        some { timestamp := sys.time, acked := 0, size := size + 8 } ∧
      r.ack_system.sent_packets.wf ∧
      r.ack_system.sent_packets.sequence = r.ack_system.sequence ∧
      r.ack_system.sequence = (sys.sequence + 1) % 65536 ∧
      r.ack_system.sent_packets.capacity = sys.sent_packets.capacity ∧
      r.ack_system.send_packet_fn = sys.send_packet_fn ∧
      r.ack_system.max_packet_size = sys.max_packet_size := by
  have hs : sys.sequence < 65536 := hseq ▸ hwf.2.2.2
  have hgt : s_sequence_greater_than (sys.sequence + 1) sys.sent_packets.sequence = true := by
    rw [hseq]; exact gt_succ_self _ hs
  have hsome : (sequence_buffer_insert sys.sent_packets sys.sequence none).1 =
      some (sys.sequence % sys.sent_packets.capacity) := by
    rw [insert_of_gt _ _ none hs hgt, (store_props _ _ none).1, (advanced_buffer_props _ _ none).1]
  have hp := insert_some_props _ _ none hs _ hsome
  have hfind := (find_insert_of_wf _ hwf _ hs none _ hsome).1
  have hwf1 := insert_wf _ sys.sequence none hwf
  have hidx : sys.sequence % sys.sent_packets.capacity <
      (sequence_buffer_insert sys.sent_packets sys.sequence none).2.entry_data.length := by
    rw [hp.2.2.2.1, hwf.2.2.1]
    exact Nat.mod_lt _ hwf.1
  unfold ack_system_send_packet
  rw [if_neg hsize]
  simp only [hsome]
  rw [if_neg (not_lt.2 hnonneg), if_neg (not_lt.2 (hfn _))]
  refine ⟨_, rfl, rfl, rfl, rfl, trivial, hfind, ?_, ?_, ?_, rfl, hp.2.1, rfl, rfl⟩
  · simp only [List.getElem?_set, hidx, if_true, CUTE_ACK_SYSTEM_HEADER_SIZE]
  · exact ⟨hwf1.1, hwf1.2.1, by simp only [List.length_set]; exact hwf1.2.2.1, hwf1.2.2.2⟩
  · show (sequence_buffer_insert sys.sent_packets sys.sequence none).2.sequence = _
    rw [hp.2.2.2.2.1, if_pos hgt]

theorem send_packets_ok (limits : transport_limits_t) (sends : List (List Nat × Int)) :
    ∀ (sys : ack_system_t), sys.sent_packets.wf → sys.sent_packets.sequence = sys.sequence →
      (∀ p ∈ sends, ¬ (p.2 > sys.max_packet_size ∨
        p.2 > limits.CUTE_ACK_SYSTEM_MAX_PACKET_SIZE)) →
      (∀ p ∈ sends, 0 ≤ p.2) →
      (∀ call, 0 ≤ sys.send_packet_fn call) →
      ∃ sys1, ack_system_send_packets limits sys sends = some sys1 ∧ sys1.sent_packets.wf ∧
        sys1.sent_packets.sequence = sys1.sequence ∧
        sys1.sequence = (sys.sequence + sends.length) % 65536 ∧
        sys1.sent_packets.capacity = sys.sent_packets.capacity ∧
        sys1.send_packet_fn = sys.send_packet_fn ∧
        sys1.max_packet_size = sys.max_packet_size := by
  induction sends with
  | nil =>
    intro sys hwf hseq _ _ _
    exact ⟨sys, rfl, hwf, hseq, by simp [Nat.mod_eq_of_lt (hseq ▸ hwf.2.2.2)], rfl, rfl, rfl⟩
  | cons p rest ih =>
    intro sys hwf hseq hsz hnn hfn
    obtain ⟨r, hr, -, -, -, -, -, -, hwf1, hseq1, hnext, hcap, hfn1, hmax⟩ :=
      send_packet_ok limits sys p.1 p.2 hwf hseq (hsz p (List.mem_cons_self _ _))
        (hnn p (List.mem_cons_self _ _)) hfn
    obtain ⟨sys1, h1, h2, h3, h4, h5, h6, h7⟩ := ih r.ack_system hwf1 hseq1
      (fun q hq => by rw [hmax]; exact hsz q (List.mem_cons_of_mem _ hq))
      (fun q hq => hnn q (List.mem_cons_of_mem _ hq))
      (fun call => by rw [hfn1]; exact hfn call)
    refine ⟨sys1, ?_, h2, h3, ?_, h5.trans hcap, h6.trans hfn1, h7.trans hmax⟩
    · obtain ⟨d, n⟩ := p
      simp only [ack_system_send_packets, hr]
      exact h1
    · rw [h4, hnext, List.length_cons]
      omega

set_option maxRecDepth 100000 in
/-- C7 as stated fails for a negative size: -1 is within both limits of the sample ack system
(100 and 1180) and its send callback succeeds, yet the first call of `ack_system_send_packet`
on the freshly made ack system with size -1 does not return 0: the size passes the test of
line 309 and is the length of the `CUTE_MEMCPY` of line 329. -/
theorem ack_system_send_packet_series_counterexample :
    ack_system_make sample_limits sample_config = some sample_ack_system ∧
    ((-1 : Int) ≤ sample_ack_system.max_packet_size ∧
      (-1 : Int) ≤ sample_limits.CUTE_ACK_SYSTEM_MAX_PACKET_SIZE) ∧
    (∀ call, 0 ≤ sample_ack_system.send_packet_fn call) ∧
    (ack_system_send_packet sample_limits sample_ack_system [] (-1)).isNone = true :=
  ⟨rfl, by decide, fun _ => le_refl _, by decide⟩

/-- C7, amended: starting from a freshly made or reset ack system (with a sent-packets buffer of
capacity at least 1), after any series `sends` of `ack_system_send_packet` calls with sizes
between 0 and the limits and a send callback that succeeds, the next call (number
`k = sends.length`), again with a size between 0 and the limits, returns 0, reports
`sequence_out = k mod 65536`, hands the send callback the header written from that sequence and
the `(ack, ack_bits)` of the received-packets buffer followed by the payload, and leaves in the
sent-packets buffer an entry for that sequence with `acked = 0` and `size = size + 8`; the
insert into the sent-packets buffer returns a slot. -/
theorem ack_system_send_packet_series (limits : transport_limits_t) (ack_system0 : ack_system_t)
    (hfresh : (∃ config, ack_system_make limits config = some ack_system0) ∨
      (∃ old : ack_system_t, old.sent_packets.wf ∧ ack_system0 = ack_system_reset old))
    (hcap : 1 ≤ ack_system0.sent_packets.capacity)
    (hsend : ∀ call, 0 ≤ ack_system0.send_packet_fn call)
    (sends : List (List Nat × Int))
    (hsizes : ∀ p ∈ sends, 0 ≤ p.2 ∧ p.2 ≤ ack_system0.max_packet_size ∧
      p.2 ≤ limits.CUTE_ACK_SYSTEM_MAX_PACKET_SIZE)
    (data : List Nat) (size : Int)
    (hsize : 0 ≤ size ∧ size ≤ ack_system0.max_packet_size ∧
      size ≤ limits.CUTE_ACK_SYSTEM_MAX_PACKET_SIZE) :
    ∃ ack_system result slot,
      ack_system_send_packets limits ack_system0 sends = some ack_system ∧
      ack_system_send_packet limits ack_system data size = some result ∧
      result.ret = 0 ∧
      result.sequence_out = some (sends.length % 65536) ∧
      result.calls =
        [{ sequence := sends.length % 65536
           packet := s_write_ack_system_header (sends.length % 65536)
              (sequence_buffer_generate_ack_bits ack_system.received_packets).1
              (sequence_buffer_generate_ack_bits ack_system.received_packets).2 ++
                data.take size.toNat
           size := size + 8 }] ∧
      (sequence_buffer_insert ack_system.sent_packets (sends.length % 65536) none).1 =
        some slot ∧
      sequence_buffer_find result.ack_system.sent_packets (sends.length % 65536) = some slot ∧
      result.ack_system.sent_packets.entry_data[slot]? =
        some { timestamp := ack_system.time, acked := 0, size := size + 8 } := by
  have h0 : ack_system0.sent_packets.wf ∧
      ack_system0.sent_packets.sequence = ack_system0.sequence ∧ ack_system0.sequence = 0 := by
    rcases hfresh with ⟨config, hmake⟩ | ⟨old, hold, rfl⟩
    · unfold ack_system_make at hmake
      split at hmake
      · split at hmake
        · exact absurd hmake (by simp)
        · have hm := Option.some.inj hmake
          subst hm
          have hcap1 : 1 ≤ (sequence_buffer_init config.sent_packets_sequence_buffer_size
              (⟨0, 0, 0⟩ : sent_packet_t)).capacity := hcap
          have hc : (sequence_buffer_init config.sent_packets_sequence_buffer_size
              (⟨0, 0, 0⟩ : sent_packet_t)).capacity = config.sent_packets_sequence_buffer_size :=
            (reset_props _ none).1
          rw [hc] at hcap1
          have hi := init_wf config.sent_packets_sequence_buffer_size
            (⟨0, 0, 0⟩ : sent_packet_t) hcap1
          exact ⟨hi.1, hi.2.1, rfl⟩
      · exact absurd hmake (by simp)
    · exact ⟨reset_wf _ none hold, rfl, rfl⟩
  obtain ⟨hwf, hseq, hzero⟩ := h0
  obtain ⟨sys, hrun, hwf1, hseq1, hnum, -, hfn1, hmax1⟩ :=
    send_packets_ok limits sends ack_system0 hwf hseq
      (fun p hp => by have := hsizes p hp; omega) (fun p hp => (hsizes p hp).1) hsend
  rw [hzero, Nat.zero_add] at hnum
  obtain ⟨r, hr, hret, hout, hcalls, hins, hfind, hdata, -⟩ :=
    send_packet_ok limits sys data size hwf1 hseq1 (by rw [hmax1]; omega) hsize.1
      (fun call => by rw [hfn1]; exact hsend call)
  rw [hnum] at hout hcalls hins hfind hdata
  exact ⟨sys, r, _, hrun, hr, hret, hout, hcalls, hins, hfind, hdata⟩

theorem ack_system_send_packet_series_witness :
    ∃ ack_system result slot,
      ack_system_send_packets sample_limits sample_ack_system [([1, 2, 3], 3), ([4], 1)] =
        some ack_system ∧
      ack_system_send_packet sample_limits ack_system [9, 9] 2 = some result ∧
      result.ret = 0 ∧
      result.sequence_out = some ([([1, 2, 3], (3 : Int)), ([4], 1)].length % 65536) ∧
      result.calls =
        [{ sequence := [([1, 2, 3], (3 : Int)), ([4], 1)].length % 65536
           packet := s_write_ack_system_header ([([1, 2, 3], (3 : Int)), ([4], 1)].length % 65536)
              (sequence_buffer_generate_ack_bits ack_system.received_packets).1
              (sequence_buffer_generate_ack_bits ack_system.received_packets).2 ++
                [9, 9].take (2 : Int).toNat
           size := 2 + 8 }] ∧
      (sequence_buffer_insert ack_system.sent_packets
        ([([1, 2, 3], (3 : Int)), ([4], 1)].length % 65536) none).1 = some slot ∧
      sequence_buffer_find result.ack_system.sent_packets
        ([([1, 2, 3], (3 : Int)), ([4], 1)].length % 65536) = some slot ∧
      result.ack_system.sent_packets.entry_data[slot]? =
        some { timestamp := ack_system.time, acked := 0, size := 2 + 8 } :=
  ack_system_send_packet_series sample_limits sample_ack_system
    (Or.inl ⟨sample_config, rfl⟩) (by decide) (fun _ => le_refl _)
    [([1, 2, 3], 3), ([4], 1)] (by decide) [9, 9] 2 (by decide)

/-- C8: for every ack system state and every size greater than the configured `max_packet_size`
or greater than `CUTE_ACK_SYSTEM_MAX_PACKET_SIZE`, `ack_system_send_packet` returns -1, adds one
(as a `uint64_t`) to the `PACKETS_TOO_LARGE_TO_SEND` counter, makes no call of the send callback,
and leaves every other counter and every other field of the ack system (local sequence number,
sent-packets buffer, ...) unchanged. -/
theorem ack_system_send_packet_too_large (limits : transport_limits_t) (ack_system : ack_system_t)
    (data : List Nat) (size : Int)
    (hsize : size > ack_system.max_packet_size ∨
      size > limits.CUTE_ACK_SYSTEM_MAX_PACKET_SIZE) :
    ∃ result, ack_system_send_packet limits ack_system data size = some result ∧
      result.ret = -1 ∧ result.calls = [] ∧ result.sequence_out = none ∧
      result.ack_system.counters ACK_SYSTEM_COUNTERS_PACKETS_TOO_LARGE_TO_SEND =
        (ack_system.counters ACK_SYSTEM_COUNTERS_PACKETS_TOO_LARGE_TO_SEND + 1) %
          18446744073709551616 ∧
      (∀ counter, counter ≠ ACK_SYSTEM_COUNTERS_PACKETS_TOO_LARGE_TO_SEND →
        result.ack_system.counters counter = ack_system.counters counter) ∧
      result.ack_system.sequence = ack_system.sequence ∧
      result.ack_system.sent_packets = ack_system.sent_packets ∧
      result.ack_system = { ack_system with counters := result.ack_system.counters } := by
  unfold ack_system_send_packet
  rw [if_pos hsize]
  refine ⟨_, rfl, rfl, rfl, rfl, ?_, ?_, rfl, rfl, rfl⟩
  · simp [counter_increment]
  · intro counter hne
    simp [counter_increment, Function.update, hne]

theorem ack_system_send_packet_too_large_witness :
    ∃ result, ack_system_send_packet sample_limits sample_ack_system [] 101 = some result ∧
      result.ret = -1 ∧ result.calls = [] ∧ result.sequence_out = none ∧
      result.ack_system.counters ACK_SYSTEM_COUNTERS_PACKETS_TOO_LARGE_TO_SEND =
        (sample_ack_system.counters ACK_SYSTEM_COUNTERS_PACKETS_TOO_LARGE_TO_SEND + 1) %
          18446744073709551616 ∧
      (∀ counter, counter ≠ ACK_SYSTEM_COUNTERS_PACKETS_TOO_LARGE_TO_SEND →
        result.ack_system.counters counter = sample_ack_system.counters counter) ∧
      result.ack_system.sequence = sample_ack_system.sequence ∧
      result.ack_system.sent_packets = sample_ack_system.sent_packets ∧
      result.ack_system = { sample_ack_system with counters := result.ack_system.counters } :=
  ack_system_send_packet_too_large sample_limits sample_ack_system [] 101 (Or.inl (by decide))

/-! ## Ack system: receiving -/

/-- C9 as stated fails for a packet that falls under two of the three cases. On the sample ack
system (maximum 100 bytes, received-packets buffer of capacity 4 with current sequence 0) a
200-byte packet with the stale sequence 40000 is rejected with -1, but `PACKETS_STALE` stays 0 and
only `PACKETS_TOO_LARGE_TO_RECEIVE` is incremented; with a maximum of 4 bytes a 6-byte packet,
shorter than the header, leaves `PACKETS_INVALID` at 0. -/
theorem ack_system_receive_packet_rejects_counterexample :
    s_sequence_is_stale sample_ack_system.received_packets
        (read_uint16 sample_oversized_stale_packet) = true ∧
      (ack_system_receive_packet sample_limits sample_ack_system
          sample_oversized_stale_packet 200).map
        (fun r => (r.ret, r.ack_system.counters ACK_SYSTEM_COUNTERS_PACKETS_STALE,
          r.ack_system.counters ACK_SYSTEM_COUNTERS_PACKETS_TOO_LARGE_TO_RECEIVE)) =
        some (-1, 0, 1) ∧
      (ack_system_receive_packet sample_limits { sample_ack_system with max_packet_size := 4 }
          [1, 2, 3, 4, 5, 6] 6).map
        (fun r => (r.ret, r.ack_system.counters ACK_SYSTEM_COUNTERS_PACKETS_INVALID,
          r.ack_system.counters ACK_SYSTEM_COUNTERS_PACKETS_TOO_LARGE_TO_RECEIVE)) =
        some (-1, 0, 1) := by
  decide

/-- C9, amended: `ack_system_receive_packet` makes its checks in the order size limit, header
length, staleness, and the first check that fails decides the counter. A packet larger than the
maximum gets -1 and `PACKETS_TOO_LARGE_TO_RECEIVE`; a packet within the maximum but shorter than
the 8-byte header gets -1 and `PACKETS_INVALID`; a packet within the maximum, at least 8 bytes
long, whose sequence is stale for the received-packets buffer gets -1 and `PACKETS_STALE`. In
each case that counter is incremented by one (as a `uint64_t`), the open-packet callback is not
called, and the received-packets buffer, the sent-packets buffer, the ack list and the RTT
estimate are unchanged. -/
theorem ack_system_receive_packet_rejects (limits : transport_limits_t)
    (ack_system : ack_system_t) (data : List Nat) (size : Int) :
    ((size > ack_system.max_packet_size ∨ size > limits.CUTE_ACK_SYSTEM_MAX_PACKET_SIZE) →
      ∃ result, ack_system_receive_packet limits ack_system data size = some result ∧
        result.ret = -1 ∧ result.calls = [] ∧
        result.ack_system.counters ACK_SYSTEM_COUNTERS_PACKETS_TOO_LARGE_TO_RECEIVE =
          (ack_system.counters ACK_SYSTEM_COUNTERS_PACKETS_TOO_LARGE_TO_RECEIVE + 1) %
            18446744073709551616 ∧
        result.ack_system.received_packets = ack_system.received_packets ∧
        result.ack_system.sent_packets = ack_system.sent_packets ∧
        result.ack_system.acks = ack_system.acks ∧ result.ack_system.rtt = ack_system.rtt) ∧
    (¬ (size > ack_system.max_packet_size ∨ size > limits.CUTE_ACK_SYSTEM_MAX_PACKET_SIZE) →
      size < 8 →
      ∃ result, ack_system_receive_packet limits ack_system data size = some result ∧
        result.ret = -1 ∧ result.calls = [] ∧
        result.ack_system.counters ACK_SYSTEM_COUNTERS_PACKETS_INVALID =
          (ack_system.counters ACK_SYSTEM_COUNTERS_PACKETS_INVALID + 1) %
            18446744073709551616 ∧
        result.ack_system.received_packets = ack_system.received_packets ∧
        result.ack_system.sent_packets = ack_system.sent_packets ∧
        result.ack_system.acks = ack_system.acks ∧ result.ack_system.rtt = ack_system.rtt) ∧
    (¬ (size > ack_system.max_packet_size ∨ size > limits.CUTE_ACK_SYSTEM_MAX_PACKET_SIZE) →
      8 ≤ size → s_sequence_is_stale ack_system.received_packets (read_uint16 data) = true →
      ∃ result, ack_system_receive_packet limits ack_system data size = some result ∧
        result.ret = -1 ∧ result.calls = [] ∧
        result.ack_system.counters ACK_SYSTEM_COUNTERS_PACKETS_STALE =
          (ack_system.counters ACK_SYSTEM_COUNTERS_PACKETS_STALE + 1) %
            18446744073709551616 ∧
        result.ack_system.received_packets = ack_system.received_packets ∧
        result.ack_system.sent_packets = ack_system.sent_packets ∧
        result.ack_system.acks = ack_system.acks ∧ result.ack_system.rtt = ack_system.rtt) := by
  refine ⟨fun hbig => ?_, fun hbig hshort => ?_, fun hbig hlong hstale => ?_⟩
  · unfold ack_system_receive_packet
    rw [if_pos hbig]
    exact ⟨_, rfl, rfl, rfl, by simp [counter_increment], rfl, rfl, rfl, rfl⟩
  · have hhdr : s_read_ack_system_header data size = none := by
      unfold s_read_ack_system_header
      rw [if_pos (by simpa [CUTE_ACK_SYSTEM_HEADER_SIZE] using hshort)]
    unfold ack_system_receive_packet
    rw [if_neg hbig]
    simp only [hhdr]
    exact ⟨_, rfl, rfl, rfl, by simp [counter_increment, Function.update], rfl, rfl, rfl, rfl⟩
  · have hhdr : s_read_ack_system_header data size =
        some (read_uint16 data, read_uint16 (data.drop 2), read_uint32 (data.drop 4)) := by
      unfold s_read_ack_system_header
      rw [if_neg (by simpa [CUTE_ACK_SYSTEM_HEADER_SIZE] using hlong)]
    unfold ack_system_receive_packet
    rw [if_neg hbig]
    simp only [hhdr]
    rw [if_pos hstale]
    exact ⟨_, rfl, rfl, rfl, by simp [counter_increment, Function.update], rfl, rfl, rfl, rfl⟩

theorem ack_system_receive_packet_rejects_witness :
    ∃ result, ack_system_receive_packet sample_limits sample_ack_system
        (sample_oversized_stale_packet.take 8) 8 = some result ∧
      result.ret = -1 ∧ result.calls = [] ∧
      result.ack_system.counters ACK_SYSTEM_COUNTERS_PACKETS_STALE =
        (sample_ack_system.counters ACK_SYSTEM_COUNTERS_PACKETS_STALE + 1) %
          18446744073709551616 ∧
      result.ack_system.received_packets = sample_ack_system.received_packets ∧
      result.ack_system.sent_packets = sample_ack_system.sent_packets ∧
      result.ack_system.acks = sample_ack_system.acks ∧
      result.ack_system.rtt = sample_ack_system.rtt :=
  (ack_system_receive_packet_rejects sample_limits sample_ack_system
    (sample_oversized_stale_packet.take 8) 8).2.2 (by decide) (by decide) (by decide)

theorem find_congr {α β : Type} (b1 : sequence_buffer_t α) (b2 : sequence_buffer_t β)
    (hc : b1.capacity = b2.capacity) (ht : b1.entry_sequence = b2.entry_sequence) (s : Nat) :
    sequence_buffer_find b1 s = sequence_buffer_find b2 s := by
  unfold sequence_buffer_find sequence_buffer_t.tag
  rw [hc, ht]

theorem bit_was_set_iff (bits n : Nat) : ((bits >>> n) &&& 1 ≠ 0) ↔ bits.testBit n = true := by
  simp [Nat.testBit, Nat.land_comm]

theorem find_slot_inj {α : Type} (b : sequence_buffer_t α) (s1 s2 j : Nat)
    (h1 : sequence_buffer_find b s1 = some j) (h2 : sequence_buffer_find b s2 = some j) :
    s1 % 65536 = s2 % 65536 := by
  rw [find_eq_some_iff] at h1 h2
  rw [← h1.2] at h1
  rw [← h2.2] at h2
  exact h1.1.symm.trans h2.1

theorem sent_packet_unacked_iff (sb : sequence_buffer_t sent_packet_t) (s : Nat) :
    sent_packet_unacked sb s = true ↔
      ∃ idx p, sequence_buffer_find sb s = some idx ∧ sb.entry_data[idx]? = some p ∧
        p.acked = 0 := by
  unfold sent_packet_unacked
  cases hf : sequence_buffer_find sb s with
  | none => simp
  | some idx =>
    cases hd : sb.entry_data[idx]? with
    | none => simp [hd]
    | some p => simp [hd]

theorem ack_loop_inv_zero (sys1 : ack_system_t) (ack bits : Nat)
    (hcnt : sys1.counters ACK_SYSTEM_COUNTERS_PACKETS_ACKED < 18446744073709551616) :
    ack_loop_inv sys1 ack bits 0 (sys1, bits) := by
  refine ⟨rfl, by simp, by simp [Nat.mod_eq_of_lt hcnt], rfl, rfl, rfl, rfl, ?_, fun j _ => rfl⟩
  rintro j ⟨i, hi, -⟩
  omega

theorem receive_ack_step_hit (ack n : Nat) (st : ack_system_t × Nat) (hn : n < 32)
    (idx : Nat) (p : sent_packet_t) (hb : st.2 &&& 1 ≠ 0)
    (hf : sequence_buffer_find st.1.sent_packets ((ack + 65536 - n) % 65536) = some idx)
    (hd : st.1.sent_packets.entry_data[idx]? = some p) (hp : p.acked = 0) :
    (receive_ack_step ack st n).2 = st.2 >>> 1 ∧
      (receive_ack_step ack st n).1.acks = st.1.acks ++ [(ack + 65536 - n) % 65536] ∧
      (receive_ack_step ack st n).1.counters =
        counter_increment st.1.counters ACK_SYSTEM_COUNTERS_PACKETS_ACKED ∧
      (receive_ack_step ack st n).1.sent_packets =
        { st.1.sent_packets with
          entry_data := st.1.sent_packets.entry_data.set idx (mark_acked p) } := by
  have hnm : n % 65536 = n := Nat.mod_eq_of_lt (by omega)
  unfold receive_ack_step
  simp only [hnm, hf, hd, hp, if_pos hb, if_true]
  refine ⟨?_, ?_, ?_, ?_⟩ <;> trivial

theorem receive_ack_step_miss (ack n : Nat) (st : ack_system_t × Nat) (hn : n < 32)
    (h : ¬ (st.2 &&& 1 ≠ 0 ∧ sent_packet_unacked st.1.sent_packets
      ((ack + 65536 - n) % 65536) = true)) :
    receive_ack_step ack st n = (st.1, st.2 >>> 1) := by
  have hnm : n % 65536 = n := Nat.mod_eq_of_lt (by omega)
  unfold receive_ack_step
  simp only [hnm]
  by_cases hb : st.2 &&& 1 ≠ 0
  · rw [if_pos hb]
    cases hf : sequence_buffer_find st.1.sent_packets ((ack + 65536 - n) % 65536) with
    | none => rfl
    | some idx =>
      cases hd : st.1.sent_packets.entry_data[idx]? with
      | none => simp only [hd]
      | some p =>
        by_cases hp : p.acked = 0
        · exact absurd ⟨hb, (sent_packet_unacked_iff _ _).2 ⟨idx, p, hf, hd, hp⟩⟩ h
        · simp only [hd, hp, if_false]
  · rw [if_neg hb]

theorem ack_loop_inv_step (sys1 : ack_system_t) (ack bits n : Nat) (st : ack_system_t × Nat)
    (hn : n < 32) (hinv : ack_loop_inv sys1 ack bits n st) :
    ack_loop_inv sys1 ack bits (n + 1) (receive_ack_step ack st n) := by
  obtain ⟨hbits, hacks, hcount, hcap, htags, hseq, hlen, hdata1, hdata2⟩ := hinv
  have hfind : ∀ s, sequence_buffer_find st.1.sent_packets s =
      sequence_buffer_find sys1.sent_packets s := find_congr _ _ hcap htags
  -- no earlier pass touched the slot of this pass
  have hfresh : ∀ j, sequence_buffer_find sys1.sent_packets ((ack + 65536 - n) % 65536) = some j →
      st.1.sent_packets.entry_data[j]? = sys1.sent_packets.entry_data[j]? := by
    intro j hj
    apply hdata2
    rintro ⟨i, hi, -, hfi⟩
    have := find_slot_inj _ _ _ _ hfi hj
    omega
  have hun : sent_packet_unacked st.1.sent_packets ((ack + 65536 - n) % 65536) =
      sent_packet_unacked sys1.sent_packets ((ack + 65536 - n) % 65536) := by
    unfold sent_packet_unacked
    rw [hfind]
    cases hf : sequence_buffer_find sys1.sent_packets ((ack + 65536 - n) % 65536) with
    | none => rfl
    | some idx => simp only [hfresh idx hf]
  have hbit : (st.2 &&& 1 ≠ 0) ↔ bits.testBit n = true := by
    rw [hbits]; exact bit_was_set_iff bits n
  by_cases hhit : ack_hit sys1.sent_packets ack bits n = true
  · have hrange : (List.range (n + 1)).filter (ack_hit sys1.sent_packets ack bits) =
        (List.range n).filter (ack_hit sys1.sent_packets ack bits) ++ [n] := by
      rw [List.range_succ, List.filter_append]
      simp [hhit]
    have hh := hhit
    unfold ack_hit at hh
    rw [Bool.and_eq_true, sent_packet_unacked_iff] at hh
    obtain ⟨htb, idx, p, hf, hd, hp⟩ := hh
    have hidx : idx < st.1.sent_packets.entry_data.length := by
      rw [hlen]
      by_contra hcon
      rw [List.getElem?_eq_none (Nat.le_of_not_lt hcon)] at hd
      exact absurd hd (by simp)
    obtain ⟨e1, e2, e3, e4⟩ := receive_ack_step_hit ack n st hn idx p (hbit.2 htb)
      ((hfind _).trans hf) ((hfresh idx hf).trans hd) hp
    refine ⟨?_, ?_, ?_, ?_, ?_, ?_, ?_, ?_, ?_⟩
    · rw [e1, hbits, Nat.shiftRight_add]
    · rw [e2, hacks, hrange, List.map_append, List.append_assoc]
      rfl
    · rw [e3, hrange, List.length_append]
      simp only [counter_increment, Function.update_same, hcount, List.length_singleton]
      omega
    · rw [e4]; exact hcap
    · rw [e4]; exact htags
    · rw [e4]; exact hseq
    · rw [e4]; simp only [List.length_set]; exact hlen
    · rintro j ⟨i, hi, hih, hfi⟩
      rw [e4]
      simp only [List.getElem?_set]
      by_cases hj : idx = j
      · subst hj
        rw [if_pos rfl, if_pos hidx, hd]
        rfl
      · rw [if_neg hj]
        apply hdata1
        refine ⟨i, ?_, hih, hfi⟩
        by_contra hcon
        have hin : i = n := by omega
        subst hin
        rw [hf] at hfi
        exact hj (Option.some.inj hfi)
    · intro j hj
      rw [e4]
      simp only [List.getElem?_set]
      have hne : idx ≠ j := by
        rintro rfl
        exact hj ⟨n, by omega, hhit, hf⟩
      rw [if_neg hne]
      apply hdata2
      rintro ⟨i, hi, hih, hfi⟩
      exact hj ⟨i, by omega, hih, hfi⟩
  · have hrange : (List.range (n + 1)).filter (ack_hit sys1.sent_packets ack bits) =
        (List.range n).filter (ack_hit sys1.sent_packets ack bits) := by
      rw [List.range_succ, List.filter_append]
      simp [hhit]
    have hmiss : ¬ (st.2 &&& 1 ≠ 0 ∧ sent_packet_unacked st.1.sent_packets
        ((ack + 65536 - n) % 65536) = true) := by
      rintro ⟨h1, h2⟩
      apply hhit
      unfold ack_hit
      rw [Bool.and_eq_true]
      exact ⟨hbit.1 h1, hun ▸ h2⟩
    rw [receive_ack_step_miss ack n st hn hmiss]
    have hex : ∀ j, (∃ i, i < n + 1 ∧ ack_hit sys1.sent_packets ack bits i = true ∧
        sequence_buffer_find sys1.sent_packets ((ack + 65536 - i) % 65536) = some j) ↔
        (∃ i, i < n ∧ ack_hit sys1.sent_packets ack bits i = true ∧
        sequence_buffer_find sys1.sent_packets ((ack + 65536 - i) % 65536) = some j) := by
      intro j
      constructor
      · rintro ⟨i, hi, hih, hfi⟩
        refine ⟨i, ?_, hih, hfi⟩
        by_contra hcon
        have hin : i = n := by omega
        subst hin
        exact hhit hih
      · rintro ⟨i, hi, hih, hfi⟩
        exact ⟨i, by omega, hih, hfi⟩
    refine ⟨?_, ?_, ?_, hcap, htags, hseq, hlen, ?_, ?_⟩
    · show st.2 >>> 1 = _
      rw [hbits, Nat.shiftRight_add]
    · rw [hrange]; exact hacks
    · rw [hrange]; exact hcount
    · intro j hj
      exact hdata1 j ((hex j).1 hj)
    · intro j hj
      exact hdata2 j (fun h => hj ((hex j).2 h))

theorem ack_loop_inv_fold (sys1 : ack_system_t) (ack bits : Nat)
    (hcnt : sys1.counters ACK_SYSTEM_COUNTERS_PACKETS_ACKED < 18446744073709551616) (n : Nat)
    (hn : n ≤ 32) :
    ack_loop_inv sys1 ack bits n ((List.range n).foldl (receive_ack_step ack) (sys1, bits)) := by
  induction n with
  | zero => exact ack_loop_inv_zero sys1 ack bits hcnt
  | succ n ih =>
    rw [List.range_succ, List.foldl_append, List.foldl_cons, List.foldl_nil]
    exact ack_loop_inv_step sys1 ack bits n _ (by omega) (ih (by omega))

/-- The two ways `ack_system_receive_packet` ends: rejected with -1 and the ack list untouched,
or accepted with 0 after the loop over the ack bits. -/
theorem receive_cases (limits : transport_limits_t) (sys : ack_system_t) (data : List Nat)
    (size : Int) (r : receive_packet_result_t)
    (h : ack_system_receive_packet limits sys data size = some r) :
    (r.ret = -1 ∧ r.ack_system.acks = sys.acks) ∨
      (r.ret = 0 ∧ ∃ sys1 : ack_system_t,
        r.ack_system = ((List.range 32).foldl (receive_ack_step (read_uint16 (data.drop 2)))
          (sys1, read_uint32 (data.drop 4))).1 ∧
        sys1.sent_packets = sys.sent_packets ∧ sys1.acks = sys.acks ∧
        sys1.counters ACK_SYSTEM_COUNTERS_PACKETS_ACKED =
          sys.counters ACK_SYSTEM_COUNTERS_PACKETS_ACKED ∧
        s_read_ack_system_header data size =
          some (read_uint16 data, read_uint16 (data.drop 2), read_uint32 (data.drop 4))) := by
  unfold ack_system_receive_packet at h
  by_cases hbig : size > sys.max_packet_size ∨ size > limits.CUTE_ACK_SYSTEM_MAX_PACKET_SIZE
  · rw [if_pos hbig] at h
    have hr := Option.some.inj h
    subst hr
    exact Or.inl ⟨rfl, rfl⟩
  · rw [if_neg hbig] at h
    by_cases hshort : size < CUTE_ACK_SYSTEM_HEADER_SIZE
    · have hhdr : s_read_ack_system_header data size = none := by
        unfold s_read_ack_system_header
        rw [if_pos hshort]
      simp only [hhdr] at h
      have hr := Option.some.inj h
      subst hr
      exact Or.inl ⟨rfl, rfl⟩
    · have hhdr : s_read_ack_system_header data size =
          some (read_uint16 data, read_uint16 (data.drop 2), read_uint32 (data.drop 4)) := by
        unfold s_read_ack_system_header
        rw [if_neg hshort]
      simp only [hhdr] at h
      split at h
      · have hr := Option.some.inj h
        subst hr
        exact Or.inl ⟨rfl, rfl⟩
      · split at h
        · have hr := Option.some.inj h
          subst hr
          exact Or.inl ⟨rfl, rfl⟩
        · split at h
          · exact absurd h (by simp)
          · have hr := Option.some.inj h
            subst hr
            refine Or.inr ⟨rfl, _, rfl, rfl, rfl, ?_, hhdr⟩
            simp [counter_increment, Function.update]

theorem mem_newly_acked (sb : sequence_buffer_t sent_packet_t) (ack bits i : Nat) :
    i ∈ newly_acked sb ack bits ↔ i < 32 ∧ ack_hit sb ack bits i = true := by
  unfold newly_acked
  rw [List.mem_filter, List.mem_range]

/-- What an accepted `ack_system_receive_packet` does to the ack list, the `PACKETS_ACKED`
counter and the sent-packets buffer. -/
theorem receive_accepted_props (limits : transport_limits_t) (sys : ack_system_t)
    (hcnt : sys.counters ACK_SYSTEM_COUNTERS_PACKETS_ACKED < 18446744073709551616)
    (data : List Nat) (size : Int) (r : receive_packet_result_t)
    (h : ack_system_receive_packet limits sys data size = some r) (hret : r.ret = 0)
    (sequence ack ack_bits : Nat)
    (hhdr : s_read_ack_system_header data size = some (sequence, ack, ack_bits)) :
    r.ack_system.acks = sys.acks ++
        (newly_acked sys.sent_packets ack ack_bits).map (fun i => (ack + 65536 - i) % 65536) ∧
      r.ack_system.counters ACK_SYSTEM_COUNTERS_PACKETS_ACKED =
        (sys.counters ACK_SYSTEM_COUNTERS_PACKETS_ACKED +
          (newly_acked sys.sent_packets ack ack_bits).length) % 18446744073709551616 ∧
      r.ack_system.sent_packets.capacity = sys.sent_packets.capacity ∧
      r.ack_system.sent_packets.entry_sequence = sys.sent_packets.entry_sequence ∧
      r.ack_system.sent_packets.sequence = sys.sent_packets.sequence ∧
      (∀ j, (∃ i ∈ newly_acked sys.sent_packets ack ack_bits,
          sequence_buffer_find sys.sent_packets ((ack + 65536 - i) % 65536) = some j) →
        r.ack_system.sent_packets.entry_data[j]? =
          (sys.sent_packets.entry_data[j]?).map mark_acked) ∧
      (∀ j, ¬ (∃ i ∈ newly_acked sys.sent_packets ack ack_bits,
          sequence_buffer_find sys.sent_packets ((ack + 65536 - i) % 65536) = some j) →
        r.ack_system.sent_packets.entry_data[j]? = sys.sent_packets.entry_data[j]?) := by
  rcases receive_cases limits sys data size r h with ⟨hneg, -⟩ | ⟨-, sys1, hr, hsent, hacks, hc, hh⟩
  · rw [hret] at hneg
    exact absurd hneg (by decide)
  · rw [hh] at hhdr
    have e := Option.some.inj hhdr
    simp only [Prod.mk.injEq] at e
    obtain ⟨-, rfl, rfl⟩ := e
    have hinv := ack_loop_inv_fold sys1 (read_uint16 (data.drop 2)) (read_uint32 (data.drop 4))
      (by rw [hc]; exact hcnt) 32 (le_refl _)
    unfold ack_loop_inv at hinv
    rw [← hr] at hinv
    obtain ⟨-, i1, i2, i3, i4, i5, -, i6, i7⟩ := hinv
    rw [hsent, hacks] at i1
    rw [hsent, hc] at i2
    rw [hsent] at i3 i4 i5 i6 i7
    refine ⟨i1, i2, i3, i4, i5, ?_, ?_⟩
    · rintro j ⟨i, hi, hf⟩
      rw [mem_newly_acked] at hi
      exact i6 j ⟨i, hi.1, hi.2, hf⟩
    · intro j hj
      apply i7
      rintro ⟨i, hi, hih, hf⟩
      exact hj ⟨i, (mem_newly_acked _ _ _ _).2 ⟨hi, hih⟩, hf⟩

/-- After an accepted packet no bit of its ack bits is a hit any more. -/
theorem no_hit_after_accept (sys : ack_system_t) (sent1 : sequence_buffer_t sent_packet_t)
    (ack bits : Nat)
    (hcap : sent1.capacity = sys.sent_packets.capacity)
    (htags : sent1.entry_sequence = sys.sent_packets.entry_sequence)
    (h1 : ∀ j, (∃ i ∈ newly_acked sys.sent_packets ack bits,
        sequence_buffer_find sys.sent_packets ((ack + 65536 - i) % 65536) = some j) →
      sent1.entry_data[j]? = (sys.sent_packets.entry_data[j]?).map mark_acked)
    (h2 : ∀ j, ¬ (∃ i ∈ newly_acked sys.sent_packets ack bits,
        sequence_buffer_find sys.sent_packets ((ack + 65536 - i) % 65536) = some j) →
      sent1.entry_data[j]? = sys.sent_packets.entry_data[j]?) :
    newly_acked sent1 ack bits = [] := by
  rw [List.eq_nil_iff_forall_not_mem]
  intro i hi
  rw [mem_newly_acked] at hi
  obtain ⟨hi32, hhit⟩ := hi
  unfold ack_hit at hhit
  rw [Bool.and_eq_true, sent_packet_unacked_iff] at hhit
  obtain ⟨hbit, idx, p, hf, hd, hp⟩ := hhit
  rw [find_congr sent1 sys.sent_packets hcap htags] at hf
  by_cases hex : ∃ i ∈ newly_acked sys.sent_packets ack bits,
      sequence_buffer_find sys.sent_packets ((ack + 65536 - i) % 65536) = some idx
  · rw [h1 idx hex] at hd
    cases hq : sys.sent_packets.entry_data[idx]? with
    | none => rw [hq] at hd; exact absurd hd (by simp)
    | some q =>
      rw [hq] at hd
      have hpq : mark_acked q = p := Option.some.inj hd
      rw [← hpq] at hp
      exact absurd hp (by simp [mark_acked])
  · rw [h2 idx hex] at hd
    apply hex
    refine ⟨i, (mem_newly_acked _ _ _ _).2 ⟨hi32, ?_⟩, hf⟩
    unfold ack_hit
    rw [Bool.and_eq_true, sent_packet_unacked_iff]
    exact ⟨hbit, idx, p, hf, hd, hp⟩

/-- C10: for every packet accepted by `ack_system_receive_packet` (status 0) with header fields
`(ack, ack_bits)`, the call appends to the ack list exactly the sequences `(ack - i) mod 65536`,
in order of increasing `i` in 0..31, for which bit `i` of `ack_bits` is set and the sent-packets
buffer holds a not yet acked entry for that sequence; it sets `acked = 1` in exactly those
entries, leaves every other slot and all tags of the sent-packets buffer unchanged, and adds
their number to `PACKETS_ACKED` (a `uint64_t`). Receiving the same packet a second time appends
nothing to the ack list. -/
theorem ack_system_receive_packet_acks (limits : transport_limits_t) (ack_system : ack_system_t)
    (hcnt : ack_system.counters ACK_SYSTEM_COUNTERS_PACKETS_ACKED < 18446744073709551616)
    (data : List Nat) (size : Int) (result : receive_packet_result_t)
    (h : ack_system_receive_packet limits ack_system data size = some result)
    (hret : result.ret = 0) (sequence ack ack_bits : Nat)
    (hhdr : s_read_ack_system_header data size = some (sequence, ack, ack_bits)) :
    result.ack_system.acks = ack_system.acks ++
        (newly_acked ack_system.sent_packets ack ack_bits).map
          (fun i => (ack + 65536 - i) % 65536) ∧
      result.ack_system.counters ACK_SYSTEM_COUNTERS_PACKETS_ACKED =
        (ack_system.counters ACK_SYSTEM_COUNTERS_PACKETS_ACKED +
          (newly_acked ack_system.sent_packets ack ack_bits).length) % 18446744073709551616 ∧
      result.ack_system.sent_packets.capacity = ack_system.sent_packets.capacity ∧
      result.ack_system.sent_packets.entry_sequence = ack_system.sent_packets.entry_sequence ∧
      result.ack_system.sent_packets.sequence = ack_system.sent_packets.sequence ∧
      (∀ j, (∃ i ∈ newly_acked ack_system.sent_packets ack ack_bits,
          sequence_buffer_find ack_system.sent_packets ((ack + 65536 - i) % 65536) = some j) →
        result.ack_system.sent_packets.entry_data[j]? =
          (ack_system.sent_packets.entry_data[j]?).map mark_acked) ∧
      (∀ j, ¬ (∃ i ∈ newly_acked ack_system.sent_packets ack ack_bits,
          sequence_buffer_find ack_system.sent_packets ((ack + 65536 - i) % 65536) = some j) →
        result.ack_system.sent_packets.entry_data[j]? =
          ack_system.sent_packets.entry_data[j]?) ∧
      (∀ result2, ack_system_receive_packet limits result.ack_system data size = some result2 →
        result2.ack_system.acks = result.ack_system.acks) := by
  have hp := receive_accepted_props limits ack_system hcnt data size result h hret sequence ack
    ack_bits hhdr
  obtain ⟨p1, p2, p3, p4, p5, p6, p7⟩ := hp
  refine ⟨p1, p2, p3, p4, p5, p6, p7, fun result2 h2 => ?_⟩
  rcases receive_cases limits result.ack_system data size result2 h2 with
    ⟨-, hsame⟩ | ⟨hret2, -⟩
  · exact hsame
  · have hq := receive_accepted_props limits result.ack_system
      (by rw [p2]; exact Nat.mod_lt _ (by decide)) data size result2 h2 hret2 sequence ack
      ack_bits hhdr
    rw [hq.1, no_hit_after_accept ack_system result.ack_system.sent_packets ack ack_bits p3 p4
      p6 p7]
    simp

set_option maxRecDepth 100000 in
theorem ack_system_receive_packet_acks_witness :
    sample_receive_result.ack_system.acks = sample_sent_system.acks ++
        (newly_acked sample_sent_system.sent_packets 2 5).map
          (fun i => (2 + 65536 - i) % 65536) ∧
      sample_receive_result.ack_system.acks = [2, 0] :=
  ⟨(ack_system_receive_packet_acks sample_limits sample_sent_system (by decide)
      sample_ack_packet 8 sample_receive_result rfl (by decide) 0 2 5 (by decide)).1,
    by decide⟩

/-! ## Ack system: the packet loss estimator -/

theorem unacked_fraction_nonneg (sb : sequence_buffer_t sent_packet_t) :
    0 ≤ unacked_fraction sb := by
  unfold unacked_fraction
  exact div_nonneg (Nat.cast_nonneg _) (Nat.cast_nonneg _)

theorem calc_packet_loss_eq (p : ℚ) (sb : sequence_buffer_t sent_packet_t) (hp : 0 ≤ p) :
    s_calc_packet_loss p sb = p + (unacked_fraction sb - p) * (1 / 10) := by
  have hf := unacked_fraction_nonneg sb
  unfold s_calc_packet_loss
  simp only []
  rw [if_neg]
  · rfl
  · show ¬ p + (unacked_fraction sb - p) * (1 / 10) < 0
    have : p + (unacked_fraction sb - p) * (1 / 10) = p * (9 / 10) + unacked_fraction sb / 10 := by
      ring
    rw [this, not_lt]
    positivity

theorem update_packet_loss (sys : ack_system_t) (dt : ℚ) (padding : Nat → Int) :
    (ack_system_update sys dt padding).packet_loss =
      s_calc_packet_loss sys.packet_loss sys.sent_packets := rfl

theorem updates_packet_loss (f : ℚ)
    (steps : List (ℚ × (Nat → Int) × sequence_buffer_t sent_packet_t)) :
    ∀ sys : ack_system_t, 0 ≤ sys.packet_loss →
      (∀ step ∈ steps, 0 < (packet_loss_counts step.2.2).1 ∧ unacked_fraction step.2.2 = f) →
      0 ≤ (ack_system_updates sys steps).packet_loss ∧
        (ack_system_updates sys steps).packet_loss - f =
          (9 / 10) ^ steps.length * (sys.packet_loss - f) := by
  induction steps with
  | nil =>
    intro sys hp _
    exact ⟨hp, by simp [ack_system_updates]⟩
  | cons step rest ih =>
    intro sys hp hsteps
    obtain ⟨dt, padding, sb⟩ := step
    have hstep := hsteps (dt, padding, sb) (List.mem_cons_self _ _)
    have h1 : (ack_system_update { sys with sent_packets := sb } dt padding).packet_loss =
        sys.packet_loss + (f - sys.packet_loss) * (1 / 10) := by
      rw [update_packet_loss, calc_packet_loss_eq _ _ hp, hstep.2]
    have h0 : 0 ≤ (ack_system_update { sys with sent_packets := sb } dt padding).packet_loss := by
      rw [h1]
      have hf : 0 ≤ f := hstep.2 ▸ unacked_fraction_nonneg sb
      have : sys.packet_loss + (f - sys.packet_loss) * (1 / 10) =
          sys.packet_loss * (9 / 10) + f / 10 := by ring
      rw [this]
      positivity
    obtain ⟨i1, i2⟩ := ih _ h0 (fun q hq => hsteps q (List.mem_cons_of_mem _ hq))
    refine ⟨i1, ?_⟩
    show (ack_system_updates (ack_system_update { sys with sent_packets := sb } dt padding)
      rest).packet_loss - f = _
    rw [i2, h1, List.length_cons, pow_succ]
    ring

theorem sample_half_acked_fraction : unacked_fraction sample_half_acked = 1 / 2 := by
  have h : packet_loss_counts sample_half_acked = (2, 1) := by decide
  unfold unacked_fraction
  rw [h]
  norm_num

theorem fragment_count_eq (fs size : Int) (hfs : 1 ≤ fs) (hsize : 1 ≤ size) :
    transport_fragment_count fs size =
      (if size % fs > 0 then size / fs + 1 else size / fs, size % fs) := by
  unfold transport_fragment_count
  have ht : size.tdiv fs = size / fs := Int.tdiv_eq_ediv (by omega) (by omega)
  have hm : size - size / fs * fs = size % fs := by
    have := Int.ediv_add_emod size fs
    have h2 : size / fs * fs = fs * (size / fs) := Int.mul_comm _ _
    omega
  simp only [ht, hm]

theorem fragment_count_ceil (fs size : Int) (hfs : 1 ≤ fs) (hsize : 1 ≤ size) :
    (transport_fragment_count fs size).1 = ⌈(size : ℚ) / (fs : ℚ)⌉ := by
  rw [fragment_count_eq fs size hfs hsize]
  have hdm := Int.ediv_add_emod size fs
  have hr0 := Int.emod_nonneg size (by omega : fs ≠ 0)
  have hr1 := Int.emod_lt_of_pos size (by omega : 0 < fs)
  have hfsq : (0 : ℚ) < (fs : ℚ) := by exact_mod_cast (by omega : 0 < fs)
  have hcast : (size : ℚ) = (fs : ℚ) * ((size / fs : Int) : ℚ) + ((size % fs : Int) : ℚ) := by
    exact_mod_cast hdm.symm
  have hr0q : (0 : ℚ) ≤ ((size % fs : Int) : ℚ) := by exact_mod_cast hr0
  have hr1q : ((size % fs : Int) : ℚ) < (fs : ℚ) := by exact_mod_cast hr1
  symm
  rw [Int.ceil_eq_iff]
  by_cases hr : size % fs > 0
  · simp only [hr, if_true]
    have hrq : (0 : ℚ) < ((size % fs : Int) : ℚ) := by exact_mod_cast hr
    constructor
    · rw [lt_div_iff₀ hfsq]
      push_cast
      nlinarith
    · rw [div_le_iff₀ hfsq]
      push_cast
      nlinarith
  · simp only [hr, if_false]
    have hz : size % fs = 0 := by omega
    have hzq : ((size % fs : Int) : ℚ) = 0 := by exact_mod_cast hz
    constructor
    · rw [lt_div_iff₀ hfsq]
      nlinarith
    · rw [div_le_iff₀ hfsq]
      nlinarith

theorem fragment_count_gt_one_iff (fs size : Int) (hfs : 1 ≤ fs) (hsize : 1 ≤ size) :
    (transport_fragment_count fs size).1 > 1 ↔ fs < size := by
  rw [fragment_count_eq fs size hfs hsize]
  have hdm := Int.ediv_add_emod size fs
  have hr0 := Int.emod_nonneg size (by omega : fs ≠ 0)
  have hr1 := Int.emod_lt_of_pos size (by omega : 0 < fs)
  have hq0 : 0 ≤ size / fs := Int.ediv_nonneg (by omega) (by omega)
  by_cases hr : size % fs > 0
  · simp only [hr, if_true]
    constructor
    · intro h
      have : 1 ≤ size / fs := by omega
      nlinarith
    · intro h
      by_contra hcon
      have hq : size / fs = 0 := by omega
      rw [hq] at hdm
      omega
  · simp only [hr, if_false]
    have hz : size % fs = 0 := by omega
    constructor
    · intro h
      have : 2 ≤ size / fs := by omega
      nlinarith
    · intro h
      by_contra hcon
      have hq : size / fs = 0 ∨ size / fs = 1 := by omega
      rcases hq with hq | hq <;> rw [hq] at hdm <;> omega

theorem write_header_head (size : Int) (pfx : Nat) (a b c d : Int) (header : List Nat)
    (h : s_transport_write_header size pfx a b c d = some header) (rest : List Nat) :
    (header ++ rest).head? = some (pfx % 256) := by
  unfold s_transport_write_header at h
  split at h
  · exact absurd h (by simp)
  · have := Option.some.inj h
    subst this
    simp [write_uint8]

/-- What the loop over the fragments leaves alone, and the prefix byte of what it hands on. -/
theorem send_fragments_frame (limits : transport_limits_t) (data : List Nat)
    (fs ffs fc : Int) (seq : Nat) (ts : ℚ) (idxs : List Nat) :
    ∀ acc r : transport_send_result_t,
      transport_send_fragments limits data fs ffs fc seq ts idxs acc = some r →
      r.reassembly_sequence = acc.reassembly_sequence ∧
        r.transport.reassembly_sequence = acc.transport.reassembly_sequence ∧
        r.transport.fragment_size = acc.transport.fragment_size ∧
        r.transport.max_size_single_send = acc.transport.max_size_single_send ∧
        ((∀ h ∈ acc.handed, h.1.head? = some 1) → ∀ h ∈ r.handed, h.1.head? = some 1) := by
  induction idxs with
  | nil =>
    intro acc r h
    rw [transport_send_fragments] at h
    have := Option.some.inj h
    subst this
    exact ⟨rfl, rfl, rfl, rfl, fun hh => hh⟩
  | cons i rest ih =>
    intro acc r h
    rw [transport_send_fragments] at h
    simp only [] at h
    split at h
    · have := Option.some.inj h
      subst this
      exact ⟨rfl, rfl, rfl, rfl, fun hh => hh⟩
    · split at h
      · have := Option.some.inj h
        subst this
        exact ⟨rfl, rfl, rfl, rfl, fun hh => hh⟩
      · rename_i header hheader
        split at h
        · exact absurd h (by simp)
        · rename_i sent hsent
          have hhead : ∀ h ∈ acc.handed ++
              [(header ++ List.take (if (i : Int) ≠ fc - 1 then fs else ffs).toNat data,
                if (i : Int) ≠ fc - 1 then fs else ffs)],
              (∀ h ∈ acc.handed, h.1.head? = some 1) → h.1.head? = some 1 := by
            intro x hx hacc
            rcases List.mem_append.1 hx with hx | hx
            · exact hacc x hx
            · rw [List.mem_singleton] at hx
              subst hx
              exact write_header_head _ 1 _ _ _ _ header hheader _
          split at h
          · have := Option.some.inj h
            subst this
            exact ⟨rfl, rfl, rfl, rfl, fun hacc x hx => hhead x hx hacc⟩
          · split at h
            · exact absurd h (by simp)
            · obtain ⟨h1, h2, h3, h4, h5⟩ := ih _ r h
              exact ⟨h1, h2, h3, h4, fun hacc => h5 (fun x hx => hhead x hx hacc)⟩

theorem send_single_frame (limits : transport_limits_t) (data : List Nat) (size : Int)
    (seq : Nat) (acc r : transport_send_result_t)
    (h : transport_send_single limits data size seq acc = some r) :
    r.reassembly_sequence = acc.reassembly_sequence ∧
      r.transport.reassembly_sequence = acc.transport.reassembly_sequence ∧
      r.transport.fragment_size = acc.transport.fragment_size ∧
      r.transport.max_size_single_send = acc.transport.max_size_single_send ∧
      ((∀ h ∈ acc.handed, h.1.head? = some 0) → ∀ h ∈ r.handed, h.1.head? = some 0) := by
  unfold transport_send_single at h
  simp only [] at h
  have hhead : ∀ h ∈ acc.handed ++
      [(memcpy_at (write_uint8 0 ++ write_uint64 seq) 1 (List.take size.toNat data), size)],
      (∀ h ∈ acc.handed, h.1.head? = some 0) → h.1.head? = some 0 := by
    intro x hx hacc
    rcases List.mem_append.1 hx with hx | hx
    · exact hacc x hx
    · rw [List.mem_singleton] at hx
      subst hx
      simp [memcpy_at, write_uint8, write_uint64, List.range_succ]
  split at h
  · have := Option.some.inj h
    subst this
    exact ⟨rfl, rfl, rfl, rfl, fun hh => hh⟩
  · split at h
    · exact absurd h (by simp)
    · split at h
      · have := Option.some.inj h
        subst this
        exact ⟨rfl, rfl, rfl, rfl, fun hacc x hx => hhead x hx hacc⟩
      · split at h
        · exact absurd h (by simp)
        · have := Option.some.inj h
          subst this
          exact ⟨rfl, rfl, rfl, rfl, fun hacc x hx => hhead x hx hacc⟩

theorem send_eq_of_accepted (limits : transport_limits_t) (transport : transport_t)
    (data : List Nat) (size : Int) (hfs : 1 ≤ transport.fragment_size) (h1 : 1 ≤ size)
    (hmax : size ≤ transport.max_size_single_send) :
    transport_send_reliably_and_in_order limits transport data size =
      if transport.fragment_size < size then
        transport_send_fragments limits data transport.fragment_size
          (transport_fragment_count transport.fragment_size size).2
          (transport_fragment_count transport.fragment_size size).1
          transport.reassembly_sequence transport.ack_system.time
          (List.range (transport_fragment_count transport.fragment_size size).1.toNat)
          (transport_send_start transport)
      else
        transport_send_single limits data size transport.reassembly_sequence
          (transport_send_start transport) := by
  unfold transport_send_reliably_and_in_order
  rw [if_neg (by omega), if_neg (by omega), if_neg (by omega)]
  simp only []
  by_cases hlt : transport.fragment_size < size
  · rw [if_pos ((fragment_count_gt_one_iff _ _ hfs h1).2 hlt), if_pos hlt]
  · rw [if_neg (fun h => hlt ((fragment_count_gt_one_iff _ _ hfs h1).1 h)), if_neg hlt]

/-- C12: for `fragment_size ≥ 1` and `1 ≤ size ≤ max_size_single_send`,
`transport_send_reliably_and_in_order` computes `fragment_count = ceil(size / fragment_size)`,
runs the single-fragment branch when `size ≤ fragment_size` and the loop over the fragments when
`fragment_size < size`; every buffer it hands to the ack system starts with the prefix byte 0 in
the first case and with 1 in the second. -/
theorem transport_send_fragment_count (limits : transport_limits_t) (transport : transport_t)
    (data : List Nat) (size : Int) (hfs : 1 ≤ transport.fragment_size) (h1 : 1 ≤ size)
    (hmax : size ≤ transport.max_size_single_send) :
    (transport_fragment_count transport.fragment_size size).1 =
        ⌈(size : ℚ) / (transport.fragment_size : ℚ)⌉ ∧
      (size ≤ transport.fragment_size →
        transport_send_reliably_and_in_order limits transport data size =
          transport_send_single limits data size transport.reassembly_sequence
            (transport_send_start transport)) ∧
      (transport.fragment_size < size →
        transport_send_reliably_and_in_order limits transport data size =
          transport_send_fragments limits data transport.fragment_size
            (transport_fragment_count transport.fragment_size size).2
            (transport_fragment_count transport.fragment_size size).1
            transport.reassembly_sequence transport.ack_system.time
            (List.range (transport_fragment_count transport.fragment_size size).1.toNat)
            (transport_send_start transport)) ∧
      (∀ r, transport_send_reliably_and_in_order limits transport data size = some r →
        ∀ h ∈ r.handed,
          h.1.head? = some (if size ≤ transport.fragment_size then 0 else 1)) := by
  have heq := send_eq_of_accepted limits transport data size hfs h1 hmax
  refine ⟨fragment_count_ceil _ _ hfs h1, fun hle => ?_, fun hlt => ?_, fun r hr x hx => ?_⟩
  · rw [heq, if_neg (by omega)]
  · rw [heq, if_pos hlt]
  · rw [heq] at hr
    by_cases hlt : transport.fragment_size < size
    · rw [if_pos hlt] at hr
      rw [if_neg (by omega)]
      exact (send_fragments_frame _ _ _ _ _ _ _ _ _ r hr).2.2.2.2
        (fun y hy => by simp [transport_send_start] at hy) x hx
    · rw [if_neg hlt] at hr
      rw [if_pos (by omega)]
      exact (send_single_frame _ _ _ _ _ r hr).2.2.2.2
        (fun y hy => by simp [transport_send_start] at hy) x hx

theorem transport_send_fragment_count_witness :
    (transport_fragment_count sample_transport.fragment_size 26).1 =
        ⌈((26 : Int) : ℚ) / (sample_transport.fragment_size : ℚ)⌉ ∧
      (transport_send_reliably_and_in_order sample_limits sample_transport (sample_payload 26)
          26).map (fun r => r.handed.map fun h => h.1.head?) = some [some 1, some 1] ∧
      (transport_send_reliably_and_in_order sample_limits sample_transport (sample_payload 16)
          16).map (fun r => r.handed.map fun h => h.1.head?) = some [some 0] :=
  ⟨(transport_send_fragment_count sample_limits sample_transport (sample_payload 26) 26
      (by decide) (by decide) (by decide)).1, by decide, by decide⟩

theorem send_props (limits : transport_limits_t) (transport : transport_t) (data : List Nat)
    (size : Int) (r : transport_send_result_t)
    (h : transport_send_reliably_and_in_order limits transport data size = some r) :
    r.transport.fragment_size = transport.fragment_size ∧
      r.transport.max_size_single_send = transport.max_size_single_send ∧
      ((size < 1 ∨ size > transport.max_size_single_send) →
        r.reassembly_sequence = none ∧
          r.transport.reassembly_sequence = transport.reassembly_sequence) ∧
      (1 ≤ size → size ≤ transport.max_size_single_send →
        r.reassembly_sequence = some transport.reassembly_sequence ∧
          r.transport.reassembly_sequence = (transport.reassembly_sequence + 1) % 65536) := by
  unfold transport_send_reliably_and_in_order at h
  split at h
  · have := Option.some.inj h
    subst this
    exact ⟨rfl, rfl, fun _ => ⟨rfl, rfl⟩, fun h1 _ => by omega⟩
  · split at h
    · have := Option.some.inj h
      subst this
      exact ⟨rfl, rfl, fun _ => ⟨rfl, rfl⟩, fun _ h2 => by omega⟩
    · split at h
      · exact absurd h (by simp)
      · simp only [] at h
        have hframe : r.reassembly_sequence = (transport_send_start transport).reassembly_sequence ∧
            r.transport.reassembly_sequence =
              (transport_send_start transport).transport.reassembly_sequence ∧
            r.transport.fragment_size = (transport_send_start transport).transport.fragment_size ∧
            r.transport.max_size_single_send =
              (transport_send_start transport).transport.max_size_single_send := by
          split at h
          · have := send_fragments_frame _ _ _ _ _ _ _ _ _ r h
            exact ⟨this.1, this.2.1, this.2.2.1, this.2.2.2.1⟩
          · have := send_single_frame _ _ _ _ _ r h
            exact ⟨this.1, this.2.1, this.2.2.1, this.2.2.2.1⟩
        obtain ⟨f1, f2, f3, f4⟩ := hframe
        refine ⟨f3, f4, fun hrej => by omega, fun _ _ => ⟨f1, f2⟩⟩

theorem sends_props (limits : transport_limits_t) (sends : List (List Nat × Int)) :
    ∀ transport0 transport : transport_t, transport0.reassembly_sequence < 65536 →
      transport_sends limits transport0 sends = some transport →
      transport.max_size_single_send = transport0.max_size_single_send ∧
        transport.reassembly_sequence =
          (transport0.reassembly_sequence +
            accepted_sends transport0.max_size_single_send sends) % 65536 := by
  induction sends with
  | nil =>
    intro t0 t h0 h
    simp only [transport_sends] at h
    have := Option.some.inj h
    subst this
    exact ⟨rfl, by simp [accepted_sends, Nat.mod_eq_of_lt h0]⟩
  | cons p rest ih =>
    intro t0 t h0 h
    obtain ⟨data, size⟩ := p
    simp only [transport_sends] at h
    split at h
    · exact absurd h (by simp)
    · rename_i r hr
      have hp := send_props limits t0 data size r hr
      by_cases hacc : 1 ≤ size ∧ size ≤ t0.max_size_single_send
      · obtain ⟨-, hnext⟩ := hp.2.2.2 hacc.1 hacc.2
        obtain ⟨i1, i2⟩ := ih r.transport t (by rw [hnext]; exact Nat.mod_lt _ (by decide)) h
        refine ⟨i1.trans hp.2.1, ?_⟩
        rw [i2, hnext, hp.2.1]
        have : accepted_sends t0.max_size_single_send ((data, size) :: rest) =
            accepted_sends t0.max_size_single_send rest + 1 := by
          simp [accepted_sends, List.filter_cons, hacc]
        rw [this]
        omega
      · obtain ⟨-, hsame⟩ := hp.2.2.1 (by omega)
        obtain ⟨i1, i2⟩ := ih r.transport t (by rw [hsame]; exact h0) h
        refine ⟨i1.trans hp.2.1, ?_⟩
        rw [i2, hsame, hp.2.1]
        have : accepted_sends t0.max_size_single_send ((data, size) :: rest) =
            accepted_sends t0.max_size_single_send rest := by
          simp [accepted_sends, List.filter_cons, hacc]
        rw [this]

/-- `ack_system_send_packet` always returns on an ack system whose sent-packets buffer follows
the local sequence and whose send callback succeeds. -/
theorem ack_send_total (limits : transport_limits_t) (sys : ack_system_t) (data : List Nat)
    (size : Int) (hwf : sys.sent_packets.wf) (hseq : sys.sent_packets.sequence = sys.sequence)
    (hnonneg : 0 ≤ size) (hfn : ∀ call, 0 ≤ sys.send_packet_fn call) :
    ∃ r, ack_system_send_packet limits sys data size = some r ∧
      r.ack_system.sent_packets.wf ∧
      r.ack_system.sent_packets.sequence = r.ack_system.sequence ∧
      r.ack_system.send_packet_fn = sys.send_packet_fn ∧
      ((r.ret < 0 ∧ r.ack_system.sequence = sys.sequence) ∨
        (¬ r.ret < 0 ∧ r.sequence_out = some sys.sequence ∧
          r.ack_system.sequence = (sys.sequence + 1) % 65536)) := by
  by_cases hbig : size > sys.max_packet_size ∨ size > limits.CUTE_ACK_SYSTEM_MAX_PACKET_SIZE
  · unfold ack_system_send_packet
    rw [if_pos hbig]
    exact ⟨_, rfl, hwf, hseq, rfl, Or.inl ⟨by show (-1 : Int) < 0; decide, rfl⟩⟩
  · obtain ⟨r, hr, hret, hout, -, -, -, -, hwf1, hseq1, hnext, -, hfn1, -⟩ :=
      send_packet_ok limits sys data size hwf hseq hbig hnonneg hfn
    exact ⟨r, hr, hwf1, hseq1, hfn1, Or.inr ⟨by rw [hret]; decide, hout, hnext⟩⟩

theorem insert_in_sync {α : Type} (b : sequence_buffer_t α) (hwf : b.wf) :
    ∃ slot, (sequence_buffer_insert b b.sequence none).1 = some slot ∧
      (∀ x : α, ({ (sequence_buffer_insert b b.sequence none).2 with
          entry_data := (sequence_buffer_insert b b.sequence none).2.entry_data.set slot x } :
        sequence_buffer_t α).wf) ∧
      (sequence_buffer_insert b b.sequence none).2.sequence = (b.sequence + 1) % 65536 := by
  have hs : b.sequence < 65536 := hwf.2.2.2
  have hgt := gt_succ_self b.sequence hs
  have hsome : (sequence_buffer_insert b b.sequence none).1 = some (b.sequence % b.capacity) := by
    rw [insert_of_gt _ _ none hs hgt, (store_props _ _ none).1, (advanced_buffer_props _ _ none).1]
  have hp := insert_some_props _ _ none hs _ hsome
  have hwf1 := insert_wf _ b.sequence none hwf
  refine ⟨_, hsome, fun x => ⟨hwf1.1, hwf1.2.1, ?_, hwf1.2.2.2⟩, ?_⟩
  · simp only [List.length_set]; exact hwf1.2.2.1
  · rw [hp.2.2.2.2.1, if_pos hgt]

theorem send_fragments_total (limits : transport_limits_t) (data : List Nat)
    (fs ffs fc : Int) (hfs : 0 ≤ fs) (hffs : 0 ≤ ffs) (seq : Nat) (ts : ℚ) (idxs : List Nat) :
    ∀ acc : transport_send_result_t, acc.transport.in_sync →
      ∃ r, transport_send_fragments limits data fs ffs fc seq ts idxs acc = some r ∧
        r.transport.in_sync := by
  induction idxs with
  | nil =>
    intro acc hsync
    exact ⟨acc, by rw [transport_send_fragments], hsync⟩
  | cons i rest ih =>
    intro acc hsync
    obtain ⟨s1, s2, s3, s4, s5⟩ := hsync
    rw [transport_send_fragments]
    simp only []
    split
    · exact ⟨_, rfl, s1, s2, s3, s4, s5⟩
    · split
      · exact ⟨_, rfl, s1, s2, s3, s4, s5⟩
      · rename_i header hheader
        obtain ⟨sent, hsent, a1, a2, a3, a4⟩ := ack_send_total limits acc.transport.ack_system
          (header ++ List.take (if (i : Int) ≠ fc - 1 then fs else ffs).toNat data)
          (if (i : Int) ≠ fc - 1 then fs else ffs) s1 s2 (by split <;> assumption) s5
        simp only [hsent]
        rcases a4 with ⟨hneg, hsame⟩ | ⟨hpos, hout, hnext⟩
        · rw [if_pos hneg]
          exact ⟨_, rfl, a1, a2, s3, s4.trans hsame.symm, fun call => by rw [a3]; exact s5 call⟩
        · rw [if_neg hpos]
          simp only [hout, Option.getD_some]
          rw [← s4]
          obtain ⟨slot, hslot, hwf2, hseq2⟩ :=
            insert_in_sync acc.transport.reliable_sent_fragments s3
          simp only [hslot]
          apply ih
          exact ⟨a1, a2, hwf2 _, by rw [hnext, ← s4]; exact hseq2,
            fun call => by rw [a3]; exact s5 call⟩

theorem send_single_total (limits : transport_limits_t) (data : List Nat) (size : Int)
    (seq : Nat) (acc : transport_send_result_t) (hsync : acc.transport.in_sync)
    (hnonneg : 0 ≤ size) :
    ∃ r, transport_send_single limits data size seq acc = some r ∧ r.transport.in_sync := by
  obtain ⟨s1, s2, s3, s4, s5⟩ := hsync
  unfold transport_send_single
  simp only []
  split
  · exact ⟨_, rfl, s1, s2, s3, s4, s5⟩
  · obtain ⟨sent, hsent, a1, a2, a3, a4⟩ := ack_send_total limits acc.transport.ack_system
      (memcpy_at (write_uint8 0 ++ write_uint64 seq) 1 (List.take size.toNat data)) size s1 s2
      hnonneg s5
    simp only [hsent]
    rcases a4 with ⟨hneg, hsame⟩ | ⟨hpos, hout, hnext⟩
    · rw [if_pos hneg]
      exact ⟨_, rfl, a1, a2, s3, s4.trans hsame.symm, fun call => by rw [a3]; exact s5 call⟩
    · rw [if_neg hpos]
      simp only [hout, Option.getD_some]
      rw [← s4]
      obtain ⟨slot, hslot, hwf2, hseq2⟩ :=
        insert_in_sync acc.transport.reliable_sent_fragments s3
      simp only [hslot]
      exact ⟨_, rfl, a1, a2, hwf2 _, by rw [hnext, ← s4]; exact hseq2,
        fun call => by rw [a3]; exact s5 call⟩

/-- When the loop over the fragments runs, the fragment size is positive and the size of the
last fragment is not negative. -/
theorem fragment_sizes_nonneg (fs size : Int) (hsize : 1 ≤ size)
    (h : (transport_fragment_count fs size).1 > 1) :
    0 ≤ fs ∧ 0 ≤ (transport_fragment_count fs size).2 := by
  by_cases hpos : 1 ≤ fs
  · rw [fragment_count_eq fs size hpos hsize]
    exact ⟨by omega, Int.emod_nonneg _ (by omega)⟩
  · exfalso
    have hc : size.tdiv fs ≤ 0 := Int.tdiv_nonpos (by omega) (by omega)
    unfold transport_fragment_count at h
    simp only [] at h
    split at h <;> omega

theorem send_total (limits : transport_limits_t) (transport : transport_t) (data : List Nat)
    (size : Int) (hsync : transport.in_sync) (hfs : transport.fragment_size ≠ 0) :
    ∃ r, transport_send_reliably_and_in_order limits transport data size = some r ∧
      r.transport.in_sync := by
  unfold transport_send_reliably_and_in_order
  split
  · exact ⟨_, rfl, hsync⟩
  · rename_i hsize
    split
    · exact ⟨_, rfl, hsync⟩
    · simp only []
      split
      · rename_i hcount
        have hnn := fragment_sizes_nonneg transport.fragment_size size (by omega) hcount
        exact send_fragments_total _ _ _ _ _ hnn.1 hnn.2 _ _ _ _ hsync
      · exact send_single_total _ _ _ _ _ hsync (by omega)

theorem sends_total (limits : transport_limits_t) (sends : List (List Nat × Int)) :
    ∀ transport : transport_t, transport.in_sync → transport.fragment_size ≠ 0 →
      ∃ t, transport_sends limits transport sends = some t ∧ t.in_sync ∧
        t.fragment_size = transport.fragment_size := by
  induction sends with
  | nil =>
    intro t hsync _
    exact ⟨t, rfl, hsync, rfl⟩
  | cons p rest ih =>
    intro t hsync hfs
    obtain ⟨data, size⟩ := p
    obtain ⟨r, hr, hsync1⟩ := send_total limits t data size hsync hfs
    have hp := send_props limits t data size r hr
    obtain ⟨t1, h1, h2, h3⟩ := ih r.transport hsync1 (by rw [hp.1]; exact hfs)
    refine ⟨t1, ?_, h2, h3.trans hp.1⟩
    simp only [transport_sends, hr]
    exact h1

/-- The assignment of reassembly sequences. `transport_send_reliably_and_in_order` returns -1
for every `size < 1` and every `size > max_size_single_send`, assigning no reassembly sequence,
handing nothing on and leaving the transport unchanged. Every call that passes this check and
returns is assigned the current reassembly sequence and increments the counter modulo 65536. On
a transport in sync (buffers allocated and following the ack system, send callback succeeding)
with a non-zero `fragment_size` and the counter at 0, every series of calls returns, and the
call after it that passes the check is assigned `k mod 65536`, `k` being the number of earlier
calls that passed the check. -/
theorem send_assigns_reassembly_sequence (limits : transport_limits_t) :
    (∀ (transport : transport_t) (data : List Nat) (size : Int),
      (size < 1 ∨ size > transport.max_size_single_send) →
      transport_send_reliably_and_in_order limits transport data size =
        some { ret := some (-1), reassembly_sequence := none, handed := [], calls := [],
               transport := transport }) ∧
    (∀ (transport : transport_t) (data : List Nat) (size : Int) (r : transport_send_result_t),
      1 ≤ size → size ≤ transport.max_size_single_send →
      transport_send_reliably_and_in_order limits transport data size = some r →
      r.reassembly_sequence = some transport.reassembly_sequence ∧
        r.transport.reassembly_sequence = (transport.reassembly_sequence + 1) % 65536) ∧
    (∀ (transport0 : transport_t) (sends : List (List Nat × Int)) (data : List Nat) (size : Int),
      transport0.in_sync → transport0.fragment_size ≠ 0 → transport0.reassembly_sequence = 0 →
      1 ≤ size → size ≤ transport0.max_size_single_send →
      ∃ transport r, transport_sends limits transport0 sends = some transport ∧
        transport_send_reliably_and_in_order limits transport data size = some r ∧
        r.reassembly_sequence =
          some (accepted_sends transport0.max_size_single_send sends % 65536)) := by
  refine ⟨fun transport data size hrej => ?_, fun transport data size r h1 h2 hr => ?_,
    fun t0 sends data size hsync hfs hzero h1 h2 => ?_⟩
  · unfold transport_send_reliably_and_in_order
    by_cases hlt : size < 1
    · rw [if_pos hlt]
    · rw [if_neg hlt, if_pos (by omega)]
  · exact (send_props limits transport data size r hr).2.2.2 h1 h2
  · obtain ⟨t, ht, hsync1, hfs1⟩ := sends_total limits sends t0 hsync hfs
    obtain ⟨r, hr, -⟩ := send_total limits t data size hsync1 (by rw [hfs1]; exact hfs)
    have hp := sends_props limits sends t0 t (by rw [hzero]; decide) ht
    refine ⟨t, r, ht, hr, ?_⟩
    rw [((send_props limits t data size r hr).2.2.2 h1 (by rw [hp.1]; exact h2)).1, hp.2, hzero,
      Nat.zero_add]

set_option maxRecDepth 100000 in
/-- C13 on `sample_transport`. The first send of the 5-byte payload `1, ..., 5` is assigned the
reassembly sequence 0 and the second one the reassembly sequence 1, and both hand the same bytes
`0, 1, 2, 3, 4, 5, 0, 0, 0` to the ack system: line 655 copies the payload over the sequence
that line 653 wrote. A transport whose counter is at 77 hands on the same bytes again. The
second send of a 26-byte payload, which is fragmented, carries its reassembly sequence 1 in the
bytes 1 and 2 of both fragments. -/
theorem transport_send_single_carries_evaluation :
    (transport_send_reliably_and_in_order sample_limits sample_transport (sample_payload 5)
        5).map (fun r => (r.reassembly_sequence, r.handed)) =
      some (some 0, [([0, 1, 2, 3, 4, 5, 0, 0, 0], 5)]) ∧
    sample_after_send.reassembly_sequence = 1 ∧
    (transport_send_reliably_and_in_order sample_limits sample_after_send (sample_payload 5)
        5).map (fun r => (r.reassembly_sequence, r.handed)) =
      some (some 1, [([0, 1, 2, 3, 4, 5, 0, 0, 0], 5)]) ∧
    (transport_send_reliably_and_in_order sample_limits
        { sample_transport with reassembly_sequence := 77 } (sample_payload 5)
        5).map (fun r => (r.reassembly_sequence, r.handed)) =
      some (some 77, [([0, 1, 2, 3, 4, 5, 0, 0, 0], 5)]) ∧
    (transport_send_reliably_and_in_order sample_limits sample_after_send (sample_payload 26)
        26).map (fun r => (r.reassembly_sequence, r.handed.map (fun h => h.1.take 9))) =
      some (some 1, [[1, 1, 0, 2, 0, 0, 0, 16, 0], [1, 1, 0, 2, 0, 1, 0, 10, 0]]) := by
  refine ⟨?_, ?_, ?_, ?_, ?_⟩ <;> decide

/-! ## Reliable transport: what the fragments carry -/

set_option maxRecDepth 100000 in
/-- C14 at two payloads on `sample_transport` (`fragment_size = 16`). For the 26 bytes
`1, ..., 26` the second fragment is built from the first 10 bytes of the payload, not from
bytes 17..26, and the sizes handed to the ack system are 16 and 10, the payload sizes, not
`9 + 16` and `9 + 10`. For the 32 bytes `1, ..., 32` the second and last fragment has payload
size 0. -/
theorem transport_send_fragments_evaluation :
    (transport_send_reliably_and_in_order sample_limits sample_transport (sample_payload 26)
        26).map (fun r => r.handed) =
      some [([1, 0, 0, 2, 0, 0, 0, 16, 0] ++ sample_payload 16, 16),
        ([1, 0, 0, 2, 0, 1, 0, 10, 0] ++ sample_payload 10, 10)] ∧
    (transport_send_reliably_and_in_order sample_limits sample_transport (sample_payload 32)
        32).map (fun r => r.handed) =
      some [([1, 0, 0, 2, 0, 0, 0, 16, 0] ++ sample_payload 16, 16),
        ([1, 0, 0, 2, 0, 1, 0, 0, 0], 0)] := by
  decide

set_option maxRecDepth 100000 in
/-- C15 at the 26-byte payload `1, ..., 26` on `sample_transport`: the two fragment packets
handed to the ack system are `sample_fragment_0` and `sample_fragment_1`; fed in order to the
receiving `sample_transport` they complete reassembly sequence 0 with a packet of size 32 whose
bytes are 7 payload bytes, 9 bytes never written, the payload byte 1 again and 15 bytes never
written: neither the size nor the bytes of the original payload. -/
theorem transport_round_trip_evaluation :
    sample_fragment_packets = [sample_fragment_0, sample_fragment_1] ∧
    (transport_process_packets sample_transport sample_fragment_packets).map
        (fun t => (sequence_buffer_find t.reliable_received_packets 0,
          t.reliable_received_packets.entry_data[0]?)) =
      some (some 0, some
        { size := 32
          packet := some ([1, 2, 3, 4, 5, 6, 7] ++ List.replicate 9 170 ++ [1] ++
            List.replicate 15 170) }) := by
  decide

/-! ## Reliable transport: receiving fragments -/

/-- C16: while the reassembly of sequence `r` is in progress (`sequence_buffer_find` returns its
entry), a packet for `r` whose fragment index has its received flag set is rejected:
`transport_process_packet` returns -1 and leaves the whole transport unchanged, so the
reassembly entry of `r` (buffer, flags, count) and `reliable_received_packets` are as before. -/
theorem transport_process_packet_duplicate (transport : transport_t) (data : List Nat)
    (size : Int) (slot : Nat) (reassembly : fragment_reassembly_entry_t) (flags : List Nat)
    (flag : Nat)
    (hfind : sequence_buffer_find transport.fragment_reassembly (read_uint16 (data.drop 1)) =
      some slot)
    (hentry : transport.fragment_reassembly.entry_data[slot]? = some reassembly)
    (hflags : reassembly.fragment_received = some flags)
    (hflag : flags[read_uint16 (data.drop 5)]? = some flag) (hset : flag ≠ 0) :
    transport_process_packet transport data size =
      some { ret := some (-1), transport := transport } := by
  unfold transport_process_packet
  simp only []
  split
  · rfl
  · split
    · rfl
    · split
      · rfl
      · split
        · rfl
        · simp only [hfind, transport_process_fragment, hentry, hflags, hflag]
          split
          · rfl
          · rfl

set_option maxRecDepth 100000 in
theorem transport_process_packet_duplicate_witness :
    transport_process_packet sample_in_progress sample_fragment_0.1 sample_fragment_0.2 =
      some { ret := some (-1), transport := sample_in_progress } :=
  transport_process_packet_duplicate sample_in_progress sample_fragment_0.1 sample_fragment_0.2
    0 ⟨32, some ([1, 2, 3, 4, 5, 6, 7] ++ List.replicate 25 170), 1, 2, some [1, 0], 0, 0⟩
    [1, 0] 1
    (by decide) (by decide) rfl (by decide) (by decide)

set_option maxRecDepth 100000 in
/-- C17 on `sample_transport`: after both fragments of reassembly sequence 0 have been
processed the packet is complete (no reassembly entry, an entry in `reliable_received_packets`).
Processing fragment 0 again creates a new reassembly entry for sequence 0 with one fragment
received, and processing fragment 1 again completes sequence 0 a second time: the entry in
`reliable_received_packets` is written anew (here with 85 for the bytes never written, where
the first completion left 170). -/
theorem transport_duplicate_after_completion_evaluation :
    sequence_buffer_find sample_completed.fragment_reassembly 0 = none ∧
    sequence_buffer_find sample_completed.reliable_received_packets 0 = some 0 ∧
    (transport_process_packets { sample_completed with uninitialized := 85 }
        [sample_fragment_0]).map
      (fun t => (sequence_buffer_find t.fragment_reassembly 0,
        (t.fragment_reassembly.entry_data[0]?).map (fun e => e.fragment_count_so_far))) =
      some (some 0, some 1) ∧
    (transport_process_packets { sample_completed with uninitialized := 85 }
        [sample_fragment_0, sample_fragment_1]).map
      (fun t => (sequence_buffer_find t.fragment_reassembly 0,
        sequence_buffer_find t.reliable_received_packets 0,
        t.reliable_received_packets.entry_data[0]?)) =
      some (none, some 0, some
        { size := 32
          packet := some ([1, 2, 3, 4, 5, 6, 7] ++ List.replicate 9 85 ++ [1] ++
            List.replicate 15 85) }) := by
  decide

set_option maxRecDepth 100000 in
/-- C18 on `sample_transport`: when fragment 1 is processed as the last missing fragment of the
reassembly entry that a repeated fragment 0 created for the already completed sequence 0, the
buffer `reliable_received_packets` holds an entry for sequence 0 before the call; the call
completes the packet (the fragment count reaches 2, the reassembly entry is removed). -/
theorem transport_completion_over_entry_evaluation :
    (transport_process_packets sample_completed [sample_fragment_0]).map
      (fun t => (sequence_buffer_find t.reliable_received_packets 0,
        (t.fragment_reassembly.entry_data[0]?).map
          (fun e => (e.fragment_count_so_far, e.fragments_total, e.fragment_received)))) =
      some (some 0, some (1, 2, some [1, 0])) ∧
    (transport_process_packets sample_completed [sample_fragment_0, sample_fragment_1]).map
      (fun t => (sequence_buffer_find t.fragment_reassembly 0,
        sequence_buffer_find t.reliable_received_packets 0)) = some (none, some 0) := by
  decide

set_option maxRecDepth 100000 in
/-- C19 on `sample_transport` after one send of 5 bytes and no received packet: no reassembly
sequence has been completed (`reliable_received_packets` holds no entry for sequence 0), yet
`transport_recieve` returns 0, hands out the never written slot 0, and moves on to sequence 1. -/
theorem transport_recieve_evaluation :
    sample_after_send.reassembly_sequence = 1 ∧
    sample_after_send.last_acked_reassembly_sequence = 0 ∧
    sequence_buffer_find sample_after_send.reliable_received_packets 0 = none ∧
    (transport_recieve sample_after_send).ret = 0 ∧
    (transport_recieve sample_after_send).entry = some { size := 0, packet := none } ∧
    (transport_recieve sample_after_send).transport.last_acked_reassembly_sequence = 1 := by
  decide

set_option maxRecDepth 100000 in
/-- C20 on `sample_transport` after a fragment of reassembly sequence 100 (the current sequence
of `fragment_reassembly` is 101, its capacity 4): a fragment of the stale sequence 50 makes
`sequence_buffer_insert` return `NULL`, and `transport_process_packet` writes through it. -/
theorem transport_process_stale_evaluation :
    sample_advanced.fragment_reassembly.sequence = 101 ∧
    s_sequence_is_stale sample_advanced.fragment_reassembly 50 = true ∧
    sequence_buffer_find sample_advanced.fragment_reassembly 50 = none ∧
    (sequence_buffer_insert sample_advanced.fragment_reassembly 50
      (some s_fragment_reassembly_entry_cleanup)).1 = none ∧
    (transport_process_packet sample_advanced sample_stale_fragment.1
      sample_stale_fragment.2).isNone = true := by
  decide

/-! ## Protocol size limits -/

/-- C22 as stated fails: `CUTE_PROTOCOL_PACKET_SIZE_MAX` is `CUTE_KB + 256` with
`CUTE_KB = 1024`, which is 1280 and not 1463. -/
theorem protocol_packet_size_max_counterexample :
    CUTE_KB = 1024 ∧ CUTE_PROTOCOL_PACKET_SIZE_MAX = 1280 ∧
      ¬ (CUTE_PROTOCOL_PACKET_SIZE_MAX = 1463 ∧ CUTE_PROTOCOL_PACKET_PAYLOAD_MAX = 1205 ∧
        CUTE_PROTOCOL_PACKET_PAYLOAD_MAX < CUTE_PROTOCOL_PACKET_SIZE_MAX) := by
  decide

/-- C22, amended: `CUTE_PROTOCOL_PACKET_SIZE_MAX` evaluates to 1280 (1 KB + 256),
`CUTE_PROTOCOL_PACKET_PAYLOAD_MAX` evaluates to 1205, and the payload maximum is smaller than the
packet maximum. -/
theorem protocol_size_limits :
    CUTE_PROTOCOL_PACKET_SIZE_MAX = 1280 ∧ CUTE_PROTOCOL_PACKET_PAYLOAD_MAX = 1205 ∧
      CUTE_PROTOCOL_PACKET_PAYLOAD_MAX < CUTE_PROTOCOL_PACKET_SIZE_MAX := by
  decide

/-! ## Sequence buffer: what a removal touches -/

theorem run_cleanup_getElem_ne {α : Type} (c : Option (α → α)) (d : List α) (i j : Nat)
    (hij : i ≠ j) : (run_cleanup c d i)[j]? = d[j]? := by
  unfold run_cleanup
  split
  · rw [List.getElem?_set_ne hij]
  · rfl

theorem remove_tag {α : Type} (b : sequence_buffer_t α) (s : Nat) (c : Option (α → α))
    (j : Nat) :
    (sequence_buffer_remove b s c).tag j =
      if s % 65536 % b.capacity = j then ENTRY_EMPTY else b.tag j := by
  unfold sequence_buffer_remove
  simp only []
  split
  · simp only [sequence_buffer_t.tag, getD_set_tag]
    by_cases hj : s % 65536 % b.capacity = j
    · rw [if_pos hj]
      split
      · rfl
      · rename_i hlen
        simp only [hj, true_and, not_lt] at hlen
        simp [List.getD_eq_getElem?_getD, List.getElem?_eq_none hlen]
    · rw [if_neg hj, if_neg (fun h => hj h.1)]
  · rename_i hempty
    simp only [ne_eq, not_not] at hempty
    by_cases hj : s % 65536 % b.capacity = j
    · rw [if_pos hj, ← hj, hempty]
    · rw [if_neg hj]

theorem remove_data_ne {α : Type} (b : sequence_buffer_t α) (s : Nat) (c : Option (α → α))
    (j : Nat) (hj : s % 65536 % b.capacity ≠ j) :
    (sequence_buffer_remove b s c).entry_data[j]? = b.entry_data[j]? := by
  unfold sequence_buffer_remove
  simp only []
  split
  · exact run_cleanup_getElem_ne c _ _ _ hj
  · rfl

theorem remove_of_empty {α : Type} (b : sequence_buffer_t α) (s : Nat) (c : Option (α → α))
    (h : b.tag (s % 65536 % b.capacity) = ENTRY_EMPTY) : sequence_buffer_remove b s c = b := by
  unfold sequence_buffer_remove
  simp only [h, ne_eq, not_true_eq_false, if_false]

theorem remove_frame {α : Type} (b : sequence_buffer_t α) (s : Nat) (c : Option (α → α)) :
    (∀ t, t % 65536 % b.capacity ≠ s % 65536 % b.capacity →
      sequence_buffer_find (sequence_buffer_remove b s c) t = sequence_buffer_find b t) ∧
    (∀ t, t % 65536 % b.capacity = s % 65536 % b.capacity →
      sequence_buffer_find (sequence_buffer_remove b s c) t = none) ∧
    (∀ j, j ≠ s % 65536 % b.capacity →
      (sequence_buffer_remove b s c).entry_data[j]? = b.entry_data[j]?) ∧
    (sequence_buffer_is_empty b s = true → sequence_buffer_remove b s c = b) := by
  refine ⟨fun t ht => ?_, fun t ht => ?_, fun j hj => remove_data_ne b s c j (Ne.symm hj),
    fun h => ?_⟩
  · unfold sequence_buffer_find
    simp only [(remove_props b s c).1, remove_tag, if_neg (Ne.symm ht)]
  · rw [find_eq_none_iff, (remove_props b s c).1, remove_tag, if_pos ht.symm]
    have : t % 65536 < 65536 := Nat.mod_lt _ (by decide)
    simp only [ENTRY_EMPTY]
    omega
  · apply remove_of_empty
    simpa [sequence_buffer_is_empty] using h

set_option maxRecDepth 100000 in
/-- C28 as stated fails: in a buffer of capacity 4 that holds only sequence 5 (in slot 1),
sequence 1 is not present, yet `sequence_buffer_remove` for sequence 1 empties slot 1: sequence 5
is not found afterwards, and the cleanup callback has been called on slot 1. -/
theorem sequence_buffer_remove_counterexample :
    sequence_buffer_find sample_buffer_5 1 = none ∧
    sequence_buffer_find sample_buffer_5 5 = some 1 ∧
    sample_buffer_5.entry_data = [0, 0, 0, 0] ∧
    sequence_buffer_find (sequence_buffer_remove sample_buffer_5 1 counting_cleanup) 5 = none ∧
    (sequence_buffer_remove sample_buffer_5 1 counting_cleanup).entry_data = [0, 1, 0, 0] := by
  decide

/-- C28, amended: `sequence_buffer_remove` for `seq` empties the slot `seq mod capacity` whatever
sequence it holds. Afterwards no sequence of that slot is found (`seq` included); for every
sequence `t` of another slot `sequence_buffer_find` returns what it returned before, and the
contents of every other slot are as before; if the slot is empty (`sequence_buffer_is_empty`)
the call changes nothing, for every cleanup callback, so it calls none. -/
theorem sequence_buffer_remove_frame {α : Type} (buffer : sequence_buffer_t α) (seq : Nat)
    (cleanup_fn : Option (α → α)) :
    (∀ t, t % 65536 % buffer.capacity ≠ seq % 65536 % buffer.capacity →
      sequence_buffer_find (sequence_buffer_remove buffer seq cleanup_fn) t =
        sequence_buffer_find buffer t) ∧
    (∀ t, t % 65536 % buffer.capacity = seq % 65536 % buffer.capacity →
      sequence_buffer_find (sequence_buffer_remove buffer seq cleanup_fn) t = none) ∧
    (∀ j, j ≠ seq % 65536 % buffer.capacity →
      (sequence_buffer_remove buffer seq cleanup_fn).entry_data[j]? = buffer.entry_data[j]?) ∧
    (sequence_buffer_is_empty buffer seq = true →
      sequence_buffer_remove buffer seq cleanup_fn = buffer) :=
  remove_frame buffer seq cleanup_fn

set_option maxRecDepth 100000 in
theorem sequence_buffer_remove_frame_witness :
    sequence_buffer_find (sequence_buffer_remove sample_buffer_5 6 counting_cleanup) 5 =
        sequence_buffer_find sample_buffer_5 5 ∧
      sequence_buffer_find (sequence_buffer_remove sample_buffer_5 5 counting_cleanup) 5 = none ∧
      (sequence_buffer_remove sample_buffer_5 5 counting_cleanup).entry_data[0]? =
        sample_buffer_5.entry_data[0]? ∧
      sequence_buffer_remove sample_buffer_5 6 counting_cleanup = sample_buffer_5 :=
  ⟨(sequence_buffer_remove_frame sample_buffer_5 6 counting_cleanup).1 5 (by decide),
    (sequence_buffer_remove_frame sample_buffer_5 5 counting_cleanup).2.1 5 (by decide),
    (sequence_buffer_remove_frame sample_buffer_5 5 counting_cleanup).2.2.1 0 (by decide),
    (sequence_buffer_remove_frame sample_buffer_5 6 counting_cleanup).2.2.2 (by decide)⟩

/-! ## Sequence buffer: cleanup calls -/

set_option maxRecDepth 100000 in
/-- C24 on a reset buffer of capacity 4 whose slots count the cleanup calls made on them. The
insert of sequence 0 calls the cleanup callback on slot 0, which is empty and was never inserted
into. After the further insert of sequence 5, which evicts sequence 0, the callback has been
called twice on slot 0 and once on each of the slots 1, 2 and 3, none of which held an entry
when it was called; one entry has been evicted in all. -/
theorem sequence_buffer_cleanup_evaluation :
    sample_counting_buffer.entry_sequence = List.replicate 4 ENTRY_EMPTY ∧
    sample_counting_buffer.entry_data = [0, 0, 0, 0] ∧
    (sequence_buffer_insert sample_counting_buffer 0 counting_cleanup).2.entry_sequence =
      [0, ENTRY_EMPTY, ENTRY_EMPTY, ENTRY_EMPTY] ∧
    (sequence_buffer_insert sample_counting_buffer 0 counting_cleanup).2.entry_data =
      [1, 0, 0, 0] ∧
    (sequence_buffer_insert
      (sequence_buffer_insert sample_counting_buffer 0 counting_cleanup).2 5
        counting_cleanup).2.entry_sequence = [ENTRY_EMPTY, 5, ENTRY_EMPTY, ENTRY_EMPTY] ∧
    (sequence_buffer_insert
      (sequence_buffer_insert sample_counting_buffer 0 counting_cleanup).2 5
        counting_cleanup).2.entry_data = [2, 1, 1, 1] := by
  decide

/-! ## Reliable transport: validation of a received fragment -/

set_option maxRecDepth 100000 in
/-- C25 on `sample_transport`. A packet whose header says fragment 3 of 2 is rejected with -1,
and fragment 1 of 2 is processed. A packet whose header says fragment 2 of 2 passes the test
`fragment_index > fragment_count`; the flag array of the new reassembly entry has 2 entries and
the read of `fragment_received[2]` is outside it. A packet with `fragment_count = 0` and
`fragment_index = 0` passes as well and reads `fragment_received[0]` of an array of 0 entries. -/
theorem transport_process_packet_index_evaluation :
    (transport_process_packet sample_transport sample_fragment_index_3.1
      sample_fragment_index_3.2).map (fun r => r.ret) = some (some (-1)) ∧
    (transport_process_packet sample_transport sample_fragment_1.1
      sample_fragment_1.2).map
        (fun r => (r.ret, (r.transport.fragment_reassembly.entry_data[0]?).map
          (fun e => e.fragment_received))) = some (none, some (some [0, 1])) ∧
    read_uint16 (sample_fragment_index_2.1.drop 3) = 2 ∧
    read_uint16 (sample_fragment_index_2.1.drop 5) = 2 ∧
    (transport_process_packet sample_transport sample_fragment_index_2.1
      sample_fragment_index_2.2).isNone = true ∧
    read_uint16 (sample_fragment_count_0.1.drop 3) = 0 ∧
    read_uint16 (sample_fragment_count_0.1.drop 5) = 0 ∧
    (transport_process_packet sample_transport sample_fragment_count_0.1
      sample_fragment_count_0.2).isNone = true := by
  decide

set_option maxRecDepth 100000 in
/-- C26 on `sample_transport`. A packet of 9 bytes whose header says fragment size 9 is
processed (0 bytes are copied). A packet of 9 bytes whose header says fragment size 16 passes
the validation, and the copy of `16 - 9 = 7` bytes reads past the end of the packet, which has
`9 - 9 = 0` bytes after the header. A packet whose header says fragment size 0 passes as well,
and the number of bytes to copy is `0 - 9 = -9`. -/
theorem transport_process_packet_copy_evaluation :
    (transport_process_packet sample_transport sample_header_only_9.1
      sample_header_only_9.2).isSome = true ∧
    (read_uint16 (sample_header_only_16.1.drop 7) : Int) - CUTE_TRANSPORT_HEADER_SIZE = 7 ∧
    sample_header_only_16.2 - CUTE_TRANSPORT_HEADER_SIZE = 0 ∧
    (transport_process_packet sample_transport sample_header_only_16.1
      sample_header_only_16.2).isNone = true ∧
    (read_uint16 (sample_fragment_size_0.1.drop 7) : Int) - CUTE_TRANSPORT_HEADER_SIZE = -9 ∧
    (transport_process_packet sample_transport sample_fragment_size_0.1
      sample_fragment_size_0.2).isNone = true := by
  decide

set_option maxRecDepth 100000 in
/-- C27 on `sample_transport` (`fragment_size = 16`) for the two fragment packets of a 26-byte
payload, whose headers give the fragment sizes 16 and 10: when the second one completes
reassembly sequence 0, the size recorded in `reliable_received_packets` is `2 * 16 = 32`, not
26, and `transport_recieve` hands out the entry with size 32. -/
theorem transport_completed_size_evaluation :
    sample_full_fragments.map (fun p => read_uint16 (p.1.drop 7)) = [16, 10] ∧
    (transport_process_packets sample_transport sample_full_fragments).map
      (fun t => (sequence_buffer_find t.fragment_reassembly 0,
        sequence_buffer_find t.reliable_received_packets 0,
        (t.reliable_received_packets.entry_data[0]?).map (fun e => e.size))) =
      some (none, some 0, some 32) ∧
    (transport_process_packets sample_transport sample_full_fragments).map
      (fun t => ((transport_recieve { t with reassembly_sequence := 1 }).ret,
        ((transport_recieve { t with reassembly_sequence := 1 }).entry).map (fun e => e.size))) =
      some (0, some 32) := by
  decide

/-! ## Ack system: the divisions and the buffers of the bandwidth estimators -/

theorem DBL_MAX_pos : (0 : ℚ) < DBL_MAX := by
  unfold DBL_MAX
  norm_num

set_option maxRecDepth 100000 in
theorem sample_sent_system_sent_packets :
    sample_sent_system.sent_packets =
      { sequence := 3, capacity := 4, entry_sequence := [0, 1, 2, ENTRY_EMPTY],
        entry_data := [⟨0, 0, 9⟩, ⟨0, 0, 9⟩, ⟨0, 0, 9⟩, ⟨0, 0, 0⟩] } := by
  decide

theorem sample_sent_system_bandwidth_fold :
    (List.range sample_sent_system.sent_packets.capacity).foldl
        (bandwidth_step sample_sent_system.sent_packets) ((0 : Int), DBL_MAX, (0 : ℚ)) =
      (27, 0, 0) := by
  rw [sample_sent_system_sent_packets]
  simp [List.range, List.range.loop, bandwidth_step, sequence_buffer_at_index,
    sequence_buffer_t.tag, ENTRY_EMPTY, DBL_MAX_pos]

theorem sample_two_sent_bandwidth_fold :
    (List.range sample_two_sent.capacity).foldl
        (bandwidth_step sample_two_sent) ((0 : Int), DBL_MAX, (0 : ℚ)) = (128, 0, 1) := by
  simp [sample_two_sent, List.range, List.range.loop, bandwidth_step, sequence_buffer_at_index,
    sequence_buffer_t.tag, ENTRY_EMPTY, DBL_MAX_pos]

theorem sample_two_sent_bandwidth (bandwidth : ℚ) (h : 0 ≤ bandwidth) :
    s_calc_bandwidth bandwidth sample_two_sent = bandwidth + (1 / 8 - bandwidth) * (1 / 10) := by
  unfold s_calc_bandwidth
  simp only [sample_two_sent_bandwidth_fold]
  rw [if_pos (by norm_num [DBL_MAX])]
  have h1 : ¬ bandwidth + (((128 : Int) : ℚ) / 1024 / (1 - 0) - bandwidth) * (1 / 10) < 0 := by
    norm_num
    linarith
  rw [if_neg h1]
  norm_num

theorem reset_tag {α : Type} (b : sequence_buffer_t α) (c : Option (α → α)) (j : Nat) :
    (sequence_buffer_reset b c).tag j = ENTRY_EMPTY := by
  unfold sequence_buffer_t.tag
  rw [(reset_props b c).2.2.1, List.getD_eq_getElem?_getD]
  by_cases hj : j < b.capacity
  · rw [List.getElem?_replicate, if_pos hj]
    rfl
  · rw [List.getElem?_eq_none (by simp; omega)]
    rfl

theorem bandwidth_fold_of_empty (sb : sequence_buffer_t sent_packet_t)
    (h : ∀ i, sb.tag i = ENTRY_EMPTY) (ks : List Nat) (acc : Int × ℚ × ℚ) :
    ks.foldl (bandwidth_step sb) acc = acc := by
  induction ks generalizing acc with
  | nil => rfl
  | cons k ks ih =>
    rw [List.foldl_cons]
    have : bandwidth_step sb acc k = acc := by
      unfold bandwidth_step sequence_buffer_at_index
      simp only [h k, ne_eq, not_true_eq_false, if_false]
    rw [this]
    exact ih acc

theorem calc_bandwidth_of_empty (bandwidth : ℚ) (sb : sequence_buffer_t sent_packet_t)
    (h : ∀ i, sb.tag i = ENTRY_EMPTY) : s_calc_bandwidth bandwidth sb = bandwidth := by
  unfold s_calc_bandwidth
  simp only [bandwidth_fold_of_empty sb h, ne_eq, not_true_eq_false, if_false]

set_option maxRecDepth 100000 in
/-- C29. On the ack system that `ack_system_make` returns, before any packet is sent,
`s_calc_packet_loss` counts no occupied entry and divides the drop count 0 by the packet count
0. On the ack system after three sends made at the same time 0, the loop of `s_calc_bandwidth`
leaves 27 bytes, the oldest time stamp 0 and the newest time stamp 0: the guard
`start_timestamp != DBL_MAX` is passed and the division is by `0 - 0 = 0`. -/
theorem ack_system_update_division_evaluation :
    packet_loss_counts sample_ack_system.sent_packets = (0, 0) ∧
    (List.range sample_sent_system.sent_packets.capacity).foldl
        (bandwidth_step sample_sent_system.sent_packets) ((0 : Int), DBL_MAX, (0 : ℚ)) =
      (27, 0, 0) ∧
    (0 : ℚ) ≠ DBL_MAX ∧ (0 : ℚ) - 0 = 0 :=
  ⟨by decide, sample_sent_system_bandwidth_fold, ne_of_lt DBL_MAX_pos, sub_zero 0⟩

/-- C30. For every ack system, `ack_system_update` computes the incoming bandwidth from its
previous value and the sent-packets buffer, and the outgoing bandwidth from its previous value
and the received-packets buffer (read through `sent_packet_t`). On the sample ack system with
two packets of 64 bytes sent at the times 0 and 1 and nothing received, the update leaves the
outgoing bandwidth at 0 and moves the incoming bandwidth to `(128 / 1024 / 1) / 10 = 1 / 80`. -/
theorem ack_system_update_bandwidth_evaluation :
    (∀ (ack_system : ack_system_t) (dt : ℚ) (padding : Nat → Int),
      ack_system_bandwidth_incoming_kbps (ack_system_update ack_system dt padding) =
          s_calc_bandwidth ack_system.incoming_bandwidth_kbps ack_system.sent_packets ∧
        ack_system_bandwidth_outgoing_kbps (ack_system_update ack_system dt padding) =
          s_calc_bandwidth ack_system.outgoing_bandwidth_kbps
            (received_packets_as_sent padding ack_system.received_packets)) ∧
    (∀ (dt : ℚ) (padding : Nat → Int),
      ack_system_bandwidth_outgoing_kbps
          (ack_system_update { sample_ack_system with sent_packets := sample_two_sent } dt
            padding) = 0 ∧
        ack_system_bandwidth_incoming_kbps
          (ack_system_update { sample_ack_system with sent_packets := sample_two_sent } dt
            padding) = 1 / 80) := by
  have hgen : ∀ (ack_system : ack_system_t) (dt : ℚ) (padding : Nat → Int),
      ack_system_bandwidth_incoming_kbps (ack_system_update ack_system dt padding) =
          s_calc_bandwidth ack_system.incoming_bandwidth_kbps ack_system.sent_packets ∧
        ack_system_bandwidth_outgoing_kbps (ack_system_update ack_system dt padding) =
          s_calc_bandwidth ack_system.outgoing_bandwidth_kbps
            (received_packets_as_sent padding ack_system.received_packets) :=
    fun _ _ _ => ⟨rfl, rfl⟩
  refine ⟨hgen, fun dt padding => ⟨?_, ?_⟩⟩
  · rw [(hgen _ dt padding).2]
    exact calc_bandwidth_of_empty _ _ (fun i => reset_tag _ none i)
  · rw [(hgen _ dt padding).1]
    exact (sample_two_sent_bandwidth 0 (le_refl _)).trans (by norm_num)

/-! ## Sequence buffer: the window invariant -/

theorem window_invariant_advanced {α : Type} (b : sequence_buffer_t α) (hseq : b.sequence < 65536)
    (hinv : window_invariant b) (hdvd : b.capacity ∣ 65536) (hC : b.capacity ≤ 32768)
    (s : Nat) (hs : s < 65536) (c : Option (α → α)) :
    window_invariant (advanced_buffer b s c) := by
  obtain ⟨m, hm⟩ := hdvd
  have ha := advanced_buffer_props b s c
  intro j hne
  rw [ha.2.2.2.2 j] at hne ⊢
  rw [ha.1, ha.2.1]
  by_cases hcl : cleared_by_remove_entries b.capacity b.sequence s j
  · rw [if_pos hcl] at hne
    exact absurd rfl hne
  · rw [if_neg hcl] at hne ⊢
    obtain ⟨ht, hmod, hw1, hw2⟩ := hinv j hne
    refine ⟨ht, hmod, ?_⟩
    revert hw1 hw2 ht hmod hcl
    generalize b.tag j = t
    generalize b.sequence = cur at hseq
    generalize hcap : b.capacity = C at hm hC
    intro hcl ht hmod hw1 hw2
    rw [Nat.mod_eq_of_lt ht] at hw1 hw2
    unfold in_window
    rw [Nat.mod_eq_of_lt ht]
    by_contra hbad
    apply hcl
    have hCpos : 0 < C := by
      rcases Nat.eq_zero_or_pos C with h0 | h0
      · rw [h0] at hm; omega
      · exact h0
    have hjC : j < C := by rw [← hmod]; exact Nat.mod_lt _ hCpos
    unfold cleared_by_remove_entries
    have hfull : ∃ k ∈ List.range C, k = j := ⟨j, List.mem_range.2 hjC, rfl⟩
    by_cases hw : s < cur
    · simp only [if_pos hw]
      by_cases hlt : ((s + 65536 : Nat) : Int) - cur < C
      · rw [if_pos hlt]
        refine ⟨C - (cur + 65536 - t) % 65536, ?_, ?_⟩
        · rw [List.mem_range]; omega
        · rw [← hmod]
          apply mod_capacity_of_dvd C m _ _ hm
          omega
      · rw [if_neg hlt]; exact hfull
    · simp only [if_neg hw]
      by_cases hlt : ((s : Nat) : Int) - cur < C
      · rw [if_pos hlt]
        refine ⟨C - (cur + 65536 - t) % 65536, ?_, ?_⟩
        · rw [List.mem_range]; omega
        · rw [← hmod]
          apply mod_capacity_of_dvd C m _ _ hm
          omega
      · rw [if_neg hlt]; exact hfull

theorem window_invariant_store {α : Type} (b : sequence_buffer_t α)
    (hinv : window_invariant b) (s : Nat) (hs : s < 65536) (c : Option (α → α))
    (hw : in_window b.sequence b.capacity s) :
    window_invariant (sequence_buffer_store b s c).2 := by
  have hp := store_props b s c
  intro j hne
  rw [hp.2.2.2.2.2 j] at hne ⊢
  rw [hp.2.1, hp.2.2.1]
  split
  · rename_i hj
    exact ⟨hs, hj.1, hw⟩
  · rename_i hj
    rw [if_neg hj] at hne
    exact hinv j hne

theorem window_invariant_insert {α : Type} (b : sequence_buffer_t α) (hseq : b.sequence < 65536)
    (hinv : window_invariant b) (hdvd : b.capacity ∣ 65536) (h2 : 2 ≤ b.capacity)
    (hC : b.capacity ≤ 32768) (s : Nat) (c : Option (α → α)) :
    window_invariant (sequence_buffer_insert b s c).2 := by
  rw [← insert_mod]
  have hs : s % 65536 < 65536 := Nat.mod_lt _ (by decide)
  revert hs
  generalize s % 65536 = s1
  intro hs
  cases hgt : s_sequence_greater_than (s1 + 1) b.sequence
  · cases hst : s_sequence_is_stale b s1
    · rw [insert_of_not_stale b s1 c hs hgt hst]
      apply window_invariant_store b hinv s1 hs c
      have hCm : b.capacity % 65536 = b.capacity := Nat.mod_eq_of_lt (by omega)
      rw [gt_eq_false_iff] at hgt
      simp only [s_sequence_is_stale, s_sequence_less_than, gt_eq_false_iff, hCm] at hst
      unfold in_window
      rw [Nat.mod_eq_of_lt hs]
      omega
    · rw [insert_of_stale b s1 c hs hgt hst]
      exact hinv
  · rw [insert_of_gt b s1 c hs hgt]
    have ha := advanced_buffer_props b s1 c
    apply window_invariant_store _ (window_invariant_advanced b hseq hinv hdvd hC s1 hs c) s1 hs c
    rw [ha.1, ha.2.1]
    unfold in_window
    rw [Nat.mod_eq_of_lt hs]
    omega

theorem advance_eq {α : Type} (b : sequence_buffer_t α) (s : Nat) :
    sequence_buffer_advance b s = b ∨
      sequence_buffer_advance b s = advanced_buffer b (s % 65536) none := by
  unfold sequence_buffer_advance advanced_buffer
  simp only []
  split
  · exact Or.inr rfl
  · exact Or.inl rfl

theorem window_invariant_remove {α : Type} (b : sequence_buffer_t α)
    (hinv : window_invariant b) (s : Nat) (c : Option (α → α)) :
    window_invariant (sequence_buffer_remove b s c) := by
  have hp := remove_props b s c
  intro j hne
  rw [remove_tag] at hne ⊢
  rw [hp.1, hp.2.1]
  split
  · rename_i hj
    rw [if_pos hj] at hne
    exact absurd rfl hne
  · rename_i hj
    rw [if_neg hj] at hne
    exact hinv j hne

theorem window_invariant_reset {α : Type} (b : sequence_buffer_t α) (c : Option (α → α)) :
    window_invariant (sequence_buffer_reset b c) :=
  fun j hne => absurd (reset_tag b c j) hne

theorem remove_wf {α : Type} (b : sequence_buffer_t α) (s : Nat) (c : Option (α → α))
    (hwf : b.wf) : (sequence_buffer_remove b s c).wf := by
  have hp := remove_props b s c
  obtain ⟨hcap, hlen, hdat, hseq⟩ := hwf
  exact ⟨by rw [hp.1]; exact hcap, by rw [hp.2.2.1, hp.1]; exact hlen,
    by rw [hp.2.2.2, hp.1]; exact hdat, by rw [hp.2.1]; exact hseq⟩

theorem advance_wf {α : Type} (b : sequence_buffer_t α) (s : Nat) (hwf : b.wf) :
    (sequence_buffer_advance b s).wf := by
  rcases advance_eq b s with h | h
  · rw [h]; exact hwf
  · rw [h]
    have ha := advanced_buffer_props b (s % 65536) none
    obtain ⟨hcap, hlen, hdat, -⟩ := hwf
    exact ⟨by rw [ha.1]; exact hcap, by rw [ha.2.2.1, ha.1]; exact hlen,
      by rw [ha.2.2.2.1, ha.1]; exact hdat, by rw [ha.2.1]; exact Nat.mod_lt _ (by decide)⟩

theorem advance_capacity {α : Type} (b : sequence_buffer_t α) (s : Nat) :
    (sequence_buffer_advance b s).capacity = b.capacity := by
  rcases advance_eq b s with h | h
  · rw [h]
  · rw [h]; exact (advanced_buffer_props b (s % 65536) none).1

theorem insert_capacity {α : Type} (b : sequence_buffer_t α) (s : Nat) (c : Option (α → α)) :
    (sequence_buffer_insert b s c).2.capacity = b.capacity := by
  rw [← insert_mod]
  have hs : s % 65536 < 65536 := Nat.mod_lt _ (by decide)
  cases h : (sequence_buffer_insert b (s % 65536) c).1 with
  | none => rw [(insert_none_props b _ c hs h).1]
  | some slot => exact (insert_some_props b _ c hs slot h).2.1

theorem reachable_from_reset_props {α : Type} (b : sequence_buffer_t α)
    (h : reachable_from_reset b) :
    b.wf ∧ (b.capacity ∣ 65536 → 2 ≤ b.capacity → b.capacity ≤ 32768 → window_invariant b) := by
  induction h with
  | reset b c h => exact ⟨reset_wf b c h, fun _ _ _ => window_invariant_reset b c⟩
  | insert b s c _ ih =>
    refine ⟨insert_wf b s c ih.1, fun hdvd h2 hC => ?_⟩
    rw [insert_capacity] at hdvd h2 hC
    exact window_invariant_insert b ih.1.2.2.2 (ih.2 hdvd h2 hC) hdvd h2 hC s c
  | remove b s c _ ih =>
    refine ⟨remove_wf b s c ih.1, fun hdvd h2 hC => ?_⟩
    rw [(remove_props b s c).1] at hdvd h2 hC
    exact window_invariant_remove b (ih.2 hdvd h2 hC) s c
  | advance b s _ ih =>
    refine ⟨advance_wf b s ih.1, fun hdvd h2 hC => ?_⟩
    rw [advance_capacity] at hdvd h2 hC
    rcases advance_eq b s with h | h
    · rw [h]; exact ih.2 hdvd h2 hC
    · rw [h]
      exact window_invariant_advanced b ih.1.2.2.2 (ih.2 hdvd h2 hC) hdvd hC (s % 65536)
        (Nat.mod_lt _ (by decide)) none

theorem find_none_of_window_invariant {α : Type} (b : sequence_buffer_t α)
    (hinv : window_invariant b) (seq : Nat) (hout : ¬ in_window b.sequence b.capacity seq) :
    sequence_buffer_find b seq = none := by
  rw [find_eq_none_iff]
  intro htag
  have hlt : seq % 65536 < 65536 := Nat.mod_lt _ (by decide)
  have hne : b.tag (seq % 65536 % b.capacity) ≠ ENTRY_EMPTY := by
    rw [htag]; simp only [ENTRY_EMPTY]; omega
  have hw := (hinv _ hne).2.2
  rw [htag] at hw
  apply hout
  unfold in_window at hw ⊢
  rw [Nat.mod_mod] at hw
  exact hw

/-- C23: the window invariant. For every capacity `C` that divides 65536 with
`2 ≤ C ≤ 32768`, in every buffer state reached from a reset buffer by calls of
`sequence_buffer_insert`, `sequence_buffer_remove` and `sequence_buffer_advance`, every non-empty
slot `i` holds a 16-bit tag `seq` with `seq mod C = i` that lies in the window
`[current - C, current)` modulo 65536, and `sequence_buffer_find` returns `NULL` for every
sequence outside that window. -/
theorem sequence_buffer_window_invariant {α : Type} (buffer : sequence_buffer_t α)
    (hreach : reachable_from_reset buffer) (hdvd : buffer.capacity ∣ 65536)
    (h2 : 2 ≤ buffer.capacity) (hC : buffer.capacity ≤ 32768) :
    (∀ i, buffer.tag i ≠ ENTRY_EMPTY →
      buffer.tag i < 65536 ∧ buffer.tag i % buffer.capacity = i ∧
        in_window buffer.sequence buffer.capacity (buffer.tag i)) ∧
    (∀ seq, ¬ in_window buffer.sequence buffer.capacity seq →
      sequence_buffer_find buffer seq = none) :=
  ⟨(reachable_from_reset_props buffer hreach).2 hdvd h2 hC,
    find_none_of_window_invariant buffer ((reachable_from_reset_props buffer hreach).2 hdvd h2 hC)⟩

set_option maxRecDepth 100000 in
theorem sequence_buffer_window_invariant_witness :
    (sample_buffer_window.tag 3 < 65536 ∧
      sample_buffer_window.tag 3 % sample_buffer_window.capacity = 3 ∧
      in_window sample_buffer_window.sequence sample_buffer_window.capacity
        (sample_buffer_window.tag 3)) ∧
    sequence_buffer_find sample_buffer_window 1 = none :=
  ⟨(sequence_buffer_window_invariant sample_buffer_window
      (reachable_from_reset.advance _ 8
        (reachable_from_reset.insert _ 7 counting_cleanup
          (reachable_from_reset.remove _ 2 counting_cleanup
            (reachable_from_reset.insert _ 5 none
              (reachable_from_reset.reset _ counting_cleanup (by decide))))))
      (by decide) (by decide) (by decide)).1 3 (by decide),
    (sequence_buffer_window_invariant sample_buffer_window
      (reachable_from_reset.advance _ 8
        (reachable_from_reset.insert _ 7 counting_cleanup
          (reachable_from_reset.remove _ 2 counting_cleanup
            (reachable_from_reset.insert _ 5 none
              (reachable_from_reset.reset _ counting_cleanup (by decide))))))
      (by decide) (by decide) (by decide)).2 1 (by decide)⟩

/-! ## Reliable transport: what a received packet touches -/

theorem fold_remove_entry_data {α : Type} (c : Option (α → α)) (f : Nat → Nat) (ks : List Nat)
    (b : sequence_buffer_t α) (j : Nat) (hj : ¬ ∃ k ∈ ks, f k = j) :
    (ks.foldl (fun buf k => remove_entry buf (f k) c) b).entry_data[j]? = b.entry_data[j]? := by
  induction ks generalizing b with
  | nil => rfl
  | cons k ks ih =>
    rw [List.foldl_cons]
    have hk : f k ≠ j := fun h => hj ⟨k, List.mem_cons_self _ _, h⟩
    have hks : ¬ ∃ k1 ∈ ks, f k1 = j := by
      rintro ⟨k1, hk1, hk2⟩
      exact hj ⟨k1, List.mem_cons_of_mem _ hk1, hk2⟩
    rw [ih (remove_entry b (f k) c) hks]
    exact run_cleanup_getElem_ne c _ _ _ hk

theorem remove_entries_data {α : Type} (b : sequence_buffer_t α) (a e : Nat)
    (c : Option (α → α)) (j : Nat) (hj : ¬ cleared_by_remove_entries b.capacity a e j) :
    (s_sequence_buffer_remove_entries b a e c).entry_data[j]? = b.entry_data[j]? := by
  unfold s_sequence_buffer_remove_entries
  unfold cleared_by_remove_entries at hj
  by_cases h : ((if e < a then e + 65536 else e : Nat) : Int) - a < b.capacity
  · simp only [h, if_true] at hj ⊢
    exact fold_remove_entry_data c (fun k => (a + k) % b.capacity) _ b j hj
  · simp only [h, if_false] at hj ⊢
    exact fold_remove_entry_data c (fun k => k) _ b j hj

theorem store_slot_unchanged {α : Type} (b : sequence_buffer_t α) (s : Nat) (c : Option (α → α))
    (j : Nat) (hj : j ≠ s % b.capacity) :
    slot_unchanged b (sequence_buffer_store b s c).2 j := by
  refine ⟨?_, ?_⟩
  · rw [(store_props b s c).2.2.2.2.2 j, if_neg (fun h => hj h.1.symm)]
  · simp only [sequence_buffer_store]
    split
    · exact run_cleanup_getElem_ne c _ _ _ (Ne.symm hj)
    · rfl

theorem insert_slot_unchanged {α : Type} (b : sequence_buffer_t α) (s : Nat) (hs : s < 65536)
    (c : Option (α → α)) (j : Nat) (hj : ¬ touched_by_insert b s j) :
    slot_unchanged b (sequence_buffer_insert b s c).2 j := by
  unfold touched_by_insert at hj
  rw [not_or] at hj
  obtain ⟨hj1, hj2⟩ := hj
  cases hgt : s_sequence_greater_than (s + 1) b.sequence
  · cases hst : s_sequence_is_stale b s
    · rw [insert_of_not_stale b s c hs hgt hst]
      exact store_slot_unchanged b s c j hj1
    · rw [insert_of_stale b s c hs hgt hst]
      exact ⟨rfl, rfl⟩
  · rw [insert_of_gt b s c hs hgt]
    have hcl : ¬ cleared_by_remove_entries b.capacity b.sequence s j := fun h => hj2 ⟨hgt, h⟩
    have ha := advanced_buffer_props b s c
    have h1 := store_slot_unchanged (advanced_buffer b s c) s c j (by rw [ha.1]; exact hj1)
    refine ⟨h1.1.trans ?_, h1.2.trans ?_⟩
    · rw [ha.2.2.2.2 j, if_neg hcl]
    · exact remove_entries_data b b.sequence s c j hcl

theorem set_data_slot_unchanged {α : Type} (b : sequence_buffer_t α) (slot : Nat) (x : α)
    (j : Nat) (hj : j ≠ slot) :
    slot_unchanged b { b with entry_data := b.entry_data.set slot x } j :=
  ⟨rfl, List.getElem?_set_ne (Ne.symm hj)⟩

theorem slot_unchanged_trans {α : Type} (b1 b2 b3 : sequence_buffer_t α) (j : Nat)
    (h12 : slot_unchanged b1 b2 j) (h23 : slot_unchanged b2 b3 j) : slot_unchanged b1 b3 j :=
  ⟨h23.1.trans h12.1, h23.2.trans h12.2⟩

theorem remove_slot_unchanged {α : Type} (b : sequence_buffer_t α) (s : Nat)
    (c : Option (α → α)) (j : Nat) (hj : j ≠ s % 65536 % b.capacity) :
    slot_unchanged b (sequence_buffer_remove b s c) j :=
  ⟨by rw [remove_tag, if_neg (Ne.symm hj)], remove_data_ne b s c j (Ne.symm hj)⟩

/-- What `transport_store_fragment` leaves alone when it returns. -/
theorem store_fragment_props (T : transport_t) (slot : Nat)
    (reassembly : fragment_reassembly_entry_t) (flags packet buffer : List Nat)
    (r count idx fsize : Nat) (total : Int) (res : process_packet_result_t)
    (hr : r < 65536) (hslot : slot = r % T.fragment_reassembly.capacity)
    (h : transport_store_fragment T slot reassembly flags packet buffer r count idx fsize total =
      some res) :
    res.ret = none ∧
      res.transport.fragment_reassembly.capacity = T.fragment_reassembly.capacity ∧
      res.transport.reliable_received_packets.capacity = T.reliable_received_packets.capacity ∧
      (∀ j, j ≠ slot →
        slot_unchanged T.fragment_reassembly res.transport.fragment_reassembly j) ∧
      (∀ j, ¬ touched_by_insert T.reliable_received_packets r j →
        slot_unchanged T.reliable_received_packets res.transport.reliable_received_packets j) := by
  unfold transport_store_fragment at h
  simp only [] at h
  split at h
  · exact absurd h (by simp)
  · split at h
    · split at h
      · exact absurd h (by simp)
      · rename_i entry hentry
        have := Option.some.inj h
        subst this
        have hp := insert_some_props T.reliable_received_packets r none hr entry hentry
        refine ⟨rfl, ?_, hp.2.1, fun j hj => ?_, fun j hj => ?_⟩
        · exact (remove_props _ r _).1
        · refine slot_unchanged_trans _ _ _ j
            (set_data_slot_unchanged T.fragment_reassembly slot _ j hj)
            (remove_slot_unchanged _ r _ j ?_)
          rw [Nat.mod_eq_of_lt hr]
          rw [hslot] at hj
          exact hj
        · refine slot_unchanged_trans _ _ _ j
            (insert_slot_unchanged T.reliable_received_packets r hr none j hj)
            (set_data_slot_unchanged _ entry _ j ?_)
          rw [hp.1]
          exact fun h => hj (Or.inl h)
    · have := Option.some.inj h
      subst this
      exact ⟨rfl, rfl, rfl,
        fun j hj => set_data_slot_unchanged T.fragment_reassembly slot _ j hj,
        fun j _ => ⟨rfl, rfl⟩⟩

/-- The two ways in which `transport_process_fragment` returns: it rejects the packet and leaves
the transport as it is, or it stores the fragment. -/
theorem process_fragment_props (T : transport_t) (slot : Nat) (buffer : List Nat)
    (r count idx fsize : Nat) (total : Int) (res : process_packet_result_t)
    (hr : r < 65536) (hslot : slot = r % T.fragment_reassembly.capacity)
    (h : transport_process_fragment T slot buffer r count idx fsize total = some res) :
    (res.ret = some (-1) ∧ res.transport = T ∧
      ∃ e, T.fragment_reassembly.entry_data[slot]? = some e ∧
        ((count : Int) ≠ e.fragments_total ∨
          ∃ flags flag, e.fragment_received = some flags ∧ flags[idx]? = some flag ∧
            flag ≠ 0)) ∨
    (res.ret = none ∧
      res.transport.fragment_reassembly.capacity = T.fragment_reassembly.capacity ∧
      res.transport.reliable_received_packets.capacity = T.reliable_received_packets.capacity ∧
      (∀ j, j ≠ slot →
        slot_unchanged T.fragment_reassembly res.transport.fragment_reassembly j) ∧
      (∀ j, ¬ touched_by_insert T.reliable_received_packets r j →
        slot_unchanged T.reliable_received_packets
          res.transport.reliable_received_packets j)) := by
  unfold transport_process_fragment at h
  split at h
  · exact absurd h (by simp)
  · rename_i e he
    split at h
    · rename_i hne
      have := Option.some.inj h
      subst this
      exact Or.inl ⟨rfl, rfl, e, he, Or.inl hne⟩
    · split at h
      · exact absurd h (by simp)
      · rename_i flags hflags
        split at h
        · exact absurd h (by simp)
        · rename_i flag hflag
          split at h
          · rename_i hset
            have := Option.some.inj h
            subst this
            exact Or.inl ⟨rfl, rfl, e, he, Or.inr ⟨flags, flag, hflags, hflag, hset⟩⟩
          · split at h
            · exact absurd h (by simp)
            · rename_i packet hpacket
              exact Or.inr
                (store_fragment_props T slot e flags packet buffer r count idx fsize total res
                  hr hslot h)

theorem read_uint16_lt (buffer : List Nat) : read_uint16 buffer < 65536 := by
  unfold read_uint16
  omega

/-- What `transport_process_packet` leaves alone when it returns. -/
theorem process_packet_props (T : transport_t) (data : List Nat) (size : Int)
    (res : process_packet_result_t) (h : transport_process_packet T data size = some res) :
    (res.ret = some (-1) → res.transport = T) ∧
      res.transport.fragment_reassembly.capacity = T.fragment_reassembly.capacity ∧
      res.transport.reliable_received_packets.capacity = T.reliable_received_packets.capacity ∧
      (∀ j, ¬ touched_by_insert T.fragment_reassembly (read_uint16 (data.drop 1)) j →
        slot_unchanged T.fragment_reassembly res.transport.fragment_reassembly j) ∧
      (∀ j, ¬ touched_by_insert T.reliable_received_packets (read_uint16 (data.drop 1)) j →
        slot_unchanged T.reliable_received_packets
          res.transport.reliable_received_packets j) := by
  have hr : read_uint16 (data.drop 1) < 65536 := read_uint16_lt _
  have hsame : ∀ res1 : process_packet_result_t,
      (some { ret := some (-1), transport := T } : Option process_packet_result_t) = some res1 →
      (res1.ret = some (-1) → res1.transport = T) ∧
      res1.transport.fragment_reassembly.capacity = T.fragment_reassembly.capacity ∧
      res1.transport.reliable_received_packets.capacity =
        T.reliable_received_packets.capacity ∧
      (∀ j, ¬ touched_by_insert T.fragment_reassembly (read_uint16 (data.drop 1)) j →
        slot_unchanged T.fragment_reassembly res1.transport.fragment_reassembly j) ∧
      (∀ j, ¬ touched_by_insert T.reliable_received_packets (read_uint16 (data.drop 1)) j →
        slot_unchanged T.reliable_received_packets
          res1.transport.reliable_received_packets j) := by
    intro res1 h1
    have := Option.some.inj h1
    subst this
    exact ⟨fun _ => rfl, rfl, rfl, fun j _ => ⟨rfl, rfl⟩, fun j _ => ⟨rfl, rfl⟩⟩
  unfold transport_process_packet at h
  simp only [] at h
  split at h
  · exact hsame res h
  · split at h
    · exact hsame res h
    · split at h
      · exact hsame res h
      · split at h
        · exact hsame res h
        · split at h
          · rename_i slot hfind
            rw [find_eq_some_iff, Nat.mod_eq_of_lt hr] at hfind
            rcases process_fragment_props T slot _ _ _ _ _ _ res hr hfind.2 h with hrej | hacc
            · obtain ⟨h1, h2, -⟩ := hrej
              rw [h2]
              exact ⟨fun _ => rfl, rfl, rfl, fun j _ => ⟨rfl, rfl⟩, fun j _ => ⟨rfl, rfl⟩⟩
            · obtain ⟨h1, h2, h3, h4, h5⟩ := hacc
              refine ⟨fun hret => ?_, h2, h3, fun j hj => ?_, h5⟩
              · rw [h1] at hret
                exact absurd hret (by simp)
              · apply h4 j
                rw [hfind.2]
                exact fun hjs => hj (Or.inl hjs)
          · split at h
            · exact absurd h (by simp)
            · split at h
              · exact absurd h (by simp)
              · rename_i hnone hfree slot hslot
                have hp := insert_some_props T.fragment_reassembly _
                  (some s_fragment_reassembly_entry_cleanup) hr slot hslot
                have hslot1 : slot = read_uint16 (data.drop 1) %
                    (sequence_buffer_insert T.fragment_reassembly (read_uint16 (data.drop 1))
                      (some s_fragment_reassembly_entry_cleanup)).2.capacity := by
                  rw [hp.2.1]; exact hp.1
                rcases process_fragment_props _ slot _ _ _ _ _ _ res hr hslot1 h with hrej | hacc
                · exfalso
                  obtain ⟨-, -, e, he, hcase⟩ := hrej
                  simp only [List.getElem?_set] at he
                  simp only [if_true] at he
                  split at he
                  · have := Option.some.inj he
                    subst this
                    rcases hcase with hne | ⟨flags, flag, hflags, hflag, hset⟩
                    · exact hne rfl
                    · have := Option.some.inj hflags
                      subst this
                      rw [List.getElem?_replicate] at hflag
                      split at hflag
                      · exact hset (Option.some.inj hflag).symm
                      · exact absurd hflag (by simp)
                  · exact absurd he (by simp)
                · obtain ⟨h1, h2, h3, h4, h5⟩ := hacc
                  refine ⟨fun hret => ?_, h2.trans hp.2.1, h3, fun j hj => ?_, h5⟩
                  · rw [h1] at hret
                    exact absurd hret (by simp)
                  · have hjs : j ≠ slot := by
                      rw [hp.1]
                      exact fun hjs => hj (Or.inl hjs)
                    exact slot_unchanged_trans _ _ _ j
                      (slot_unchanged_trans _ _ _ j
                        (insert_slot_unchanged T.fragment_reassembly _ hr _ j hj)
                        (set_data_slot_unchanged _ slot _ j hjs))
                      (h4 j hjs)

/-- The effect of the cleanup callback on the contents of a slot. -/
theorem run_cleanup_getElem_self {α : Type} (c : Option (α → α)) (d : List α) (i : Nat) :
    (run_cleanup c d i)[i]? = match c with
      | some f => (d[i]?).map f
      | none => d[i]? := by
  unfold run_cleanup
  cases c with
  | none => rfl
  | some f =>
    cases hd : d[i]? with
    | none => simp [hd]
    | some x =>
      simp only [hd, Option.map_some']
      have hi : i < d.length := by
        by_contra hlt
        rw [List.getElem?_eq_none (Nat.le_of_not_lt hlt)] at hd
        exact absurd hd (by simp)
      simp [List.getElem?_set, hi]

theorem fold_remove_entry_data_once {α : Type} (c : Option (α → α)) (f : Nat → Nat)
    (ks : List Nat) (hnodup : (ks.map f).Nodup) (b : sequence_buffer_t α) (j : Nat) :
    (ks.foldl (fun buf k => remove_entry buf (f k) c) b).entry_data[j]? =
      if ∃ k ∈ ks, f k = j then (run_cleanup c b.entry_data j)[j]? else b.entry_data[j]? := by
  induction ks generalizing b with
  | nil => simp
  | cons k ks ih =>
    rw [List.map_cons, List.nodup_cons] at hnodup
    rw [List.foldl_cons, ih hnodup.2]
    by_cases hk : f k = j
    · have hno : ¬ ∃ k1 ∈ ks, f k1 = j := by
        rintro ⟨k1, hk1, hk2⟩
        exact hnodup.1 (List.mem_map.2 ⟨k1, hk1, hk2.trans hk.symm⟩)
      rw [if_neg hno, if_pos ⟨k, List.mem_cons_self _ _, hk⟩, ← hk]
      rfl
    · have hiff : (∃ k1 ∈ k :: ks, f k1 = j) ↔ ∃ k1 ∈ ks, f k1 = j := by
        constructor
        · rintro ⟨k1, hk1, hk2⟩
          rcases List.mem_cons.1 hk1 with rfl | hk1
          · exact absurd hk2 hk
          · exact ⟨k1, hk1, hk2⟩
        · rintro ⟨k1, hk1, hk2⟩
          exact ⟨k1, List.mem_cons_of_mem _ hk1, hk2⟩
      have hsame : (remove_entry b (f k) c).entry_data[j]? = b.entry_data[j]? :=
        run_cleanup_getElem_ne c _ _ _ hk
      have hlen : (remove_entry b (f k) c).entry_data.length = b.entry_data.length :=
        run_cleanup_length _ _ _
      by_cases hex : ∃ k1 ∈ ks, f k1 = j
      · rw [if_pos hex, if_pos (hiff.2 hex), run_cleanup_getElem_self, run_cleanup_getElem_self,
          hsame]
      · rw [if_neg hex, if_neg (fun h => hex (hiff.1 h)), hsame]

theorem range_shift_nodup (a C n : Nat) (hn : n ≤ C) :
    ((List.range n).map (fun k => (a + k) % C)).Nodup := by
  apply List.Nodup.map_on _ (List.nodup_range n)
  intro k1 hk1 k2 hk2 h
  rw [List.mem_range] at hk1 hk2
  have h1 : a + k1 ≡ a + k2 [MOD C] := h
  have h2 : k1 ≡ k2 [MOD C] := Nat.ModEq.add_left_cancel' a h1
  have h3 : k1 % C = k2 % C := h2
  rw [Nat.mod_eq_of_lt (by omega), Nat.mod_eq_of_lt (by omega)] at h3
  exact h3

theorem remove_entries_data_once {α : Type} (b : sequence_buffer_t α) (a e : Nat)
    (c : Option (α → α)) (j : Nat) :
    (s_sequence_buffer_remove_entries b a e c).entry_data[j]? =
      if cleared_by_remove_entries b.capacity a e j then (run_cleanup c b.entry_data j)[j]?
      else b.entry_data[j]? := by
  unfold s_sequence_buffer_remove_entries cleared_by_remove_entries
  by_cases h : ((if e < a then e + 65536 else e : Nat) : Int) - a < b.capacity
  · simp only [h, if_true]
    exact fold_remove_entry_data_once c (fun k => (a + k) % b.capacity) _
      (range_shift_nodup a b.capacity _ (by omega)) b j
  · simp only [h, if_false]
    refine fold_remove_entry_data_once c (fun k => k) _ ?_ b j
    rw [List.map_id']
    exact List.nodup_range _

/-- After `sequence_buffer_insert` every slot holds what it held, or, if the insert touches it,
what one call of the cleanup callback leaves of that. -/
theorem insert_data_cases {α : Type} (b : sequence_buffer_t α) (s : Nat) (hs : s < 65536)
    (c : Option (α → α)) (j : Nat) :
    (sequence_buffer_insert b s c).2.entry_data[j]? = b.entry_data[j]? ∨
      (touched_by_insert b s j ∧
        (sequence_buffer_insert b s c).2.entry_data[j]? = (run_cleanup c b.entry_data j)[j]?) := by
  have hstore : ∀ b1 : sequence_buffer_t α,
      (sequence_buffer_store b1 s c).2.entry_data[j]? = b1.entry_data[j]? ∨
        (j = s % b1.capacity ∧ b1.tag j ≠ ENTRY_EMPTY ∧
          (sequence_buffer_store b1 s c).2.entry_data[j]? =
            (run_cleanup c b1.entry_data j)[j]?) := by
    intro b1
    simp only [sequence_buffer_store]
    split
    · rename_i htag
      by_cases hj : j = s % b1.capacity
      · rw [← hj] at htag ⊢
        exact Or.inr ⟨rfl, htag, rfl⟩
      · exact Or.inl (run_cleanup_getElem_ne c _ _ _ (Ne.symm hj))
    · exact Or.inl rfl
  cases hgt : s_sequence_greater_than (s + 1) b.sequence
  · cases hst : s_sequence_is_stale b s
    · rw [insert_of_not_stale b s c hs hgt hst]
      rcases hstore b with h | ⟨h1, -, h3⟩
      · exact Or.inl h
      · exact Or.inr ⟨Or.inl h1, h3⟩
    · rw [insert_of_stale b s c hs hgt hst]
      exact Or.inl rfl
  · rw [insert_of_gt b s c hs hgt]
    have ha := advanced_buffer_props b s c
    have hd : (advanced_buffer b s c).entry_data[j]? =
        if cleared_by_remove_entries b.capacity b.sequence s j then
          (run_cleanup c b.entry_data j)[j]?
        else b.entry_data[j]? := remove_entries_data_once b b.sequence s c j
    rcases hstore (advanced_buffer b s c) with h | ⟨h1, h2, h3⟩
    · rw [h, hd]
      by_cases hcl : cleared_by_remove_entries b.capacity b.sequence s j
      · rw [if_pos hcl]
        exact Or.inr ⟨Or.inr ⟨hgt, hcl⟩, rfl⟩
      · rw [if_neg hcl]
        exact Or.inl rfl
    · rw [ha.2.2.2.2 j] at h2
      have hcl : ¬ cleared_by_remove_entries b.capacity b.sequence s j := by
        intro hcl
        rw [if_pos hcl] at h2
        exact h2 rfl
      rw [if_neg hcl] at hd
      rw [ha.1] at h1
      refine Or.inr ⟨Or.inl h1, ?_⟩
      rw [h3, run_cleanup_getElem_self, run_cleanup_getElem_self, hd]

theorem cleanup_not_freed_twice (e : fragment_reassembly_entry_t)
    (h : e.packet_frees = 0 ∧ e.fragment_received_frees = 0) :
    freed_twice (s_fragment_reassembly_entry_cleanup e) = false := by
  obtain ⟨h1, h2⟩ := h
  unfold freed_twice s_fragment_reassembly_entry_cleanup CUTE_FREE
  rw [h1, h2]
  cases e.packet <;> cases e.fragment_received <;> simp

/-- The cleanup calls of an insert free nothing twice when nothing has been freed twice before
and no slot that the insert touches holds a freed pointer. -/
theorem insert_not_freed_twice (b : sequence_buffer_t fragment_reassembly_entry_t) (s : Nat)
    (hs : s < 65536) (hwf : b.wf) (hstate : b.entry_data.any freed_twice = false)
    (hclean : ∀ j, j < b.capacity → touched_by_insert b s j → no_dangling_at b j) :
    (sequence_buffer_insert b s (some s_fragment_reassembly_entry_cleanup)).2.entry_data.any
      freed_twice = false := by
  rw [List.any_eq_false] at hstate ⊢
  intro x hx
  obtain ⟨j, hj⟩ := List.mem_iff_getElem?.1 hx
  rcases insert_data_cases b s hs (some s_fragment_reassembly_entry_cleanup) j with h | ⟨ht, h⟩
  · rw [h] at hj
    exact hstate x (List.mem_iff_getElem?.2 ⟨j, hj⟩)
  · rw [h, run_cleanup_getElem_self] at hj
    simp only [] at hj
    cases hb : b.entry_data[j]? with
    | none => rw [hb] at hj; exact absurd hj (by simp)
    | some e =>
      rw [hb, Option.map_some'] at hj
      have hxe := Option.some.inj hj
      have hjlt : j < b.capacity := by
        have : j < b.entry_data.length := by
          by_contra hlt
          rw [List.getElem?_eq_none (Nat.le_of_not_lt hlt)] at hb
          exact absurd hb (by simp)
        rw [hwf.2.2.1] at this
        exact this
      have hnd := hclean j hjlt ht
      unfold no_dangling_at at hnd
      rw [hb] at hnd
      rw [← hxe, cleanup_not_freed_twice e hnd]
      simp

theorem insert_some_of_insertable {α : Type} (b : sequence_buffer_t α) (s : Nat)
    (hs : s < 65536) (c : Option (α → α)) (h : insertable b s) :
    (sequence_buffer_insert b s c).1 = some (s % b.capacity) := by
  cases hgt : s_sequence_greater_than (s + 1) b.sequence
  · rcases h with h | h
    · rw [hgt] at h
      exact absurd h (by simp)
    · rw [insert_of_not_stale b s c hs hgt h, (store_props b s c).1]
  · rw [insert_of_gt b s c hs hgt, (store_props _ s c).1, (advanced_buffer_props b s c).1]

/-- The function `transport_store_fragment` returns when the copy stays inside the packet and
the reassembly buffer and the completed packet can be inserted. -/
theorem store_fragment_total (T : transport_t) (slot : Nat)
    (reassembly : fragment_reassembly_entry_t) (flags packet buffer : List Nat)
    (r count idx fsize : Nat) (total : Int) (hr : r < 65536)
    (hins : insertable T.reliable_received_packets r) (h9 : 9 ≤ fsize)
    (hbuf : (fsize : Int) - 9 ≤ buffer.length) (hfs : 0 ≤ T.fragment_size)
    (hpk : (idx : Int) * T.fragment_size + ((fsize : Int) - 9) ≤ packet.length) :
    ∃ res, transport_store_fragment T slot reassembly flags packet buffer r count idx fsize
      total = some res := by
  unfold transport_store_fragment
  simp only [CUTE_TRANSPORT_HEADER_SIZE]
  have hoff : 0 ≤ (idx : Int) * T.fragment_size := Int.mul_nonneg (Int.ofNat_nonneg _) hfs
  rw [if_neg (by omega)]
  split
  · simp only [insert_some_of_insertable T.reliable_received_packets r hr none hins]
    exact ⟨_, rfl⟩
  · exact ⟨_, rfl⟩

/-- The function `transport_process_fragment` returns when the entry in the slot, if it is one
for the fragment count of the packet, has live arrays that hold the flag and the bytes of the
fragment. -/
theorem process_fragment_total (T : transport_t) (slot : Nat) (buffer : List Nat)
    (r count idx fsize : Nat) (total : Int) (e : fragment_reassembly_entry_t)
    (he : T.fragment_reassembly.entry_data[slot]? = some e)
    (hok : (count : Int) = e.fragments_total →
      ∃ flags packet, e.fragment_received = some flags ∧ e.packet = some packet ∧
        idx < flags.length ∧
        (idx : Int) * T.fragment_size + ((fsize : Int) - 9) ≤ packet.length)
    (hr : r < 65536) (hins : insertable T.reliable_received_packets r) (h9 : 9 ≤ fsize)
    (hbuf : (fsize : Int) - 9 ≤ buffer.length) (hfs : 0 ≤ T.fragment_size) :
    ∃ res, transport_process_fragment T slot buffer r count idx fsize total = some res := by
  unfold transport_process_fragment
  simp only [he]
  split
  · exact ⟨_, rfl⟩
  · rename_i hcount
    rw [ne_eq, not_not] at hcount
    obtain ⟨flags, packet, hflags, hpacket, hidx, hpk⟩ := hok hcount
    simp only [hflags, hpacket, List.getElem?_eq_getElem hidx]
    split
    · exact ⟨_, rfl⟩
    · exact store_fragment_total T slot e flags packet buffer r count idx fsize total hr hins h9
        hbuf hfs hpk

theorem rejected_by_header_result (T : transport_t) (data : List Nat) (size : Int)
    (h : rejected_by_header T data size) :
    transport_process_packet T data size = some { ret := some (-1), transport := T } := by
  unfold rejected_by_header at h
  unfold transport_process_packet
  simp only []
  split
  · rfl
  · split
    · rfl
    · split
      · rfl
      · split
        · rfl
        · rename_i h1 h2 h3 h4
          rcases h with h | h | h | h
          · exact absurd h h1
          · exact absurd h h2
          · exact absurd h h3
          · exact absurd h h4

/-- The function `transport_process_packet` returns on every packet that its header tests
reject and on every packet for which its steps are defined. -/
theorem process_packet_total (T : transport_t) (data : List Nat) (size : Int)
    (hwf : T.fragment_reassembly.wf) (hfs : 0 ≤ T.fragment_size)
    (hfreed : T.fragment_reassembly.entry_data.any freed_twice = false)
    (hdefined : rejected_by_header T data size ∨ process_packet_defined T data size) :
    ∃ res, transport_process_packet T data size = some res := by
  by_cases hrej : rejected_by_header T data size
  · exact ⟨_, rejected_by_header_result T data size hrej⟩
  · rcases hdefined with h | h
    · exact absurd h hrej
    · obtain ⟨hidx, h9, hsz, hlen, hins1, hins2, hentry, hdang⟩ := h
      unfold rejected_by_header at hrej
      simp only [not_or, CUTE_TRANSPORT_HEADER_SIZE] at hrej
      obtain ⟨r1, r2, r3, r4⟩ := hrej
      have hr : read_uint16 (data.drop 1) < 65536 := read_uint16_lt _
      have hbuf : ((read_uint16 (data.drop 7) : Nat) : Int) - 9 ≤ (data.drop 9).length := by
        rw [List.length_drop]
        omega
      have hmul : ((read_uint16 (data.drop 5) : Nat) : Int) * T.fragment_size +
          (((read_uint16 (data.drop 7) : Nat) : Int) - 9) ≤
          ((read_uint16 (data.drop 3) : Nat) : Int) * T.fragment_size := by
        have h1 : (((read_uint16 (data.drop 5) : Nat) : Int) + 1) * T.fragment_size ≤
            ((read_uint16 (data.drop 3) : Nat) : Int) * T.fragment_size :=
          Int.mul_le_mul_of_nonneg_right (by omega) hfs
        rw [Int.add_mul, Int.one_mul] at h1
        omega
      unfold transport_process_packet
      simp only [CUTE_TRANSPORT_HEADER_SIZE]
      rw [if_neg r1, if_neg r2, if_neg r3, if_neg r4]
      cases hfind : sequence_buffer_find T.fragment_reassembly (read_uint16 (data.drop 1)) with
      | some slot =>
        simp only []
        unfold entry_in_progress at hentry
        rw [hfind] at hentry
        simp only [] at hentry
        cases he : T.fragment_reassembly.entry_data[slot]? with
        | none => rw [he] at hentry; exact absurd hentry (by simp)
        | some e =>
          rw [he] at hentry
          simp only [] at hentry
          refine process_fragment_total T slot _ _ _ _ _ _ e he (fun hcount => ?_) hr hins2 h9
            hbuf hfs
          cases hfl : e.fragment_received with
          | none => rw [hfl] at hentry; exact absurd hentry (by simp)
          | some flags =>
            cases hpk : e.packet with
            | none => rw [hfl, hpk] at hentry; exact absurd hentry (by simp)
            | some packet =>
              rw [hfl, hpk] at hentry
              simp only [] at hentry
              refine ⟨flags, packet, rfl, rfl, by omega, ?_⟩
              rw [hentry.2, ← hcount]
              exact hmul
      | none =>
        simp only []
        rw [insert_not_freed_twice T.fragment_reassembly _ hr hwf hfreed hdang]
        simp only [Bool.false_eq_true, if_false,
          insert_some_of_insertable T.fragment_reassembly _ hr _ hins1]
        have hp := insert_some_props T.fragment_reassembly _
          (some s_fragment_reassembly_entry_cleanup) hr _
          (insert_some_of_insertable T.fragment_reassembly _ hr _ hins1)
        have hslot : read_uint16 (data.drop 1) % T.fragment_reassembly.capacity <
            (sequence_buffer_insert T.fragment_reassembly (read_uint16 (data.drop 1))
              (some s_fragment_reassembly_entry_cleanup)).2.entry_data.length := by
          rw [hp.2.2.2.1, hwf.2.2.1]
          exact Nat.mod_lt _ hwf.1
        refine process_fragment_total _ _ _ _ _ _ _ _
          { packet_size := (read_uint16 (data.drop 3) : Int) * T.fragment_size
            packet := some (List.replicate
              ((read_uint16 (data.drop 3) : Int) * T.fragment_size).toNat T.uninitialized)
            fragment_count_so_far := 0
            fragments_total := read_uint16 (data.drop 3)
            fragment_received := some (List.replicate (read_uint16 (data.drop 3)) 0)
            packet_frees := 0
            fragment_received_frees := 0 } ?_ (fun _ => ?_) hr hins2 h9 hbuf hfs
        · simp only [List.getElem?_set, hslot, if_true]
        · refine ⟨_, _, rfl, rfl, by rw [List.length_replicate]; exact hidx, ?_⟩
          rw [List.length_replicate, Int.toNat_of_nonneg
            (Int.mul_nonneg (Int.ofNat_nonneg _) hfs)]
          exact hmul

end cute
